import Mathlib

/-!
# MXKeyboard: the USB control-transfer engine

A shallow embedding of `firmware/usb/device.cxx`, `firmware/usb/descriptors.cxx`,
`firmware/usb.cxx` and `firmware/include/usb/descriptors.hxx`, and the properties of the
control-transfer engine proved about it.

Conventions of the embedding.

* Machine integers are `Nat` (or `Int` where the C++ expression is signed), with the
  conversions the C++ performs written out: `toU8` is the conversion to `uint8_t`,
  `% 65536` the wrap of the 16 bit `std::size_t` and `uint16_t` of the AVR target
  (`static_assert(sizeof(usbMultiPartDesc_t) == 3)` fixes the pointer width at two bytes).
* A data pointer (`const void *`) is an address, a `Nat`; `nullptr` is `0`. Pointer
  arithmetic is arithmetic on addresses; it is not reduced modulo the address space
  (leaving an object is undefined behaviour in the source).
* A pointer to a fragment record (`flash_t<usbMultiPartDesc_t>`) is a position in the
  store of fragment records `Env.flash`, counted in records. The members of
  `usbMultiPartTable_t` are given on positions; `part`, the one member that adds an
  arbitrary index to a pointer, is also given on the 16 bit pointers themselves
  (`partPointer`), and the two agree as long as the sum stays inside the address space.
* The data memory is one map from addresses to bytes, `State.mem`. The setup packet and
  the bytes `activeConfig` and `activeAltMode` live in it, as do the descriptors; the
  endpoint buffers `epBuffer` are kept apart.
* The headers `usb/types.hxx`, `usb/core.hxx`, `usb/device.hxx` and `usb/hid.hxx` are not
  among the sources. Their types are modelled from the specification, their constants
  and the addresses the linker assigns are the fields of `Env`.
* The loop of `writeCtrlEP` takes fuel; `none` means the fuel ran out.
-/

namespace usb

/-! ## Machine words -/

/-- Conversion of a signed value to `uint8_t`. -/
def toU8 (z : Int) : Nat := (z % 256).toNat

/-- The statement `x &= ~mask` on an 8 bit register. -/
def clearBits (x mask : Nat) : Nat := x &&& (255 ^^^ (mask % 256))

/-- The statement `x |= mask` on an 8 bit register. -/
def setBits (x mask : Nat) : Nat := (x ||| mask) % 256

/-! ## `usb/descriptors.hxx` -/

/-- The record `usbMultiPartDesc_t`: one fragment, a `uint8_t` length and the address of
its bytes. -/
structure usbMultiPartDesc_t where
  length : Fin 256
  descriptor : Nat
  deriving DecidableEq, Repr

instance : Inhabited usbMultiPartDesc_t := ⟨⟨0, 0⟩⟩

/-- The record `usbMultiPartTable_t`: the positions `_begin` and `_end` of a run of fragment
records. A table is built from the `begin()` / `end()` pair of one array, so
`_begin ≤ _end`. -/
structure usbMultiPartTable_t where
  _begin : Nat
  _end : Nat
  deriving DecidableEq, Repr

instance : Inhabited usbMultiPartTable_t := ⟨⟨0, 0⟩⟩

namespace usbMultiPartTable_t

/-- The member `count()`: `_end - _begin`. -/
def count (t : usbMultiPartTable_t) : Nat := t._end - t._begin

/-- The member `part(index)`, on positions: the position `_begin + index`, or `_end` when
that position is not before `_end`. Positions do not wrap; this is the member on the
pointers of the target, `partPointer`, for every index for which `_begin + index` stays
inside the 16 bit address space (`partPointer_eq_part`), as every index up to `count()`
does. -/
def part (t : usbMultiPartTable_t) (index : Nat) : Nat :=
  if t._begin + index ≥ t._end then t._end else t._begin + index

/-- The member `totalLength()`: the range-for over the records from `_begin` to `_end`,
accumulating in a `std::size_t` (16 bits). -/
def totalLength (flash : Nat → usbMultiPartDesc_t) (t : usbMultiPartTable_t) : Nat :=
  (List.range' t._begin (t._end - t._begin)).foldl
    (fun count p => (count + (flash p).length.val) % 65536) 0

/-- The fragments `*part(i)` for `i` in `[0, count())`, in order. -/
def parts (flash : Nat → usbMultiPartDesc_t) (t : usbMultiPartTable_t) :
    List usbMultiPartDesc_t :=
  (List.range t.count).map (fun i => flash (t.part i))

end usbMultiPartTable_t

/-- The class `flash_t<usbMultiPartDesc_t>`: the pointer `value_` to a fragment record in
flash, an address of the 16 bits of a pointer of the target. -/
structure flash_t where
  value_ : Nat
  deriving DecidableEq, Repr

/-- The operator `flash_t::operator +(const size_t offset)`, `value_ + offset` on a
pointer to records of 3 bytes (`static_assert(sizeof(T) == 3)`): the 16 bit offset is
scaled by 3 and added in the 16 bits of a pointer. -/
def flash_t.add (p : flash_t) (offset : Nat) : flash_t :=
  ⟨(p.value_ + 3 * (offset % 65536)) % 65536⟩

/-- The operator `flash_t::operator >=`: the comparison of the two pointers. -/
def flash_t.ge (p other : flash_t) : Bool := decide (p.value_ ≥ other.value_)

/-- The member `part(index)` of `usbMultiPartTable_t`, on the pointers `_begin` and `_end`
themselves: `_end` when `_begin + index >= _end`, else `_begin + index`. -/
def usbMultiPartTable_t.partPointer (_begin _end : flash_t) (index : Nat) : flash_t :=
  if (_begin.add index).ge _end then _end else _begin.add index

/-- The pointer to the fragment record at position `p` of a store of fragment records
that starts at the address `base`. -/
def recordPointer (base p : Nat) : flash_t := ⟨base + 3 * p⟩

/-- The enumeration `usbDescriptor_t`, by its `uint8_t` values. -/
inductive usbDescriptor_t
  | invalid | device | configuration | string | interface | endpoint | deviceQualifier
  | otherSpeed | interfacePower | otg | debug | interfaceAssociation | security | key
  | encryptionType | deviceCapability | wirelessEndpoint | hid | report | physicalDesc
  deriving DecidableEq, Repr

/-- The `uint8_t` value of a `usbDescriptor_t`. -/
def usbDescriptor_t.toNat : usbDescriptor_t → Nat
  | .invalid => 0x00 | .device => 0x01 | .configuration => 0x02 | .string => 0x03
  | .interface => 0x04 | .endpoint => 0x05 | .deviceQualifier => 0x06 | .otherSpeed => 0x07
  | .interfacePower => 0x08 | .otg => 0x09 | .debug => 0x0A | .interfaceAssociation => 0x0B
  | .security => 0x0C | .key => 0x0D | .encryptionType => 0x0E | .deviceCapability => 0x10
  | .wirelessEndpoint => 0x11 | .hid => 0x21 | .report => 0x22 | .physicalDesc => 0x23

/-- The enumeration `usbEndpointType_t`, by its `uint8_t` values. -/
inductive usbEndpointType_t
  | control | isochronous | bulk | interrupt
  deriving DecidableEq, Repr

/-- The `uint8_t` value of a `usbEndpointType_t`. -/
def usbEndpointType_t.toNat : usbEndpointType_t → Nat
  | .control => 0 | .isochronous => 1 | .bulk => 2 | .interrupt => 3

/-- The constant `endpointDirMask`. -/
def endpointDirMask : Nat := 0x7F

/-- The record `usbDeviceDescriptor_t`. -/
structure usbDeviceDescriptor_t where
  length : Nat
  descriptorType : Nat
  usbVersion : Nat
  deviceClass : Nat
  deviceSubClass : Nat
  deviceProtocol : Nat
  maxPacketSize0 : Nat
  vendorID : Nat
  productID : Nat
  deviceVersion : Nat
  strMfrIndex : Nat
  strProductIndex : Nat
  strSerialNoIndex : Nat
  numConfigurations : Nat
  deriving DecidableEq, Repr

/-- The object representation of a `usbDeviceDescriptor_t`: its fields in declaration
order, 16 bit fields low byte first, no padding (18 bytes). -/
def usbDeviceDescriptor_t.bytes (d : usbDeviceDescriptor_t) : List Nat :=
  [d.length, d.descriptorType, d.usbVersion % 256, d.usbVersion / 256, d.deviceClass,
   d.deviceSubClass, d.deviceProtocol, d.maxPacketSize0, d.vendorID % 256, d.vendorID / 256,
   d.productID % 256, d.productID / 256, d.deviceVersion % 256, d.deviceVersion / 256,
   d.strMfrIndex, d.strProductIndex, d.strSerialNoIndex, d.numConfigurations]

/-- The record `usbDeviceQualifierDescriptor_t`. -/
structure usbDeviceQualifierDescriptor_t where
  length : Nat
  descriptorType : Nat
  usbVersion : Nat
  deviceClass : Nat
  deviceSubClass : Nat
  deviceProtocol : Nat
  maxPacketSize0 : Nat
  numOtherConfigurations : Nat
  reserved : Nat
  deriving DecidableEq, Repr

/-- The record `usbConfigDescriptor_t`. -/
structure usbConfigDescriptor_t where
  length : Nat
  descriptorType : Nat
  totalLength : Nat
  numInterfaces : Nat
  configurationValue : Nat
  strConfigurationIndex : Nat
  attributes : Nat
  maxPower : Nat
  deriving DecidableEq, Repr

/-- The record `usbInterfaceDescriptor_t`. -/
structure usbInterfaceDescriptor_t where
  length : Nat
  descriptorType : Nat
  interfaceNumber : Nat
  alternateSetting : Nat
  numEndpoints : Nat
  interfaceClass : Nat
  interfaceSubClass : Nat
  interfaceProtocol : Nat
  strInterfaceIdx : Nat
  deriving DecidableEq, Repr

instance : Inhabited usbInterfaceDescriptor_t := ⟨⟨0, 0, 0, 0, 0, 0, 0, 0, 0⟩⟩

/-- The record `usbEndpointDescriptor_t`. -/
structure usbEndpointDescriptor_t where
  length : Nat
  descriptorType : Nat
  endpointAddress : Nat
  endpointType : Nat
  maxPacketSize : Nat
  interval : Nat
  deriving DecidableEq, Repr

instance : Inhabited usbEndpointDescriptor_t := ⟨⟨0, 0, 0, 0, 0, 0⟩⟩

/-- The sizes `sizeof(usbDeviceDescriptor_t)` and so on: the records have alignment 1 on
the target, so a size is the sum of the field widths (the source asserts 10, 9, 9 and 7
for the qualifier, configuration, interface and endpoint records). -/
def sizeofDeviceDescriptor : Nat := 18

/-- The size `sizeof(usbDeviceQualifierDescriptor_t)`. -/
def sizeofDeviceQualifierDescriptor : Nat := 10

/-- The size `sizeof(usbConfigDescriptor_t)`. -/
def sizeofConfigDescriptor : Nat := 9

/-- The size `sizeof(usbInterfaceDescriptor_t)`. -/
def sizeofInterfaceDescriptor : Nat := 9

/-- The size `sizeof(usbEndpointDescriptor_t)`. -/
def sizeofEndpointDescriptor : Nat := 7

/-- The size `sizeof(hid::hidDescriptor_t)`. -/
def sizeofHidDescriptor : Nat := 6

/-- The size `sizeof(hid::reportDescriptor_t)`. -/
def sizeofReportDescriptor : Nat := 3

/-- The record `usbStringDesc_t` (packed): length, type, and the address of the code
units. -/
structure usbStringDesc_t where
  length : Nat
  descriptorType : Nat
  string : Nat
  deriving DecidableEq, Repr

namespace usbStringDesc_t

/-- The member `baseLength()`: `sizeof(usbStringDesc_t) - sizeof(char16_t *)`, the packed
record being two bytes and a two byte pointer. -/
def baseLength : Nat := toU8 (4 - 2)

/-- The constructor from a `std::u16string_view`, given as the address of its data and
its number of code units. -/
def ofView (data : Nat) (len : Nat) : usbStringDesc_t :=
  { length := toU8 (baseLength + (len % 65536) * 2 % 65536)
    descriptorType := usbDescriptor_t.string.toNat
    string := data }

/-- The member `stringLength()`. -/
def stringLength (d : usbStringDesc_t) : Nat := toU8 ((d.length : Int) - baseLength)

/-- The member `asParts()`; `this` is the address of the record. -/
def asParts (d : usbStringDesc_t) (this : Nat) : List usbMultiPartDesc_t :=
  [⟨Fin.ofNat baseLength, this⟩, ⟨Fin.ofNat d.stringLength, d.string⟩]

end usbStringDesc_t

/-! ## `usb/types.hxx`, `usb/core.hxx` (declarations) -/

/-- Modelled from the spec: the responder outcome `response_t` of `usb/types.hxx`
(absent), "outcome ∈ {data, zero-length-ack, stall, unhandled}". -/
inductive response_t
  | data | zeroLength | unhandled | stall
  deriving DecidableEq, Repr

/-- Modelled from the spec: the memory kind `memory_t` of `usb/types.hxx` (absent),
"memory kind ∈ {RAM, constant-memory}". -/
inductive memory_t
  | sram | flash
  deriving DecidableEq, Repr

/-- Modelled from the spec: the Device State `deviceState_t` of `usb/types.hxx` (absent). -/
inductive deviceState_t
  | detached | attached | powered | waiting | addressing | addressed
  deriving DecidableEq, Repr

/-- Modelled from the spec: the Control State `ctrlState_t` of `usb/types.hxx` (absent). -/
inductive ctrlState_t
  | idle | wait | dataRX | dataTX | statusRX | statusTX
  deriving DecidableEq, Repr

/-- Modelled from the spec: the direction `endpointDir_t` of `usb/types.hxx` (absent);
controller-in is a USB IN transfer (device to host), controller-out a USB OUT transfer. -/
inductive endpointDir_t
  | controllerOut | controllerIn
  deriving DecidableEq, Repr

/-- The `uint8_t` value of a direction: the top bit of an endpoint address or of a
request type. -/
def endpointDir_t.toNat : endpointDir_t → Nat
  | .controllerOut => 0x00
  | .controllerIn => 0x80

/-- Modelled from the spec: the result tuple `answer_t` of `usb/types.hxx` (absent),
"{outcome, source pointer-or-null, byte length, memory kind}". -/
structure answer_t where
  response : response_t
  data : Nat
  size : Nat
  memoryType : memory_t
  deriving DecidableEq, Repr

/-- Modelled from the spec: the Transfer Status `usbEPStatus_t` of `usb/types.hxx`
(absent): cursor, remaining byte count, needs-arming, stall and multi-part flags, memory
kind, part index and the table in use. The widths of `transferCount` and `partNumber` are
not in the sources; they are not reduced. -/
structure usbEPStatus_t where
  memBuffer : Nat
  transferCount : Nat
  needsArming : Bool
  stall : Bool
  isMultiPart : Bool
  memoryType : memory_t
  partNumber : Nat
  partsData : usbMultiPartTable_t
  deriving DecidableEq, Repr

instance : Inhabited usbEPStatus_t := ⟨⟨0, 0, false, false, false, .sram, 0, ⟨0, 0⟩⟩⟩

/-- The register block `USB_EP_t` of one endpoint direction (`avr/io.h`), the registers
the code uses. -/
structure USB_EP_t where
  STATUS : Nat
  CTRL : Nat
  CNT : Nat
  deriving DecidableEq, Repr

instance : Inhabited USB_EP_t := ⟨⟨0, 0, 0⟩⟩

/-- Modelled from the spec: the pair `endpointCtrl_t` of `usb/types.hxx` (absent), the OUT
and the IN half of one endpoint number. -/
structure endpointCtrl_t where
  controllerOut : USB_EP_t
  controllerIn : USB_EP_t
  deriving DecidableEq, Repr

instance : Inhabited endpointCtrl_t := ⟨⟨default, default⟩⟩

/-- Modelled from the spec: the record `usbEP_t` of `usb/types.hxx` (absent), an endpoint
number and a direction. -/
structure usbEP_t where
  endpoint : Nat
  dir : endpointDir_t
  deriving DecidableEq, Repr

/-- The registers of the peripheral `USB` (`avr/io.h`) the code uses; writing a mask to
`INTFLAGSACLR` / `INTFLAGSBCLR` clears those bits of `INTFLAGSA` / `INTFLAGSB`. -/
structure USB_t where
  ADDR : Nat
  INTCTRLA : Nat
  INTCTRLB : Nat
  INTFLAGSA : Nat
  INTFLAGSB : Nat
  deriving DecidableEq, Repr

/-- The constants of `avr/io.h` and the constants and addresses the absent headers and
the linker fix. -/
structure Env where
  /-- The constant `usb::epBufferSize`: the size of an endpoint buffer, the max packet size of
  endpoint 0. -/
  epBufferSize : Nat
  /-- The constant `usb::endpointCount`. -/
  endpointCount : Nat
  /-- The constant `usb::interfaceDescriptorCount`. -/
  interfaceDescriptorCount : Nat
  /-- The constant `usb::endpointDescriptorCount`. -/
  endpointDescriptorCount : Nat
  /-- The constant `usb::vid`. -/
  vid : Nat
  /-- The constant `usb::pid`. -/
  pid : Nat
  /-- The store of fragment records, read through `flash_t<usbMultiPartDesc_t>`. -/
  flash : Nat → usbMultiPartDesc_t
  /-- The mask `vals::usb::usbEPStatusNotReady`. -/
  usbEPStatusNotReady : Nat
  /-- The mask `vals::usb::usbEPStatusNACK0`. -/
  usbEPStatusNACK0 : Nat
  /-- The mask `vals::usb::usbEPStatusNACK1`. -/
  usbEPStatusNACK1 : Nat
  /-- The mask `vals::usb::usbEPStatusStall`. -/
  usbEPStatusStall : Nat
  /-- The mask `vals::usb::usbEPStatusIOComplete`. -/
  usbEPStatusIOComplete : Nat
  /-- The mask `vals::usb::usbEPStatusSetupComplete`. -/
  usbEPStatusSetupComplete : Nat
  /-- The mask `vals::usb::usbEPCtrlStall`. -/
  usbEPCtrlStall : Nat
  /-- The mask `vals::usb::usbEPCtrlItrDisable`. -/
  usbEPCtrlItrDisable : Nat
  /-- The mask `vals::usb::addressMask`. -/
  addressMask : Nat
  /-- The mask `vals::usb::itrStatusSetup`. -/
  itrStatusSetup : Nat
  /-- The mask `vals::usb::itrStatusIOComplete`. -/
  itrStatusIOComplete : Nat
  /-- The mask `vals::usb::itrStatusReset`. -/
  itrStatusReset : Nat
  /-- The mask `vals::usb::itrStatusResume`. -/
  itrStatusResume : Nat
  /-- The mask `vals::usb::itrStatusSuspend`. -/
  itrStatusSuspend : Nat
  /-- The mask `vals::usb::itrStatusSOF`. -/
  itrStatusSOF : Nat
  /-- The mask `vals::usb::intCtrlAEnableBusEvent`. -/
  intCtrlAEnableBusEvent : Nat
  /-- The mask `vals::usb::intCtrlAEnableSOF`. -/
  intCtrlAEnableSOF : Nat
  /-- The mask `vals::usb::intCtrlBEnableIOComplete`. -/
  intCtrlBEnableIOComplete : Nat
  /-- The mask `vals::usb::intCtrlBEnableSetupComplete`. -/
  intCtrlBEnableSetupComplete : Nat
  /-- Modelled from the spec: what `usb::core::resetEPs(epReset_t::user)` (absent) does to
  one user endpoint, "resets all endpoints to a default disabled state (scoped to user
  endpoints, not endpoint 0)". -/
  resetUserEP : endpointCtrl_t → endpointCtrl_t
  /-- The address `&packet`. -/
  addrPacket : Nat
  /-- The address `&activeConfig`. -/
  addrActiveConfig : Nat
  /-- The address `&activeAltMode`. -/
  addrActiveAltMode : Nat
  /-- The address `&usbDeviceDesc`. -/
  addrDeviceDesc : Nat
  /-- The address `&usbDeviceQualifierDesc`. -/
  addrDeviceQualifierDesc : Nat
  /-- The address of `usbConfigDesc[0]`. -/
  addrConfigDesc : Nat
  /-- The address of `usbInterfaceDesc[0]`. -/
  addrInterfaceDesc : Nat
  /-- The address of `usbEndpointDesc[0]`. -/
  addrEndpointDesc : Nat
  /-- The address `&usb::hid::usbKeyboardDesc`. -/
  addrKeyboardDesc : Nat
  /-- The address `&usb::hid::usbKeyboardReportDesc`. -/
  addrKeyboardReportDesc : Nat
  /-- The address of `usbStringDescs[0]`. -/
  addrStringDescs : Nat
  /-- The address of the code units of the string literal of `usbStringDescs[i]`. -/
  addrStringData : Nat → Nat
  /-- The position of `usbConfigSecs[0]` in the store of fragment records. -/
  posConfigSecs : Nat
  /-- The position of `usbStringParts[0][0]` in the store of fragment records. -/
  posStringParts : Nat

/-- The variables of `usb::core` and `usb::device` and the memory they point into.
`mem` is the data memory, one byte per address; the setup packet `packet` and the bytes
`activeConfig` and `activeAltMode` live in it, at the addresses the environment names,
as do the descriptors the fragments point to. -/
structure State where
  endpoints : Nat → endpointCtrl_t
  epBuffer : Nat → Nat → Nat
  usbState : deviceState_t
  usbPacket : usbEP_t
  usbSuspended : Bool
  usbCtrlState : ctrlState_t
  epStatusControllerIn : Nat → usbEPStatus_t
  epStatusControllerOut : Nat → usbEPStatus_t
  mem : Nat → Nat
  USB : USB_t

namespace State

/-- Assignment to fields of `epStatusControllerIn[0]`. -/
def setIn0 (s : State) (f : usbEPStatus_t → usbEPStatus_t) : State :=
  let st := s.epStatusControllerIn 0
  { s with epStatusControllerIn := Function.update s.epStatusControllerIn 0 (f st) }

/-- Assignment to fields of `epStatusControllerOut[0]`. -/
def setOut0 (s : State) (f : usbEPStatus_t → usbEPStatus_t) : State :=
  let st := s.epStatusControllerOut 0
  { s with epStatusControllerOut := Function.update s.epStatusControllerOut 0 (f st) }

/-- Assignment to registers of `endpoints[n].controllerIn`. -/
def setEPIn (s : State) (n : Nat) (f : USB_EP_t → USB_EP_t) : State :=
  let ep := s.endpoints n
  { s with endpoints := Function.update s.endpoints n ⟨ep.controllerOut, f ep.controllerIn⟩ }

/-- Assignment to registers of `endpoints[n].controllerOut`. -/
def setEPOut (s : State) (n : Nat) (f : USB_EP_t → USB_EP_t) : State :=
  let ep := s.endpoints n
  { s with endpoints := Function.update s.endpoints n ⟨f ep.controllerOut, ep.controllerIn⟩ }

/-- The packet endpoint 0 IN is armed with: the first `CNT` bytes of its buffer. -/
def inPacket (s : State) : List Nat :=
  (List.range (s.endpoints 0).controllerIn.CNT).map (s.epBuffer 1)

end State

/-! ## `usb.cxx` -/

/-- The function `usb::core::sendData(ep, bufferPtr, length)`: copies `length` bytes from
`bufferPtr` to the start of the IN buffer of `ep` and returns the advanced pointer. -/
def sendData (s : State) (ep bufferPtr length : Nat) : State × Nat :=
  let length := length % 256
  let outBuffer := (List.range length).foldl
    (fun out i => Function.update out i (s.mem (bufferPtr + i))) (s.epBuffer ((ep <<< 1) + 1))
  ({ s with epBuffer := Function.update s.epBuffer ((ep <<< 1) + 1) outBuffer },
    bufferPtr + length)

/-- Modelled from the spec: the overload `sendData(ep, bufferPtr, length, offset)` that
`writeCtrlEP` calls for a fragment, declared in `usb/core.hxx` (absent):
"copyOut(endpoint, source, length, offset) → newCursor"; the bytes go to the IN buffer
of `ep` from `offset` on. -/
def sendDataOffset (s : State) (ep bufferPtr length offset : Nat) : State × Nat :=
  let length := length % 256
  let offset := offset % 256
  let outBuffer := (List.range length).foldl
    (fun out i => Function.update out (offset + i) (s.mem (bufferPtr + i)))
    (s.epBuffer ((ep <<< 1) + 1))
  ({ s with epBuffer := Function.update s.epBuffer ((ep <<< 1) + 1) outBuffer },
    bufferPtr + length)

/-- The function `usb::core::recvData(ep, bufferPtr, length)`: copies `length` bytes from
the start of the OUT buffer of `ep` to `bufferPtr` and returns the advanced pointer. The
parameter `length` is a `uint8_t`. -/
def recvData (s : State) (ep bufferPtr length : Nat) : State × Nat :=
  let length := length % 256
  let mem := (List.range length).foldl
    (fun out i => Function.update out (bufferPtr + i) (s.epBuffer (ep <<< 1) i)) s.mem
  ({ s with mem := mem }, bufferPtr + length)

/-! ## `usb/device.cxx`: the packet copy routines -/

/-- The function `readCtrlEP`; the result is the returned flag and the state after. -/
def readCtrlEP (s : State) : Bool × State :=
  let epStatus := s.epStatusControllerOut 0
  let ep0 := (s.endpoints 0).controllerOut
  let readCount := if ep0.CNT > epStatus.transferCount then epStatus.transferCount else ep0.CNT
  let transferCount := epStatus.transferCount - readCount
  let r := recvData s 0 epStatus.memBuffer readCount
  let s1 := r.1.setOut0 (fun st => { st with transferCount := transferCount, memBuffer := r.2 })
  let s2 := s1.setEPOut 0 (fun ep => { ep with CNT := 0, STATUS := 0 })
  (transferCount == 0, s2)

/-- The local variables of the `while (sendAmount)` loop of `writeCtrlEP` together with
the state. -/
structure WriteLoop where
  s : State
  sendAmount : Nat
  sendOffset : Nat

/-- One iteration of the body of the `while (sendAmount)` loop of `writeCtrlEP`. -/
def writeCtrlEP.body (env : Env) (w : WriteLoop) : WriteLoop :=
  let epStatus := w.s.epStatusControllerIn 0
  let part := env.flash (epStatus.partsData.part epStatus.partNumber)
  let begin := part.descriptor
  let amount : Int := (part.length.val : Int) - toU8 ((epStatus.memBuffer : Int) - begin)
  let partAmount := if amount > w.sendAmount then w.sendAmount else toU8 amount
  let sendAmount := toU8 ((w.sendAmount : Int) - partAmount)
  let r := sendDataOffset w.s 0 epStatus.memBuffer partAmount w.sendOffset
  let s1 := r.1.setIn0 (fun st => { st with memBuffer := r.2 })
  let sendOffset := toU8 ((w.sendOffset : Int) + partAmount)
  let buffer := r.2
  let s2 :=
    if toU8 ((buffer : Int) - begin) = part.length.val ∧
        epStatus.partNumber + 1 < epStatus.partsData.count then
      s1.setIn0 (fun st =>
        { st with
          partNumber := st.partNumber + 1
          memBuffer := (env.flash (st.partsData.part (st.partNumber + 1))).descriptor })
    else s1
  { s := s2, sendAmount := sendAmount, sendOffset := sendOffset }

/-- The `while (sendAmount)` loop of `writeCtrlEP`, with fuel for its iterations. -/
def writeCtrlEP.loop (env : Env) : Nat → WriteLoop → Option WriteLoop
  | fuel, w =>
    if w.sendAmount = 0 then some w
    else
      match fuel with
      | 0 => none
      | fuel + 1 => writeCtrlEP.loop env fuel (writeCtrlEP.body env w)

/-- The function `writeCtrlEP`; the result is the returned flag and the state after, or
`none` when the fuel does not suffice for the loop over the fragments. -/
def writeCtrlEP (env : Env) (fuel : Nat) (s : State) : Option (Bool × State) :=
  let epStatus := s.epStatusControllerIn 0
  let sendCount :=
    if epStatus.transferCount < env.epBufferSize then epStatus.transferCount % 256
    else env.epBufferSize % 256
  let transferCount := epStatus.transferCount - sendCount
  let s1 := s.setIn0 (fun st => { st with transferCount := transferCount })
  let finish (s : State) : Bool × State :=
    (transferCount == 0,
      s.setEPIn 0 (fun ep =>
        { ep with
          CNT := sendCount
          STATUS := clearBits ep.STATUS (env.usbEPStatusNotReady ||| env.usbEPStatusNACK0) }))
  if !epStatus.isMultiPart then
    let r := sendData s1 0 epStatus.memBuffer sendCount
    some (finish (r.1.setIn0 (fun st => { st with memBuffer := r.2 })))
  else
    let s2 :=
      if epStatus.memBuffer = 0 then
        s1.setIn0 (fun st =>
          { st with memBuffer := (env.flash (st.partsData.part 0)).descriptor })
      else s1
    match writeCtrlEP.loop env fuel { s := s2, sendAmount := sendCount, sendOffset := 0 } with
    | none => none
    | some w =>
      let s3 :=
        if transferCount = 0 then w.s.setIn0 (fun st => { st with isMultiPart := false })
        else w.s
      some (finish s3)

/-- The packets of the calls of `writeCtrlEP` repeated until it returns true, at most
`calls` of them; `none` when the fuel or the calls do not suffice. -/
def writeAll (env : Env) (fuel : Nat) : Nat → State → Option (List (List Nat) × State)
  | 0, _ => none
  | calls + 1, s =>
    match writeCtrlEP env fuel s with
    | none => none
    | some (true, s1) => some ([s1.inPacket], s1)
    | some (false, s1) =>
      match writeAll env fuel calls s1 with
      | none => none
      | some (packets, s2) => some (s1.inPacket :: packets, s2)

/-! ## The bytes of a table -/

/-- The bytes of one fragment: `length` bytes of memory from `descriptor` on. -/
def fragBytes (mem : Nat → Nat) (f : usbMultiPartDesc_t) : List Nat :=
  (List.range f.length.val).map (fun i => mem (f.descriptor + i))

/-- The concatenation of the fragments of a table, in order. -/
def tableBytes (flash : Nat → usbMultiPartDesc_t) (mem : Nat → Nat)
    (t : usbMultiPartTable_t) : List Nat :=
  (t.parts flash).flatMap (fragBytes mem)

/-- The bytes of a table from offset `o` of fragment `j` on. -/
def bytesFrom (flash : Nat → usbMultiPartDesc_t) (mem : Nat → Nat)
    (t : usbMultiPartTable_t) (j o : Nat) : List Nat :=
  (fragBytes mem (flash (t.part j))).drop o ++
    (List.range' (j + 1) (t.count - (j + 1))).flatMap (fun i => fragBytes mem (flash (t.part i)))

/-- A fragment after the first has a null data pointer only if it and all fragments
after it are empty. -/
def nullOnlyAtEnd (flash : Nat → usbMultiPartDesc_t) (t : usbMultiPartTable_t) : Prop :=
  ∀ j, j < t.count → 0 < j → (flash (t.part j)).descriptor = 0 →
    ∀ i, i < t.count → j ≤ i → (flash (t.part i)).length.val = 0

instance (flash : Nat → usbMultiPartDesc_t) (t : usbMultiPartTable_t) :
    Decidable (nullOnlyAtEnd flash t) := by
  unfold nullOnlyAtEnd
  infer_instance


/-- The IN0 Transfer Status in a multi-part transfer of the table `T`, between two calls
of `writeCtrlEP`: the part index is `j`, the cursor is at offset `o` of fragment `j` (or
still null, before the first call), and no more bytes remain to be sent than the table
holds from there on. -/
def MultiPartAt (env : Env) (T : usbMultiPartTable_t) (s : State) (j o : Nat) : Prop :=
  (s.epStatusControllerIn 0).isMultiPart = true ∧
  (s.epStatusControllerIn 0).partsData = T ∧
  (s.epStatusControllerIn 0).partNumber = j ∧
  j < T.count ∧
  o ≤ (env.flash (T.part j)).length.val ∧
  (((s.epStatusControllerIn 0).memBuffer = (env.flash (T.part j)).descriptor + o ∧
      (s.epStatusControllerIn 0).memBuffer ≠ 0) ∨
    ((s.epStatusControllerIn 0).memBuffer = 0 ∧ j = 0 ∧ o = 0)) ∧
  (s.epStatusControllerIn 0).transferCount ≤ (bytesFrom env.flash s.mem T j o).length


/-! ## The setup packet -/

/-- Modelled from the spec: the record `setupPacket_t` of `usb/types.hxx` (absent), "exactly
8 bytes: request-type (direction + type + recipient), request code, a 16-bit value, a
16-bit index, a 16-bit requested length"; 16 bit fields are stored low byte first. -/
structure setupPacket_t where
  requestType : Nat
  request : Nat
  value : Nat
  index : Nat
  length : Nat
  deriving DecidableEq, Repr

namespace setupPacket_t

/-- Modelled from the spec: `requestType.dir()`, the direction bit (bit 7) of the request
type; set means device to host, a controller-in transfer. -/
def dir (p : setupPacket_t) : endpointDir_t :=
  if p.requestType / 128 % 2 = 1 then .controllerIn else .controllerOut

/-- Modelled from the spec: `requestType.type()`, bits 5 and 6 of the request type; 0 is
`typeStandard`. -/
def type (p : setupPacket_t) : Nat := p.requestType / 32 % 4

/-- Modelled from the spec: `value.asDescriptor().index`, the low byte of the value. -/
def descriptorIndex (p : setupPacket_t) : Nat := p.value % 256

/-- Modelled from the spec: `value.asDescriptor().type`, the high byte of the value. -/
def descriptorType (p : setupPacket_t) : Nat := p.value / 256 % 256

/-- Modelled from the spec: `value.asConfiguration()`, the low byte of the value. -/
def asConfiguration (p : setupPacket_t) : Nat := p.value % 256

/-- Modelled from the spec: `value.asAddress().addrL`, the low byte of the value. -/
def addrL (p : setupPacket_t) : Nat := p.value % 256

/-- Modelled from the spec: `value.asAddress().addrH`, the high byte of the value. -/
def addrH (p : setupPacket_t) : Nat := p.value / 256 % 256

end setupPacket_t

/-- Modelled from the spec: the request codes `request_t` of `usb/types.hxx` (absent), the
standard request codes of USB 2.0. -/
def request_t.setAddress : Nat := 5

/-- The request code of GET_DESCRIPTOR. -/
def request_t.getDescriptor : Nat := 6

/-- The request code of GET_CONFIGURATION. -/
def request_t.getConfiguration : Nat := 8

/-- The request code of SET_CONFIGURATION. -/
def request_t.setConfiguration : Nat := 9

/-- The request code of GET_INTERFACE. -/
def request_t.getInterface : Nat := 10

/-- The request code of SET_INTERFACE. -/
def request_t.setInterface : Nat := 11

/-- The 16 bit value stored at an address, low byte first. -/
def read16 (mem : Nat → Nat) (a : Nat) : Nat := mem a % 256 + 256 * (mem (a + 1) % 256)

/-- The variable `packet`: the eight bytes of memory at `&packet`. -/
def State.packet (env : Env) (s : State) : setupPacket_t :=
  { requestType := s.mem env.addrPacket % 256
    request := s.mem (env.addrPacket + 1) % 256
    value := read16 s.mem (env.addrPacket + 2)
    index := read16 s.mem (env.addrPacket + 4)
    length := read16 s.mem (env.addrPacket + 6) }

/-- The variable `activeConfig`: the byte of memory at `&activeConfig`. -/
def State.activeConfig (env : Env) (s : State) : Nat := s.mem env.addrActiveConfig

/-- The variable `activeAltMode`: the byte of memory at `&activeAltMode`. -/
def State.activeAltMode (env : Env) (s : State) : Nat := s.mem env.addrActiveAltMode

/-- The bytes of memory from an address on. -/
def memBytes (mem : Nat → Nat) (a n : Nat) : List Nat :=
  (List.range n).map (fun i => mem (a + i))

/-! ## `usb/descriptors.cxx`: the static descriptors -/

/-- The constant `usb::configDescriptorCount`, declared in `usb/core.hxx` (absent). The
array `usbConfigDescriptors` has that many elements of a type without default
constructor and one initialiser, which fixes the value at 1. -/
def configDescriptorCount : Nat := 1

/-- The constant `usb::stringCount`, declared in `usb/core.hxx` (absent). The array
`usbStrings` has `stringCount + 1` elements of a type without default constructor and
five initialisers, which fixes the value at 4. -/
def stringCount : Nat := 4

/-- The object `usbDeviceDesc`. -/
def usbDeviceDesc (env : Env) : usbDeviceDescriptor_t :=
  { length := sizeofDeviceDescriptor
    descriptorType := usbDescriptor_t.device.toNat
    usbVersion := 0x0200
    deviceClass := 0
    deviceSubClass := 0
    deviceProtocol := 0
    maxPacketSize0 := env.epBufferSize
    vendorID := env.vid
    productID := env.pid
    deviceVersion := 0x0001
    strMfrIndex := 1
    strProductIndex := 2
    strSerialNoIndex := 0
    numConfigurations := configDescriptorCount }

/-- The object `usbDeviceQualifierDesc`. -/
def usbDeviceQualifierDesc (env : Env) : usbDeviceQualifierDescriptor_t :=
  { length := sizeofDeviceQualifierDescriptor
    descriptorType := usbDescriptor_t.deviceQualifier.toNat
    usbVersion := 0x0200
    deviceClass := 0
    deviceSubClass := 0
    deviceProtocol := 0
    maxPacketSize0 := env.epBufferSize
    numOtherConfigurations := 0
    reserved := 0 }

/-- The array `usbConfigDesc`. -/
def usbConfigDesc (env : Env) : List usbConfigDescriptor_t :=
  [{ length := sizeofConfigDescriptor
     descriptorType := usbDescriptor_t.configuration.toNat
     totalLength := sizeofConfigDescriptor + sizeofInterfaceDescriptor + sizeofHidDescriptor +
       sizeofReportDescriptor + sizeofEndpointDescriptor
     numInterfaces := env.interfaceDescriptorCount
     configurationValue := 1
     strConfigurationIndex := 4
     attributes := 0x80
     maxPower := 250 }]

/-- The array `usbInterfaceDesc`: `interfaceDescriptorCount` elements, the first
initialised, the others zero. -/
def usbInterfaceDesc (i : Nat) : usbInterfaceDescriptor_t :=
  if i = 0 then
    { length := sizeofInterfaceDescriptor
      descriptorType := usbDescriptor_t.interface.toNat
      interfaceNumber := 0
      alternateSetting := 0
      numEndpoints := 1
      interfaceClass := 0x03
      interfaceSubClass := 1
      interfaceProtocol := 1
      strInterfaceIdx := 0 }
  else default

/-- The function `endpointAddress(dir, number)`. -/
def endpointAddress (dir : endpointDir_t) (number : Nat) : Nat :=
  dir.toNat ||| (number &&& endpointDirMask)

/-- The array `usbEndpointDesc`: `endpointDescriptorCount` elements, the first
initialised, the others zero. -/
def usbEndpointDesc (env : Env) (i : Nat) : usbEndpointDescriptor_t :=
  if i = 0 then
    { length := sizeofEndpointDescriptor
      descriptorType := usbDescriptor_t.endpoint.toNat
      endpointAddress := endpointAddress .controllerIn 1
      endpointType := usbEndpointType_t.interrupt.toNat
      maxPacketSize := env.epBufferSize
      interval := 1 }
  else default

/-- The array `usbConfigSecs`: six elements, five initialised, the sixth zero. -/
def usbConfigSecs (env : Env) : List usbMultiPartDesc_t :=
  [⟨Fin.ofNat sizeofConfigDescriptor, env.addrConfigDesc⟩,
   ⟨Fin.ofNat sizeofInterfaceDescriptor, env.addrInterfaceDesc⟩,
   ⟨Fin.ofNat sizeofHidDescriptor, env.addrKeyboardDesc⟩,
   ⟨Fin.ofNat sizeofReportDescriptor, env.addrKeyboardReportDesc⟩,
   ⟨Fin.ofNat sizeofEndpointDescriptor, env.addrEndpointDesc⟩,
   ⟨0, 0⟩]

/-- The array `usbConfigDescriptors`: the table over `usbConfigSecs`. -/
def usbConfigDescriptors (env : Env) (i : Nat) : usbMultiPartTable_t :=
  [usbMultiPartTable_t.mk env.posConfigSecs (env.posConfigSecs + 6)].getD i default

/-- The array `usbStringDescs`: the records of the five strings, of 1, 26, 10, 0 and 22
code units. -/
def usbStringDescs (env : Env) : List usbStringDesc_t :=
  [usbStringDesc_t.ofView (env.addrStringData 0) 1,
   usbStringDesc_t.ofView (env.addrStringData 1) 26,
   usbStringDesc_t.ofView (env.addrStringData 2) 10,
   usbStringDesc_t.ofView (env.addrStringData 3) 0,
   usbStringDesc_t.ofView (env.addrStringData 4) 22]

/-- The size `sizeof(usbStringDesc_t)`. -/
def sizeofStringDesc : Nat := 4

/-- The array `usbStringParts`: element `i` is `usbStringDescs[i].asParts()`. -/
def usbStringParts (env : Env) (i : Nat) : List usbMultiPartDesc_t :=
  ((usbStringDescs env).getD i ⟨0, 0, 0⟩).asParts (env.addrStringDescs + sizeofStringDesc * i)

/-- The array `usbStrings`: element `i` is the table over `usbStringParts[i]`. -/
def usbStrings (env : Env) (i : Nat) : usbMultiPartTable_t :=
  ⟨env.posStringParts + 2 * i, env.posStringParts + 2 * i + 2⟩

/-- The store of fragment records holds the arrays `usbConfigSecs` and `usbStringParts`
at their positions. -/
def Env.staticTables (env : Env) : Prop :=
  (∀ k, k < 6 → env.flash (env.posConfigSecs + k) = (usbConfigSecs env).getD k default) ∧
  (∀ i, i < 5 → ∀ k, k < 2 →
    env.flash (env.posStringParts + 2 * i + k) = (usbStringParts env i).getD k default)

instance (env : Env) : Decidable env.staticTables := by
  unfold Env.staticTables
  infer_instance

/-! ## `usb/descriptors.cxx`: the descriptor responder -/

/-- The answer `{response_t::unhandled, nullptr, 0, memory_t::sram}`. -/
def answer_t.unhandled : answer_t := ⟨.unhandled, 0, 0, .sram⟩

/-- The function `handleGetDescriptor`; the result is the answer and the state after. -/
def handleGetDescriptor (env : Env) (s : State) : answer_t × State :=
  let packet := s.packet env
  if packet.dir = .controllerOut then (answer_t.unhandled, s)
  else
    let type := packet.descriptorType
    let index := packet.descriptorIndex
    if type = usbDescriptor_t.device.toNat then
      (⟨.data, env.addrDeviceDesc, (usbDeviceDesc env).length, .flash⟩, s)
    else if type = usbDescriptor_t.deviceQualifier.toNat then
      (⟨.data, env.addrDeviceQualifierDesc, (usbDeviceQualifierDesc env).length, .flash⟩, s)
    else if type = usbDescriptor_t.configuration.toNat then
      if index ≥ configDescriptorCount then (answer_t.unhandled, s)
      else
        let configDescriptor := usbConfigDescriptors env index
        let s1 := s.setIn0 (fun st =>
          { st with isMultiPart := true, partNumber := 0, partsData := configDescriptor })
        (⟨.data, 0, configDescriptor.totalLength env.flash, .flash⟩, s1)
    else if type = usbDescriptor_t.interface.toNat then
      if index ≥ env.interfaceDescriptorCount then (answer_t.unhandled, s)
      else
        (⟨.data, env.addrInterfaceDesc + sizeofInterfaceDescriptor * index,
          (usbInterfaceDesc index).length, .flash⟩, s)
    else if type = usbDescriptor_t.endpoint.toNat then
      if index ≥ env.endpointDescriptorCount then (answer_t.unhandled, s)
      else
        (⟨.data, env.addrEndpointDesc + sizeofEndpointDescriptor * index,
          (usbEndpointDesc env index).length, .flash⟩, s)
    else if type = usbDescriptor_t.string.toNat then
      if index ≥ stringCount then (answer_t.unhandled, s)
      else
        let string := usbStrings env index
        let s1 := s.setIn0 (fun st =>
          { st with isMultiPart := true, partNumber := 0, partsData := string })
        (⟨.data, 0, string.totalLength env.flash, .flash⟩, s1)
    else (answer_t.unhandled, s)


/-! ## `usb/device.cxx`: the standard requests -/

/-- The constant `USB_EP_TYPE_CONTROL_gc` of `avr/io.h`. -/
def USB_EP_TYPE_CONTROL_gc : Nat := 0x40

/-- The constant `USB_EP_TYPE_BULK_gc` of `avr/io.h`. -/
def USB_EP_TYPE_BULK_gc : Nat := 0x80

/-- The constant `USB_EP_TYPE_ISOCHRONOUS_gc` of `avr/io.h`. -/
def USB_EP_TYPE_ISOCHRONOUS_gc : Nat := 0xC0

/-- The constant `USB_EP_BUFSIZE_8_gc` of `avr/io.h`. -/
def USB_EP_BUFSIZE_8_gc : Nat := 0

/-- The constant `USB_EP_BUFSIZE_16_gc` of `avr/io.h`. -/
def USB_EP_BUFSIZE_16_gc : Nat := 1

/-- The constant `USB_EP_BUFSIZE_32_gc` of `avr/io.h`. -/
def USB_EP_BUFSIZE_32_gc : Nat := 2

/-- The constant `USB_EP_BUFSIZE_64_gc` of `avr/io.h`. -/
def USB_EP_BUFSIZE_64_gc : Nat := 3

/-- The constant `USB_EP_BUFSIZE_1023_gc` of `avr/io.h`. -/
def USB_EP_BUFSIZE_1023_gc : Nat := 7

/-- The function `endpoint::mapType`, on the `uint8_t` value of the endpoint type. -/
def endpoint.mapType (type : Nat) : Nat :=
  if type = usbEndpointType_t.isochronous.toNat then USB_EP_TYPE_ISOCHRONOUS_gc
  else if type = usbEndpointType_t.control.toNat then USB_EP_TYPE_CONTROL_gc
  else USB_EP_TYPE_BULK_gc

/-- The function `endpoint::mapMaxSize`. -/
def endpoint.mapMaxSize (size : Nat) : Nat :=
  if size ≤ 8 then USB_EP_BUFSIZE_8_gc
  else if size ≤ 16 then USB_EP_BUFSIZE_16_gc
  else if size ≤ 32 then USB_EP_BUFSIZE_32_gc
  else if size ≤ 64 then USB_EP_BUFSIZE_64_gc
  else USB_EP_BUFSIZE_1023_gc

/-- The function `setupEndpoint`. -/
def setupEndpoint (s : State) (endpoint : usbEndpointDescriptor_t) : State :=
  if endpoint.endpointType = usbEndpointType_t.control.toNat then s
  else
    let direction := endpoint.endpointAddress &&& (255 ^^^ endpointDirMask)
    let endpointNumber := endpoint.endpointAddress &&& endpointDirMask
    let f : USB_EP_t → USB_EP_t := fun epCtrl =>
      { epCtrl with
        CNT := 0
        CTRL := usb.endpoint.mapType endpoint.endpointType |||
          usb.endpoint.mapMaxSize endpoint.maxPacketSize }
    if direction = endpointDir_t.controllerIn.toNat then s.setEPIn endpointNumber f
    else s.setEPOut endpointNumber f

/-- The endpoint descriptor stored at an address, read through
`flash_t<usbEndpointDescriptor_t *>`. -/
def readEndpointDescriptor (mem : Nat → Nat) (a : Nat) : usbEndpointDescriptor_t :=
  { length := mem a % 256
    descriptorType := mem (a + 1) % 256
    endpointAddress := mem (a + 2) % 256
    endpointType := mem (a + 3) % 256
    maxPacketSize := read16 mem (a + 4)
    interval := mem (a + 6) % 256 }

/-- Modelled from the spec: the function `usb::core::resetEPs(epReset_t::user)` (absent),
"resets all endpoints to a default disabled state (scoped to user endpoints, not
endpoint 0)". -/
def resetEPsUser (env : Env) (s : State) : State :=
  { s with endpoints := fun i =>
      if 1 ≤ i ∧ i < env.endpointCount then env.resetUserEP (s.endpoints i) else s.endpoints i }

/-- The body of the range-for of `handleSetConfiguration` for the fragment record at
position `p`. -/
def handleSetConfiguration.visit (env : Env) (s : State) (p : Nat) : State :=
  let part := env.flash p
  let type := s.mem (part.descriptor + 1) % 256
  if type = usbDescriptor_t.endpoint.toNat then
    setupEndpoint s (readEndpointDescriptor s.mem part.descriptor)
  else s

/-- The function `handleSetConfiguration`; the result is the returned flag and the state
after. -/
def handleSetConfiguration (env : Env) (s : State) : Bool × State :=
  let s1 := resetEPsUser env s
  let config := (s1.packet env).asConfiguration
  if config > configDescriptorCount then (false, s1)
  else
    let s2 := { s1 with mem := Function.update s1.mem env.addrActiveConfig config }
    if s2.activeConfig env = 0 then (true, { s2 with usbState := .addressed })
    else
      let descriptors := usbConfigDescriptors env (s2.activeConfig env - 1)
      (true, (List.range' descriptors._begin (descriptors._end - descriptors._begin)).foldl
        (handleSetConfiguration.visit env) s2)

/-- The function `handleStandardRequest`; the result is the answer and the state after. -/
def handleStandardRequest (env : Env) (s : State) : answer_t × State :=
  let request := (s.packet env).request
  if request = request_t.setAddress then
    (⟨.zeroLength, 0, 0, .sram⟩, { s with usbState := .addressing })
  else if request = request_t.getDescriptor then handleGetDescriptor env s
  else if request = request_t.setConfiguration then
    let r := handleSetConfiguration env s
    if r.1 then (⟨.zeroLength, 0, 0, .sram⟩, r.2)
    else (⟨.stall, 0, 0, .sram⟩, r.2)
  else if request = request_t.getConfiguration then
    (⟨.data, env.addrActiveConfig, 1, .sram⟩, s)
  else if request = request_t.getInterface then
    (⟨.data, env.addrActiveAltMode, 1, .sram⟩, s)
  else if request = request_t.setInterface then
    if (s.packet env).value = 0 then (⟨.zeroLength, 0, 0, .sram⟩, s)
    else (⟨.stall, 0, 0, .sram⟩, s)
  else (answer_t.unhandled, s)

/-! ## `usb/device.cxx`: the control transfer state machine -/

/-- The function `completeSetupPacket`; `none` when the fuel does not suffice for
`writeCtrlEP`. -/
def completeSetupPacket (env : Env) (fuel : Nat) (s : State) : Option State :=
  let s1 := s.setEPOut 0 (fun ep =>
    { ep with STATUS := clearBits ep.STATUS env.usbEPStatusSetupComplete })
  if !(s1.epStatusControllerIn 0).needsArming then
    if (s1.epStatusControllerOut 0).needsArming then
      some { s1 with usbCtrlState := .dataRX }
    else if (s1.epStatusControllerIn 0).stall then
      let s2 := s1.setEPIn 0 (fun ep0 => { ep0 with CTRL := setBits ep0.CTRL env.usbEPCtrlStall })
      some { s2 with usbCtrlState := .idle }
    else some s1
  else
    let s2 : State :=
      if (s1.packet env).dir = .controllerIn then { s1 with usbCtrlState := .dataTX }
      else { s1 with usbCtrlState := .statusTX }
    match writeCtrlEP env fuel s2 with
    | none => none
    | some (true, s3) =>
      if s3.usbCtrlState = .dataTX then some { s3 with usbCtrlState := .statusRX }
      else some { s3 with usbCtrlState := .idle }
    | some (false, s3) => some s3

/-- The start of `handleSetupPacket`: the new setup packet is read into `packet`; the
result is the flag `readCtrlEP` returns and the state after. -/
def handleSetupPacket.read (env : Env) (s : State) : Bool × State :=
  readCtrlEP (s.setOut0 (fun st => { st with memBuffer := env.addrPacket, transferCount := 8 }))

/-- The part of `handleSetupPacket` that sets up the state of endpoint 0 for a reply: the
Control State is `wait` and both Transfer Status records are reset. -/
def handleSetupPacket.reset (s : State) : State :=
  let s1 := { s with usbCtrlState := .wait }
  let s2 := s1.setIn0 (fun st =>
    { st with needsArming := false, stall := false, transferCount := 0 })
  s2.setOut0 (fun st =>
    { st with needsArming := false, stall := false, transferCount := 0 })

/-- The part of `handleSetupPacket` from the reset of the two Transfer Status records to
the call of `completeSetupPacket`: it calls the responder and arms the reply. -/
def handleSetupPacket.arm (env : Env) (s : State) : State :=
  let r := handleStandardRequest env (handleSetupPacket.reset s)
  let response := r.1.response
  let data := r.1.data
  let size := r.1.size
  let memoryType := r.1.memoryType
  let transferCount := if response = .zeroLength then 0 else size % 65536
  let s4 := r.2.setIn0 (fun st =>
    { st with
      stall := response = .stall ∨ response = .unhandled
      needsArming := response = .data ∨ response = .zeroLength
      memBuffer := data
      memoryType := memoryType
      transferCount := min transferCount (r.2.packet env).length })
  if response = .data ∧ data = 0 ∧ ¬ (s4.epStatusControllerIn 0).isMultiPart then
    s4.setIn0 (fun st => { st with needsArming := false })
  else s4

/-- The end of `handleSetupPacket`: the write of `itrStatusSetup` to `USB.INTFLAGSBCLR`. -/
def handleSetupPacket.clearFlag (env : Env) (s : State) : State :=
  { s with USB := { s.USB with INTFLAGSB := clearBits s.USB.INTFLAGSB env.itrStatusSetup } }

/-- The function `handleSetupPacket`; `none` when the fuel does not suffice for
`writeCtrlEP`. -/
def handleSetupPacket (env : Env) (fuel : Nat) (s : State) : Option State :=
  let r := handleSetupPacket.read env s
  if !r.1 then
    some (r.2.setEPIn 0 (fun ep0 => { ep0 with CTRL := setBits ep0.CTRL env.usbEPCtrlStall }))
  else
    (completeSetupPacket env fuel (handleSetupPacket.arm env r.2)).map
      (handleSetupPacket.clearFlag env)

/-- The function `handleControllerOutPacket`. -/
def handleControllerOutPacket (env : Env) (s : State) : State :=
  let s1 : State :=
    if s.usbCtrlState = .dataRX then
      let r := readCtrlEP s
      if r.1 then { r.2 with usbCtrlState := .statusTX } else r.2
    else { s with usbCtrlState := .idle }
  s1.setEPOut 0 (fun ep => { ep with STATUS := clearBits ep.STATUS env.usbEPStatusIOComplete })

/-- The function `handleControllerInPacket`; `none` when the fuel does not suffice for
`writeCtrlEP`. -/
def handleControllerInPacket (env : Env) (fuel : Nat) (s : State) : Option State :=
  let s1 : State :=
    if s.usbState = .addressing then
      let packet := s.packet env
      if packet.type ≠ 0 ∨ packet.request ≠ request_t.setAddress ∨ packet.addrH ≠ 0 then
        { s with
          USB := { s.USB with ADDR := clearBits s.USB.ADDR env.addressMask }
          usbState := .waiting }
      else
        { s with
          USB := { s.USB with ADDR := packet.addrL &&& env.addressMask }
          usbState := .addressed }
    else s
  let s2 : Option State :=
    if s1.usbCtrlState = .dataTX then
      match writeCtrlEP env fuel s1 with
      | none => none
      | some (true, s2) => some { s2 with usbCtrlState := .idle }
      | some (false, s2) => some s2
    else some { s1 with usbCtrlState := .idle }
  s2.map (fun s2 =>
    s2.setEPIn 0 (fun ep => { ep with STATUS := clearBits ep.STATUS env.usbEPStatusIOComplete }))

/-- The function `handleControlPacket`. -/
def handleControlPacket (env : Env) (fuel : Nat) (s : State) : Option State :=
  if s.usbPacket.dir = .controllerOut then
    let status := (s.endpoints 0).controllerOut.STATUS
    if status &&& env.usbEPStatusSetupComplete ≠ 0 then handleSetupPacket env fuel s
    else some (handleControllerOutPacket env s)
  else handleControllerInPacket env fuel s


/-! ## Steps of the handlers named for the proofs -/

/-- The state in which `completeSetupPacket` calls `writeCtrlEP`: the setup-complete flag
of endpoint 0 OUT is cleared and the Control State is `dataTX` for a device-to-host
request, `statusTX` otherwise. -/
def completeSetupPacket.enter (env : Env) (s : State) : State :=
  let s1 := s.setEPOut 0 (fun ep =>
    { ep with STATUS := clearBits ep.STATUS env.usbEPStatusSetupComplete })
  if (s1.packet env).dir = .controllerIn then { s1 with usbCtrlState := .dataTX }
  else { s1 with usbCtrlState := .statusTX }

/-- The first statement of `handleControllerInPacket`: the commit of the device address
when the Device State is `addressing`. -/
def handleControllerInPacket.commit (env : Env) (s : State) : State :=
  if s.usbState = .addressing then
    let packet := s.packet env
    if packet.type ≠ 0 ∨ packet.request ≠ request_t.setAddress ∨ packet.addrH ≠ 0 then
      { s with
        USB := { s.USB with ADDR := clearBits s.USB.ADDR env.addressMask }
        usbState := .waiting }
    else
      { s with
        USB := { s.USB with ADDR := packet.addrL &&& env.addressMask }
        usbState := .addressed }
  else s

/-- The positions, in the order of the range-for of `handleSetConfiguration` over the
table `T`, of the fragment records for which it calls `setupEndpoint`: those whose
descriptor has the type of an endpoint descriptor in its second byte. -/
def handleSetConfiguration.endpointParts (env : Env) (mem : Nat → Nat)
    (T : usbMultiPartTable_t) : List Nat :=
  (List.range' T._begin (T._end - T._begin)).filter
    (fun p => mem ((env.flash p).descriptor + 1) % 256 = usbDescriptor_t.endpoint.toNat)

/-! ## `usb.cxx`: bus events -/

/-- The statements of the loop of `usb::core::reset` for one half of an endpoint. -/
def core.resetEP (env : Env) (ep : USB_EP_t) : USB_EP_t :=
  let ctrl := clearBits (setBits ep.CTRL env.usbEPCtrlItrDisable) env.usbEPCtrlStall
  let status := clearBits (setBits ep.STATUS env.usbEPStatusNACK0)
    (env.usbEPStatusNotReady ||| env.usbEPStatusStall ||| env.usbEPStatusIOComplete |||
      env.usbEPStatusSetupComplete ||| env.usbEPStatusNACK1)
  { ep with CTRL := ctrl, STATUS := status }

/-- The function `usb::core::reset`; the array `endpoints` has `endpointCount` elements. -/
def core.reset (env : Env) (s : State) : State :=
  let ep0OutStatus := (s.endpoints 0).controllerOut.STATUS
  let s1 : State :=
    { s with endpoints := fun i =>
        if i < env.endpointCount then
          ⟨core.resetEP env (s.endpoints i).controllerOut,
            core.resetEP env (s.endpoints i).controllerIn⟩
        else s.endpoints i }
  let s2 : State :=
    { s1 with
      USB :=
        { s1.USB with
          ADDR := clearBits s1.USB.ADDR env.addressMask
          INTCTRLA := setBits s1.USB.INTCTRLA (env.intCtrlAEnableBusEvent ||| env.intCtrlAEnableSOF)
          INTCTRLB := setBits s1.USB.INTCTRLB
            (env.intCtrlBEnableIOComplete ||| env.intCtrlBEnableSetupComplete) }
      usbState := .attached }
  let s3 := s2.setEPOut 0 (fun ep =>
    { ep with STATUS := ep0OutStatus, CTRL := clearBits ep.CTRL env.usbEPCtrlItrDisable })
  let s4 := s3.setEPIn 0 (fun ep => { ep with CTRL := clearBits ep.CTRL env.usbEPCtrlItrDisable })
  { s4 with USB := { s4.USB with INTFLAGSA := clearBits s4.USB.INTFLAGSA env.itrStatusReset } }

/-- The function `usb::core::wakeup`. -/
def core.wakeup (env : Env) (s : State) : State :=
  { s with
    usbSuspended := false
    USB := { s.USB with INTFLAGSA := clearBits s.USB.INTFLAGSA env.itrStatusResume } }

/-- The function `usb::core::suspend`. -/
def core.suspend (env : Env) (s : State) : State :=
  { s with
    usbSuspended := true
    USB := { s.USB with INTFLAGSA := clearBits s.USB.INTFLAGSA env.itrStatusSuspend } }

/-- The function `usbBusEvtIRQ`. -/
def usbBusEvtIRQ (env : Env) (s : State) : State :=
  let intCtrl := s.USB.INTCTRLA
  let status := s.USB.INTFLAGSA
  let s1 : State := if s.usbState = .attached then { s with usbState := .powered } else s
  let resume : Bool :=
    status &&& env.itrStatusResume ≠ 0 ∧ intCtrl &&& env.intCtrlAEnableBusEvent ≠ 0
  if !resume ∧ s1.usbSuspended then s1
  else
    let s2 := if resume then core.wakeup env s1 else s1
    if status &&& env.itrStatusReset ≠ 0 ∧ intCtrl &&& env.intCtrlAEnableBusEvent ≠ 0 then
      { core.reset env s2 with usbState := .waiting }
    else
      let s3 :=
        if status &&& env.itrStatusSuspend ≠ 0 ∧ intCtrl &&& env.intCtrlAEnableBusEvent ≠ 0 then
          core.suspend env s2
        else s2
      if status &&& env.itrStatusSOF ≠ 0 ∧ intCtrl &&& env.intCtrlAEnableSOF ≠ 0 then
        { s3 with USB := { s3.USB with INTFLAGSA := clearBits s3.USB.INTFLAGSA env.itrStatusSOF } }
      else s3


/-! ## Sample data -/

/-- A sample environment: 64 byte endpoint buffers, two endpoints, the register masks of
an ATxmega, the objects laid out from address 0x2000 on, and an empty store of fragment
records. -/
def sampleBase : Env :=
  { epBufferSize := 64
    endpointCount := 2
    interfaceDescriptorCount := 1
    endpointDescriptorCount := 1
    vid := 0x1209
    pid := 0x0001
    flash := fun _ => default
    usbEPStatusNotReady := 0x40
    usbEPStatusNACK0 := 0x02
    usbEPStatusNACK1 := 0x04
    usbEPStatusStall := 0x80
    usbEPStatusIOComplete := 0x20
    usbEPStatusSetupComplete := 0x10
    usbEPCtrlStall := 0x04
    usbEPCtrlItrDisable := 0x08
    addressMask := 0x7F
    itrStatusSetup := 0x01
    itrStatusIOComplete := 0x02
    itrStatusReset := 0x10
    itrStatusResume := 0x20
    itrStatusSuspend := 0x40
    itrStatusSOF := 0x80
    intCtrlAEnableBusEvent := 0x40
    intCtrlAEnableSOF := 0x80
    intCtrlBEnableIOComplete := 0x02
    intCtrlBEnableSetupComplete := 0x01
    resetUserEP := fun _ => ⟨⟨0, 0, 0⟩, ⟨0, 0, 0⟩⟩
    addrPacket := 0x2000
    addrActiveConfig := 0x2008
    addrActiveAltMode := 0x2009
    addrDeviceDesc := 0x2100
    addrDeviceQualifierDesc := 0x2112
    addrConfigDesc := 0x211C
    addrInterfaceDesc := 0x2125
    addrEndpointDesc := 0x212E
    addrKeyboardDesc := 0x2135
    addrKeyboardReportDesc := 0x213B
    addrStringDescs := 0x2140
    addrStringData := fun i => 0x2200 + 64 * i
    posConfigSecs := 0
    posStringParts := 6 }

/-- The sample environment with the arrays `usbConfigSecs` and `usbStringParts` in the store
of fragment records, at positions 0 to 5 and 6 to 15. -/
def keyboard : Env :=
  { sampleBase with
    flash := fun p =>
      if p < 6 then (usbConfigSecs sampleBase).getD p default
      else if p < 16 then (usbStringParts sampleBase ((p - 6) / 2)).getD ((p - 6) % 2) default
      else default }

/-- The sample environment with 8 byte endpoint buffers. -/
def keyboard8 : Env := { keyboard with epBufferSize := 8 }

/-- A sample Transfer Status: nothing in flight. -/
def sampleStatus : usbEPStatus_t :=
  { memBuffer := 0, transferCount := 0, needsArming := false, stall := false,
    isMultiPart := false, memoryType := .sram, partNumber := 0, partsData := ⟨0, 0⟩ }

/-- A sample state: the device waits for a request, memory holds at every address the
low byte of the address. -/
def sampleState : State :=
  { endpoints := fun _ => default
    epBuffer := fun _ _ => 0
    usbState := .waiting
    usbPacket := ⟨0, .controllerOut⟩
    usbSuspended := false
    usbCtrlState := .idle
    epStatusControllerIn := fun _ => sampleStatus
    epStatusControllerOut := fun _ => sampleStatus
    mem := fun a => a % 256
    USB := ⟨0, 0, 0, 0, 0⟩ }

/-- The status the responder leaves for a multi-part reply from table `T`. -/
def multiPartStatus (flash : Nat → usbMultiPartDesc_t) (T : usbMultiPartTable_t) :
    usbEPStatus_t :=
  { sampleStatus with
    isMultiPart := true, partNumber := 0, memBuffer := 0
    transferCount := T.totalLength flash, partsData := T }

/-- The sample state with the status the responder leaves for a multi-part reply from
table `T`. -/
def multiPartState (flash : Nat → usbMultiPartDesc_t) (T : usbMultiPartTable_t) : State :=
  { sampleState with epStatusControllerIn := fun _ => multiPartStatus flash T }

/-- A store of fragment records in which every record has length 255. -/
def flashAll255 : Nat → usbMultiPartDesc_t := fun _ => ⟨255, 0x2100⟩

/-- A table of 258 fragments. -/
def table258 : usbMultiPartTable_t := ⟨0, 258⟩

/-- The sample environment with a store in which every record has length 255. -/
def env258 : Env := { sampleBase with flash := flashAll255 }

/-- A store of three fragment records: one byte at 0x21FF, an empty fragment with a null
data pointer, one byte at 0x2300. -/
def flashNullMiddle : Nat → usbMultiPartDesc_t := fun p =>
  if p = 0 then ⟨1, 0x21FF⟩ else if p = 1 then ⟨0, 0⟩ else ⟨1, 0x2300⟩

/-- The table of the three records of `flashNullMiddle`. -/
def tableNullMiddle : usbMultiPartTable_t := ⟨0, 3⟩

/-- The sample environment with one byte endpoint buffers and the store
`flashNullMiddle`. -/
def envNullMiddle : Env := { sampleBase with epBufferSize := 1, flash := flashNullMiddle }

/-- The sample state with 256 bytes of value 0xAA reported as received on endpoint 0 OUT
and 256 bytes expected at address 0x3000. -/
def readState256 : State :=
  { sampleState with
    endpoints := fun _ => ⟨⟨0, 0, 256⟩, ⟨0, 0, 0⟩⟩
    epBuffer := fun _ _ => 0xAA
    epStatusControllerOut := fun _ =>
      { sampleStatus with memBuffer := 0x3000, transferCount := 256 } }

/-- The sample state with a setup packet of the given bytes received in the buffer of
endpoint 0 OUT: the count is 8 and the setup-complete flag is set. -/
def setupState (bytes : List Nat) : State :=
  { sampleState with
    endpoints := fun _ => ⟨⟨0x10, 0, 8⟩, ⟨0, 0, 0⟩⟩
    epBuffer := fun b i => if b = 0 then bytes.getD i 0 else 0 }

/-- The sample memory with the given bytes of a setup packet in the variable `packet`. -/
def packetMem (bytes : List Nat) : Nat → Nat := fun a =>
  if 0x2000 ≤ a ∧ a < 0x2008 then bytes.getD (a - 0x2000) 0 else a % 256

/-- The sample state with the given bytes of a setup packet in the variable `packet`. -/
def packetState (bytes : List Nat) : State := { sampleState with mem := packetMem bytes }

/-- The sample memory with the bytes of the device descriptor of the sample keyboard at
`&usbDeviceDesc` and a setup packet in the variable `packet`. -/
def deviceDescMem (bytes : List Nat) : Nat → Nat := fun a =>
  if 0x2100 ≤ a ∧ a < 0x2112 then (usbDeviceDesc keyboard).bytes.getD (a - 0x2100) 0
  else packetMem bytes a

/-- The sample memory with the string descriptor of "MXKeyboard": its header at
`&usbStringDescs[2]` and its code units at the address of the literal. -/
def stringMem : Nat → Nat := fun a =>
  if 0x2148 ≤ a ∧ a < 0x214A then [22, 3].getD (a - 0x2148) 0
  else if 0x2280 ≤ a ∧ a < 0x2294 then
    [77, 0, 88, 0, 75, 0, 101, 0, 121, 0, 98, 0, 111, 0, 97, 0, 114, 0, 100, 0].getD (a - 0x2280) 0
  else a % 256


/-- The sample state at a bus event: the registers of both halves of every endpoint have
the stall bit set, the address register holds 5, `intCtrl` is the register `INTCTRLA`
(0x40 enables bus-event interrupts, 0x80 start-of-frame interrupts) and `flags` are the
interrupt flags of the event. -/
def busEventState (usbState : deviceState_t) (suspended : Bool) (intCtrl flags : Nat) :
    State :=
  { sampleState with
    endpoints := fun _ => ⟨⟨0, 0x04, 0⟩, ⟨0, 0x84, 0⟩⟩
    usbState := usbState
    usbSuspended := suspended
    USB := ⟨5, intCtrl, 0, flags, 0⟩ }

/-- The sample state with the given bytes of a setup packet in the variable `packet`,
Device State `addressing` and 5 in the address register. -/
def addressingState (bytes : List Nat) : State :=
  { packetState bytes with usbState := .addressing, USB := ⟨5, 0, 0, 0, 0⟩ }

/-- The Transfer Status of endpoint 0 IN of a multi-part transfer of the configuration
descriptor that the host left unfinished, with the cursor 5 bytes into the fragment of
the endpoint descriptor. -/
def staleStatus : usbEPStatus_t :=
  { memBuffer := 0x2133, transferCount := 2, needsArming := true, stall := false,
    isMultiPart := true, memoryType := .flash, partNumber := 4
    partsData := usbConfigDescriptors keyboard 0 }

/-- The sample state with the setup packet of GET_DESCRIPTOR(DEVICE) of 18 bytes received
while the Transfer Status of endpoint 0 IN is `staleStatus`. -/
def staleState : State :=
  { setupState [0x80, 6, 0, 1, 0, 0, 18, 0] with epStatusControllerIn := fun _ => staleStatus }

/-- The Transfer Status of endpoint 0 IN in the loop of `writeCtrlEP` entered from
`staleState`, with the given part index and cursor. -/
def stuckStatus (partNumber memBuffer : Nat) : usbEPStatus_t :=
  { staleStatus with partNumber := partNumber, memBuffer := memBuffer, transferCount := 0 }

/-- The variables of the loop of `writeCtrlEP` with the quota `sendAmount` and the
Transfer Status `stuckStatus partNumber memBuffer`. -/
def stuckLoop (partNumber memBuffer sendAmount : Nat) : WriteLoop :=
  { s := { sampleState with epStatusControllerIn := fun _ => stuckStatus partNumber memBuffer }
    sendAmount := sendAmount, sendOffset := 0 }

/-- A sample memory for SET_CONFIGURATION(1): the bytes `low` at the addresses 0 to 6,
the setup packet in the variable `packet` and the descriptors the fragments of
`usbConfigSecs` of the sample keyboard point to at their addresses, 0 elsewhere. -/
def configMem (low : List Nat) : Nat → Nat := fun a =>
  if a < 7 then low.getD a 0
  else if 0x2000 ≤ a ∧ a < 0x2008 then [0, 9, 1, 0, 0, 0, 0, 0].getD (a - 0x2000) 0
  else if 0x211C ≤ a ∧ a < 0x2125 then [9, 2, 34, 0, 1, 1, 4, 0x80, 250].getD (a - 0x211C) 0
  else if 0x2125 ≤ a ∧ a < 0x212E then [9, 4, 0, 0, 1, 3, 1, 1, 0].getD (a - 0x2125) 0
  else if 0x212E ≤ a ∧ a < 0x2135 then [7, 5, 0x81, 3, 64, 0, 1].getD (a - 0x212E) 0
  else if 0x2135 ≤ a ∧ a < 0x213B then [6, 0x21, 0x11, 0x01, 0, 1].getD (a - 0x2135) 0
  else if 0x213B ≤ a ∧ a < 0x213E then [0x22, 63, 0].getD (a - 0x213B) 0
  else 0

/-- The sample state with the memory `configMem low` and the control registers of both
halves of every endpoint holding 0x43. -/
def configState (low : List Nat) : State :=
  { sampleState with
    endpoints := fun _ => ⟨⟨0, 0x43, 0⟩, ⟨0, 0x43, 0⟩⟩
    mem := configMem low }

/-- A store of three fragment records: one byte at 0x2110, an empty fragment with a null
data pointer, one byte at 0x2300. -/
def flashNullHang : Nat → usbMultiPartDesc_t := fun p =>
  if p = 0 then ⟨1, 0x2110⟩ else if p = 1 then ⟨0, 0⟩ else ⟨1, 0x2300⟩

/-- The table of the three records of `flashNullHang`. -/
def tableNullHang : usbMultiPartTable_t := ⟨0, 3⟩

/-- The sample environment with one byte endpoint buffers and the store
`flashNullHang`. -/
def envNullHang : Env := { sampleBase with epBufferSize := 1, flash := flashNullHang }

/-- The Transfer Status of a multi-part transfer from `tableNullHang` with the given
remaining count, part index and cursor. -/
def nullHangStatus (transferCount partNumber memBuffer : Nat) : usbEPStatus_t :=
  { multiPartStatus flashNullHang tableNullHang with
    transferCount := transferCount, partNumber := partNumber, memBuffer := memBuffer }

/-- The sample state after the first call of `writeCtrlEP` of a transfer from
`tableNullHang`: one byte remains, the part index is 1 and the cursor is the null data
pointer of fragment 1. -/
def nullHangState : State :=
  { sampleState with epStatusControllerIn := fun _ => nullHangStatus 1 1 0 }

/-- The variables of the loop of `writeCtrlEP` with the quota `sendAmount` and the
Transfer Status `nullHangStatus 0 partNumber memBuffer`. -/
def nullHangLoop (partNumber memBuffer sendAmount : Nat) : WriteLoop :=
  { s := { sampleState with epStatusControllerIn := fun _ => nullHangStatus 0 partNumber memBuffer }
    sendAmount := sendAmount, sendOffset := 0 }

/-- The sample state with a setup packet of the given bytes received while the Transfer
Status of endpoint 0 IN is that of an unfinished multi-part transfer of the
configuration descriptor with the given part index. -/
def staleAt (partNumber : Nat) (bytes : List Nat) : State :=
  { setupState bytes with
    epStatusControllerIn := fun _ => { staleStatus with partNumber := partNumber } }

/-- The Transfer Status of endpoint 0 IN that `handleSetupPacket` leaves in `envNullHang`
after the first packet of GET_DESCRIPTOR(CONFIGURATION) of 2 bytes: one byte remains, the
part index is 1 and the cursor is the null data pointer of fragment 1. -/
def nullCursorStatus : usbEPStatus_t :=
  { memBuffer := 0, transferCount := 1, needsArming := true, stall := false,
    isMultiPart := true, memoryType := .flash, partNumber := 1
    partsData := usbConfigDescriptors envNullHang 0 }

/-- The variables of the loop of `writeCtrlEP` entered from `nullCursorStatus`, with the
given part index, cursor and quota. -/
def nullCursorLoop (partNumber memBuffer sendAmount : Nat) : WriteLoop :=
  { s := { sampleState with
      epStatusControllerIn := fun _ =>
        { nullCursorStatus with
          transferCount := 0, partNumber := partNumber, memBuffer := memBuffer } }
    sendAmount := sendAmount, sendOffset := 0 }

/-! ## Theorems -/

section Words

theorem toU8_of_lt {n : Nat} (h : n < 256) : toU8 (n : Int) = n := by
  unfold toU8; omega

theorem toU8_sub {a b : Nat} (h : b ≤ a) (ha : a - b < 256) :
    toU8 ((a : Int) - b) = a - b := by
  unfold toU8; omega

end Words

section Buffers

/-- The copy loop, read back: inside the window the bytes of the source, outside it
the old content. -/
theorem copy_apply (g out : Nat → Nat) (off n x : Nat) :
    (List.range n).foldl (fun out i => Function.update out (off + i) (g i)) out x =
      if off ≤ x ∧ x < off + n then g (x - off) else out x := by
  induction n with
  | zero =>
    have h : ¬ (off ≤ x ∧ x < off + 0) := by omega
    simp only [List.range_zero, List.foldl_nil, h, if_false]
  | succ n ih =>
    rw [List.range_succ, List.foldl_append]
    simp only [List.foldl_cons, List.foldl_nil]
    by_cases hx : x = off + n
    · subst hx
      simp
    · rw [Function.update_noteq hx, ih]
      by_cases h1 : off ≤ x ∧ x < off + n
      · have h2 : off ≤ x ∧ x < off + (n + 1) := ⟨h1.1, by omega⟩
        simp [h1, h2]
      · have h2 : ¬ (off ≤ x ∧ x < off + (n + 1)) := by omega
        simp [h1, h2]

end Buffers

section Tables

theorem foldl_add_mod (f : Nat → Nat) (l : List Nat) (a : Nat) (ha : a < 65536) :
    l.foldl (fun count p => (count + f p) % 65536) a = (a + (l.map f).sum) % 65536 := by
  induction l generalizing a with
  | nil => simp; omega
  | cons x xs ih =>
    simp only [List.foldl_cons, List.map_cons, List.sum_cons]
    rw [ih _ (Nat.mod_lt _ (by norm_num))]
    omega

theorem part_of_lt (t : usbMultiPartTable_t) (i : Nat) (h : i < t.count) :
    t.part i = t._begin + i := by
  unfold usbMultiPartTable_t.part usbMultiPartTable_t.count at *
  split <;> omega

theorem part_of_ge (t : usbMultiPartTable_t) (i : Nat) (h : t.count ≤ i) :
    t.part i = t._end := by
  unfold usbMultiPartTable_t.part usbMultiPartTable_t.count at *
  split
  · rfl
  · omega

theorem parts_lengths_sum (flash : Nat → usbMultiPartDesc_t) (t : usbMultiPartTable_t) :
    ((t.parts flash).map (fun f => f.length.val)).sum =
      ((List.range' t._begin (t._end - t._begin)).map (fun p => (flash p).length.val)).sum := by
  unfold usbMultiPartTable_t.parts
  rw [List.range'_eq_map_range, List.map_map, List.map_map]
  congr 1
  apply List.map_congr_left
  intro i hi
  simp only [List.mem_range] at hi
  simp [part_of_lt t i hi]

theorem totalLength_eq (flash : Nat → usbMultiPartDesc_t) (t : usbMultiPartTable_t) :
    t.totalLength flash = ((t.parts flash).map (fun f => f.length.val)).sum % 65536 := by
  rw [parts_lengths_sum]
  unfold usbMultiPartTable_t.totalLength
  rw [foldl_add_mod (fun p => (flash p).length.val) _ 0 (by norm_num)]
  simp

end Tables

section Projections

@[simp] theorem setIn0_usbPacket (s : State) (f : usbEPStatus_t → usbEPStatus_t) :
    (s.setIn0 f).usbPacket = s.usbPacket := rfl

@[simp] theorem setOut0_usbPacket (s : State) (f : usbEPStatus_t → usbEPStatus_t) :
    (s.setOut0 f).usbPacket = s.usbPacket := rfl

@[simp] theorem setEPIn_usbPacket (s : State) (n : Nat) (f : USB_EP_t → USB_EP_t) :
    (s.setEPIn n f).usbPacket = s.usbPacket := rfl

@[simp] theorem setEPOut_usbPacket (s : State) (n : Nat) (f : USB_EP_t → USB_EP_t) :
    (s.setEPOut n f).usbPacket = s.usbPacket := rfl

@[simp] theorem setIn0_endpoints (s : State) (f : usbEPStatus_t → usbEPStatus_t) :
    (s.setIn0 f).endpoints = s.endpoints := rfl

@[simp] theorem setIn0_epBuffer (s : State) (f : usbEPStatus_t → usbEPStatus_t) :
    (s.setIn0 f).epBuffer = s.epBuffer := rfl

@[simp] theorem setIn0_usbState (s : State) (f : usbEPStatus_t → usbEPStatus_t) :
    (s.setIn0 f).usbState = s.usbState := rfl

@[simp] theorem setIn0_usbSuspended (s : State) (f : usbEPStatus_t → usbEPStatus_t) :
    (s.setIn0 f).usbSuspended = s.usbSuspended := rfl

@[simp] theorem setIn0_usbCtrlState (s : State) (f : usbEPStatus_t → usbEPStatus_t) :
    (s.setIn0 f).usbCtrlState = s.usbCtrlState := rfl

@[simp] theorem setIn0_epStatusControllerOut (s : State) (f : usbEPStatus_t → usbEPStatus_t) :
    (s.setIn0 f).epStatusControllerOut = s.epStatusControllerOut := rfl

@[simp] theorem setIn0_mem (s : State) (f : usbEPStatus_t → usbEPStatus_t) :
    (s.setIn0 f).mem = s.mem := rfl

@[simp] theorem setIn0_USB (s : State) (f : usbEPStatus_t → usbEPStatus_t) :
    (s.setIn0 f).USB = s.USB := rfl

@[simp] theorem setOut0_endpoints (s : State) (f : usbEPStatus_t → usbEPStatus_t) :
    (s.setOut0 f).endpoints = s.endpoints := rfl

@[simp] theorem setOut0_epBuffer (s : State) (f : usbEPStatus_t → usbEPStatus_t) :
    (s.setOut0 f).epBuffer = s.epBuffer := rfl

@[simp] theorem setOut0_usbState (s : State) (f : usbEPStatus_t → usbEPStatus_t) :
    (s.setOut0 f).usbState = s.usbState := rfl

@[simp] theorem setOut0_usbSuspended (s : State) (f : usbEPStatus_t → usbEPStatus_t) :
    (s.setOut0 f).usbSuspended = s.usbSuspended := rfl

@[simp] theorem setOut0_usbCtrlState (s : State) (f : usbEPStatus_t → usbEPStatus_t) :
    (s.setOut0 f).usbCtrlState = s.usbCtrlState := rfl

@[simp] theorem setOut0_epStatusControllerIn (s : State) (f : usbEPStatus_t → usbEPStatus_t) :
    (s.setOut0 f).epStatusControllerIn = s.epStatusControllerIn := rfl

@[simp] theorem setOut0_mem (s : State) (f : usbEPStatus_t → usbEPStatus_t) :
    (s.setOut0 f).mem = s.mem := rfl

@[simp] theorem setOut0_USB (s : State) (f : usbEPStatus_t → usbEPStatus_t) :
    (s.setOut0 f).USB = s.USB := rfl

@[simp] theorem setEPIn_epBuffer (s : State) (n : Nat) (f : USB_EP_t → USB_EP_t) :
    (s.setEPIn n f).epBuffer = s.epBuffer := rfl

@[simp] theorem setEPIn_usbState (s : State) (n : Nat) (f : USB_EP_t → USB_EP_t) :
    (s.setEPIn n f).usbState = s.usbState := rfl

@[simp] theorem setEPIn_usbSuspended (s : State) (n : Nat) (f : USB_EP_t → USB_EP_t) :
    (s.setEPIn n f).usbSuspended = s.usbSuspended := rfl

@[simp] theorem setEPIn_usbCtrlState (s : State) (n : Nat) (f : USB_EP_t → USB_EP_t) :
    (s.setEPIn n f).usbCtrlState = s.usbCtrlState := rfl

@[simp] theorem setEPIn_epStatusControllerIn (s : State) (n : Nat) (f : USB_EP_t → USB_EP_t) :
    (s.setEPIn n f).epStatusControllerIn = s.epStatusControllerIn := rfl

@[simp] theorem setEPIn_epStatusControllerOut (s : State) (n : Nat) (f : USB_EP_t → USB_EP_t) :
    (s.setEPIn n f).epStatusControllerOut = s.epStatusControllerOut := rfl

@[simp] theorem setEPIn_mem (s : State) (n : Nat) (f : USB_EP_t → USB_EP_t) :
    (s.setEPIn n f).mem = s.mem := rfl

@[simp] theorem setEPIn_USB (s : State) (n : Nat) (f : USB_EP_t → USB_EP_t) :
    (s.setEPIn n f).USB = s.USB := rfl

@[simp] theorem setEPOut_epBuffer (s : State) (n : Nat) (f : USB_EP_t → USB_EP_t) :
    (s.setEPOut n f).epBuffer = s.epBuffer := rfl

@[simp] theorem setEPOut_usbState (s : State) (n : Nat) (f : USB_EP_t → USB_EP_t) :
    (s.setEPOut n f).usbState = s.usbState := rfl

@[simp] theorem setEPOut_usbSuspended (s : State) (n : Nat) (f : USB_EP_t → USB_EP_t) :
    (s.setEPOut n f).usbSuspended = s.usbSuspended := rfl

@[simp] theorem setEPOut_usbCtrlState (s : State) (n : Nat) (f : USB_EP_t → USB_EP_t) :
    (s.setEPOut n f).usbCtrlState = s.usbCtrlState := rfl

@[simp] theorem setEPOut_epStatusControllerIn (s : State) (n : Nat) (f : USB_EP_t → USB_EP_t) :
    (s.setEPOut n f).epStatusControllerIn = s.epStatusControllerIn := rfl

@[simp] theorem setEPOut_epStatusControllerOut (s : State) (n : Nat) (f : USB_EP_t → USB_EP_t) :
    (s.setEPOut n f).epStatusControllerOut = s.epStatusControllerOut := rfl

@[simp] theorem setEPOut_mem (s : State) (n : Nat) (f : USB_EP_t → USB_EP_t) :
    (s.setEPOut n f).mem = s.mem := rfl

@[simp] theorem setEPOut_USB (s : State) (n : Nat) (f : USB_EP_t → USB_EP_t) :
    (s.setEPOut n f).USB = s.USB := rfl

@[simp] theorem setIn0_In0 (s : State) (f : usbEPStatus_t → usbEPStatus_t) :
    (s.setIn0 f).epStatusControllerIn 0 = f (s.epStatusControllerIn 0) := by
  simp [State.setIn0]

@[simp] theorem setOut0_Out0 (s : State) (f : usbEPStatus_t → usbEPStatus_t) :
    (s.setOut0 f).epStatusControllerOut 0 = f (s.epStatusControllerOut 0) := by
  simp [State.setOut0]

@[simp] theorem setEPIn_In (s : State) (n : Nat) (f : USB_EP_t → USB_EP_t) :
    ((s.setEPIn n f).endpoints n).controllerIn = f (s.endpoints n).controllerIn := by
  simp [State.setEPIn]

@[simp] theorem setEPIn_Out (s : State) (n : Nat) (f : USB_EP_t → USB_EP_t) :
    ((s.setEPIn n f).endpoints n).controllerOut = (s.endpoints n).controllerOut := by
  simp [State.setEPIn]

@[simp] theorem setEPOut_Out (s : State) (n : Nat) (f : USB_EP_t → USB_EP_t) :
    ((s.setEPOut n f).endpoints n).controllerOut = f (s.endpoints n).controllerOut := by
  simp [State.setEPOut]

@[simp] theorem setEPOut_In (s : State) (n : Nat) (f : USB_EP_t → USB_EP_t) :
    ((s.setEPOut n f).endpoints n).controllerIn = (s.endpoints n).controllerIn := by
  simp [State.setEPOut]

theorem setEPIn_other (s : State) (n m : Nat) (f : USB_EP_t → USB_EP_t) (h : m ≠ n) :
    (s.setEPIn n f).endpoints m = s.endpoints m := by
  simp [State.setEPIn, Function.update_noteq h]

theorem setEPOut_other (s : State) (n m : Nat) (f : USB_EP_t → USB_EP_t) (h : m ≠ n) :
    (s.setEPOut n f).endpoints m = s.endpoints m := by
  simp [State.setEPOut, Function.update_noteq h]

@[simp] theorem sendDataOffset_mem (s : State) (ep p n off : Nat) :
    (sendDataOffset s ep p n off).1.mem = s.mem := rfl

@[simp] theorem sendDataOffset_In (s : State) (ep p n off : Nat) :
    (sendDataOffset s ep p n off).1.epStatusControllerIn = s.epStatusControllerIn := rfl

@[simp] theorem sendDataOffset_endpoints (s : State) (ep p n off : Nat) :
    (sendDataOffset s ep p n off).1.endpoints = s.endpoints := rfl

@[simp] theorem sendDataOffset_ptr (s : State) (ep p n off : Nat) :
    (sendDataOffset s ep p n off).2 = p + n % 256 := rfl

theorem sendDataOffset_buf (s : State) (p n off x : Nat) :
    (sendDataOffset s 0 p n off).1.epBuffer 1 x =
      if off % 256 ≤ x ∧ x < off % 256 + n % 256 then s.mem (p + (x - off % 256))
      else s.epBuffer 1 x := by
  unfold sendDataOffset
  simp only [Nat.zero_shiftLeft, Nat.zero_add, Function.update_same]
  exact copy_apply (fun i => s.mem (p + i)) (s.epBuffer 1) (off % 256) (n % 256) x

@[simp] theorem sendData_mem (s : State) (ep p n : Nat) :
    (sendData s ep p n).1.mem = s.mem := rfl

@[simp] theorem sendData_In (s : State) (ep p n : Nat) :
    (sendData s ep p n).1.epStatusControllerIn = s.epStatusControllerIn := rfl

@[simp] theorem sendData_endpoints (s : State) (ep p n : Nat) :
    (sendData s ep p n).1.endpoints = s.endpoints := rfl

@[simp] theorem sendData_ptr (s : State) (ep p n : Nat) :
    (sendData s ep p n).2 = p + n % 256 := rfl

theorem sendData_buf (s : State) (p n x : Nat) :
    (sendData s 0 p n).1.epBuffer 1 x =
      if x < n % 256 then s.mem (p + x) else s.epBuffer 1 x := by
  unfold sendData
  simp only [Nat.zero_shiftLeft, Nat.zero_add, Function.update_same]
  have h := copy_apply (fun i => s.mem (p + i)) (s.epBuffer 1) 0 (n % 256) x
  simp only [Nat.zero_add, Nat.zero_le, true_and, Nat.sub_zero] at h
  exact h

@[simp] theorem recvData_In (s : State) (ep p n : Nat) :
    (recvData s ep p n).1.epStatusControllerIn = s.epStatusControllerIn := rfl

@[simp] theorem recvData_Out (s : State) (ep p n : Nat) :
    (recvData s ep p n).1.epStatusControllerOut = s.epStatusControllerOut := rfl

@[simp] theorem recvData_endpoints (s : State) (ep p n : Nat) :
    (recvData s ep p n).1.endpoints = s.endpoints := rfl

@[simp] theorem recvData_epBuffer (s : State) (ep p n : Nat) :
    (recvData s ep p n).1.epBuffer = s.epBuffer := rfl

@[simp] theorem recvData_ptr (s : State) (ep p n : Nat) :
    (recvData s ep p n).2 = p + n % 256 := rfl

theorem recvData_mem (s : State) (p n a : Nat) :
    (recvData s 0 p n).1.mem a =
      if p ≤ a ∧ a < p + n % 256 then s.epBuffer 0 (a - p) else s.mem a := by
  unfold recvData
  simp only [Nat.zero_shiftLeft]
  exact copy_apply (fun i => s.epBuffer 0 i) s.mem p (n % 256) a

end Projections

section Loop

variable (env : Env)

theorem partAmount_eq (l o a : Nat) (ho : o ≤ l) (hl : l < 256) :
    (if (l : Int) - o > a then a else toU8 ((l : Int) - o)) = min (l - o) a := by
  unfold toU8
  split <;> omega

theorem body_mem (w : WriteLoop) : (writeCtrlEP.body env w).s.mem = w.s.mem := by
  unfold writeCtrlEP.body
  simp only [apply_ite State.mem, setIn0_mem, sendDataOffset_mem, ite_self]

/-- One iteration of the loop from offset `o` of fragment `j`, with `p` the bytes it
copies. -/
theorem body_spec (w : WriteLoop) (T : usbMultiPartTable_t) (j o : Nat)
    (hT : (w.s.epStatusControllerIn 0).partsData = T)
    (hj : (w.s.epStatusControllerIn 0).partNumber = j)
    (hc : (w.s.epStatusControllerIn 0).memBuffer = (env.flash (T.part j)).descriptor + o)
    (ho : o ≤ (env.flash (T.part j)).length.val)
    (hoff : w.sendOffset + w.sendAmount ≤ 255) :
    (writeCtrlEP.body env w).sendAmount =
        w.sendAmount - min ((env.flash (T.part j)).length.val - o) w.sendAmount ∧
      (writeCtrlEP.body env w).sendOffset =
        w.sendOffset + min ((env.flash (T.part j)).length.val - o) w.sendAmount ∧
      (writeCtrlEP.body env w).s.epStatusControllerIn 0 =
        (if o + min ((env.flash (T.part j)).length.val - o) w.sendAmount =
              (env.flash (T.part j)).length.val ∧ j + 1 < T.count then
          { w.s.epStatusControllerIn 0 with
            memBuffer := (env.flash (T.part (j + 1))).descriptor
            partNumber := j + 1 }
        else
          { w.s.epStatusControllerIn 0 with
            memBuffer := (env.flash (T.part j)).descriptor + o +
              min ((env.flash (T.part j)).length.val - o) w.sendAmount }) ∧
      (∀ x, (writeCtrlEP.body env w).s.epBuffer 1 x =
        if w.sendOffset ≤ x ∧
            x < w.sendOffset + min ((env.flash (T.part j)).length.val - o) w.sendAmount then
          w.s.mem ((env.flash (T.part j)).descriptor + o + (x - w.sendOffset))
        else w.s.epBuffer 1 x) := by
  have hl := (env.flash (T.part j)).length.isLt
  have h1 : toU8 ((((env.flash (T.part j)).descriptor + o : Nat) : Int) -
      ((env.flash (T.part j)).descriptor : Nat)) = o := by
    unfold toU8; omega
  have hp := partAmount_eq (env.flash (T.part j)).length.val o w.sendAmount ho hl
  generalize hpdef : min ((env.flash (T.part j)).length.val - o) w.sendAmount = p at *
  have hple : p ≤ w.sendAmount := by omega
  have hpl : o + p ≤ (env.flash (T.part j)).length.val := by omega
  have hp256 : p % 256 = p := by omega
  have ho256 : w.sendOffset % 256 = w.sendOffset := by omega
  have h2 : toU8 ((((env.flash (T.part j)).descriptor + o + p : Nat) : Int) -
      ((env.flash (T.part j)).descriptor : Nat)) = o + p := by
    unfold toU8; omega
  unfold writeCtrlEP.body
  simp only [hT, hj, hc, h1, hp]
  refine ⟨?_, ?_, ?_, ?_⟩
  · unfold toU8; omega
  · unfold toU8; omega
  · simp only [apply_ite (fun s : State => s.epStatusControllerIn 0), setIn0_In0,
      sendDataOffset_In, sendDataOffset_ptr, hp256, h2, hT, hj]
  · intro x
    simp only [apply_ite (fun s : State => s.epBuffer 1 x), setIn0_epBuffer,
      sendDataOffset_buf, hp256, ho256, ite_self]

end Loop

section Bytes

variable (flash : Nat → usbMultiPartDesc_t) (mem : Nat → Nat) (t : usbMultiPartTable_t)

theorem fragBytes_length (f : usbMultiPartDesc_t) : (fragBytes mem f).length = f.length.val := by
  simp [fragBytes]

theorem bytesFrom_take (j o p : Nat) (hp : o + p ≤ (flash (t.part j)).length.val) :
    (bytesFrom flash mem t j o).take p =
      (List.range p).map (fun i => mem ((flash (t.part j)).descriptor + o + i)) := by
  unfold bytesFrom
  rw [List.take_append_of_le_length (by simp [fragBytes]; omega)]
  apply List.ext_getElem
  · simp [fragBytes]; omega
  · intro n h1 h2
    simp [fragBytes, Nat.add_assoc]

theorem bytesFrom_drop (j o p : Nat) (hp : o + p ≤ (flash (t.part j)).length.val) :
    (bytesFrom flash mem t j o).drop p = bytesFrom flash mem t j (o + p) := by
  unfold bytesFrom
  rw [List.drop_append_of_le_length (by simp [fragBytes]; omega), List.drop_drop]

theorem bytesFrom_next (j : Nat) (hj : j + 1 < t.count) :
    bytesFrom flash mem t j (flash (t.part j)).length.val = bytesFrom flash mem t (j + 1) 0 := by
  unfold bytesFrom
  have h : t.count - (j + 1) = (t.count - (j + 1 + 1)) + 1 := by omega
  rw [h, List.range'_succ]
  simp [fragBytes]

theorem bytesFrom_last (j o : Nat) (hj : t.count ≤ j + 1)
    (ho : (flash (t.part j)).length.val ≤ o) : bytesFrom flash mem t j o = [] := by
  unfold bytesFrom
  have h : t.count - (j + 1) = 0 := by omega
  rw [h]
  simp [fragBytes]; omega

theorem bytesFrom_length_le (j o : Nat) (hj : t.count ≤ j + 1) :
    (bytesFrom flash mem t j o).length = (flash (t.part j)).length.val - o := by
  unfold bytesFrom
  have h : t.count - (j + 1) = 0 := by omega
  rw [h]
  simp [fragBytes]

theorem tableBytes_eq_bytesFrom (h : 0 < t.count) :
    tableBytes flash mem t = bytesFrom flash mem t 0 0 := by
  unfold tableBytes bytesFrom usbMultiPartTable_t.parts
  have h1 : t.count = (t.count - 1) + 1 := by omega
  rw [List.range_eq_range', List.flatMap_map]
  conv_lhs => rw [h1, List.range'_succ]
  simp

theorem tableBytes_length :
    (tableBytes flash mem t).length = ((t.parts flash).map (fun f => f.length.val)).sum := by
  unfold tableBytes
  induction t.parts flash with
  | nil => simp
  | cons f fs ih => simp [List.flatMap_cons, fragBytes_length, ih]

theorem tableBytes_empty (h : t.count = 0) : tableBytes flash mem t = [] := by
  unfold tableBytes usbMultiPartTable_t.parts
  simp [h]

theorem bytesFrom_null (hnull : nullOnlyAtEnd flash t) (j o : Nat) (hj0 : 0 < j)
    (hj : j < t.count) (hd : (flash (t.part j)).descriptor = 0) :
    bytesFrom flash mem t j o = [] := by
  unfold bytesFrom
  have h0 := hnull j hj hj0 hd
  rw [List.append_eq_nil]
  constructor
  · have := h0 j hj (le_refl _)
    simp [fragBytes, this]
  · rw [List.flatMap_eq_nil_iff]
    intro i hi
    rw [List.mem_range'_1] at hi
    have := h0 i (by omega) (by omega)
    simp [fragBytes, this]

end Bytes

section LoopSpec

variable (env : Env)

theorem map_range'_split (f : Nat → Nat) (s p a : Nat) (hp : p ≤ a) :
    (List.range' s a).map f =
      (List.range' s p).map f ++ (List.range' (s + p) (a - p)).map f := by
  have h : a = (a - p) + p := by omega
  conv_lhs => rw [h, ← List.range'_append s p (a - p) 1]
  rw [List.map_append, Nat.one_mul]

/-- After one iteration from offset `o` of fragment `j` with bytes to send, the cursor is at
a position of the table again, `p` bytes further, and the iteration has copied a byte or
has advanced to the next fragment. -/
theorem body_position (T : usbMultiPartTable_t) (mem : Nat → Nat) (w : WriteLoop) (j o : Nat)
    (hT : (w.s.epStatusControllerIn 0).partsData = T)
    (hj : (w.s.epStatusControllerIn 0).partNumber = j)
    (hjk : j < T.count)
    (hc : (w.s.epStatusControllerIn 0).memBuffer = (env.flash (T.part j)).descriptor + o)
    (ho : o ≤ (env.flash (T.part j)).length.val)
    (ha : w.sendAmount ≤ (bytesFrom env.flash mem T j o).length)
    (hoff : w.sendOffset + w.sendAmount ≤ 255)
    (ha0 : w.sendAmount ≠ 0) :
    ∃ p j2 o2, p ≤ w.sendAmount ∧ o + p ≤ (env.flash (T.part j)).length.val ∧
      (writeCtrlEP.body env w).sendAmount = w.sendAmount - p ∧
      (writeCtrlEP.body env w).sendOffset = w.sendOffset + p ∧
      (writeCtrlEP.body env w).s.epStatusControllerIn 0 =
        { w.s.epStatusControllerIn 0 with
          memBuffer := (env.flash (T.part j2)).descriptor + o2
          partNumber := j2 } ∧
      j2 < T.count ∧ o2 ≤ (env.flash (T.part j2)).length.val ∧
      bytesFrom env.flash mem T j2 o2 = (bytesFrom env.flash mem T j o).drop p ∧
      (w.sendAmount - p) + (T.count - j2) < w.sendAmount + (T.count - j) ∧
      (∀ x, (writeCtrlEP.body env w).s.epBuffer 1 x =
        if w.sendOffset ≤ x ∧ x < w.sendOffset + p then
          w.s.mem ((env.flash (T.part j)).descriptor + o + (x - w.sendOffset))
        else w.s.epBuffer 1 x) := by
  obtain ⟨hbA, hbO, hbS, hbB⟩ := body_spec env w T j o hT hj hc ho hoff
  generalize hpdef : min ((env.flash (T.part j)).length.val - o) w.sendAmount = p at *
  have hple : p ≤ w.sendAmount := by omega
  have hpl : o + p ≤ (env.flash (T.part j)).length.val := by omega
  have hdrop := bytesFrom_drop env.flash mem T j o p hpl
  by_cases hadv : o + p = (env.flash (T.part j)).length.val ∧ j + 1 < T.count
  · rw [if_pos hadv] at hbS
    have hnext := bytesFrom_next env.flash mem T j hadv.2
    refine ⟨p, j + 1, 0, hple, hpl, hbA, hbO, by rw [hbS]; rfl, hadv.2, Nat.zero_le _, ?_,
      by omega, hbB⟩
    rw [hdrop, hadv.1, hnext]
  · rw [if_neg hadv] at hbS
    have hp0 : 0 < p := by
      by_contra hp0
      have hp00 : p = 0 := by omega
      have hol : o = (env.flash (T.part j)).length.val := by omega
      have hlen := bytesFrom_length_le env.flash mem T j o (by omega)
      omega
    refine ⟨p, j, o + p, hple, hpl, hbA, hbO,
      by rw [hbS]; subst hj; simp only [Nat.add_assoc], hjk, hpl, hdrop.symm,
      by omega, hbB⟩

/-- The loop of `writeCtrlEP` from offset `o` of fragment `j`: with enough fuel it ends,
having copied the next `sendAmount` bytes of the table to the buffer from `sendOffset`
on, and leaves the cursor where those bytes end. -/
theorem loop_spec (T : usbMultiPartTable_t) (mem : Nat → Nat) :
    ∀ (fuel : Nat) (w : WriteLoop) (j o : Nat),
      (w.s.epStatusControllerIn 0).partsData = T →
      (w.s.epStatusControllerIn 0).partNumber = j →
      j < T.count →
      (w.s.epStatusControllerIn 0).memBuffer = (env.flash (T.part j)).descriptor + o →
      o ≤ (env.flash (T.part j)).length.val →
      w.s.mem = mem →
      w.sendAmount ≤ (bytesFrom env.flash mem T j o).length →
      w.sendOffset + w.sendAmount ≤ 255 →
      w.sendAmount + (T.count - j) ≤ fuel →
      ∃ w' j' o', writeCtrlEP.loop env fuel w = some w' ∧
        w'.s.epStatusControllerIn 0 =
          { w.s.epStatusControllerIn 0 with
            memBuffer := (env.flash (T.part j')).descriptor + o'
            partNumber := j' } ∧
        j' < T.count ∧ o' ≤ (env.flash (T.part j')).length.val ∧
        bytesFrom env.flash mem T j' o' = (bytesFrom env.flash mem T j o).drop w.sendAmount ∧
        w'.s.mem = mem ∧
        (∀ x, x < w.sendOffset → w'.s.epBuffer 1 x = w.s.epBuffer 1 x) ∧
        (List.range' w.sendOffset w.sendAmount).map (w'.s.epBuffer 1) =
          (bytesFrom env.flash mem T j o).take w.sendAmount := by
  intro fuel
  induction fuel with
  | zero =>
    intro w j o hT hj hjk hc ho hmem ha hoff hfuel
    have ha0 : w.sendAmount = 0 := by omega
    refine ⟨w, j, o, ?_, ?_, hjk, ho, ?_, hmem, fun _ _ => rfl, ?_⟩
    · unfold writeCtrlEP.loop; simp [ha0]
    · rw [← hc, ← hj]
    · simp [ha0]
    · simp [ha0]
  | succ n ih =>
    intro w j o hT hj hjk hc ho hmem ha hoff hfuel
    by_cases ha0 : w.sendAmount = 0
    · refine ⟨w, j, o, ?_, ?_, hjk, ho, ?_, hmem, fun _ _ => rfl, ?_⟩
      · unfold writeCtrlEP.loop; simp [ha0]
      · rw [← hc, ← hj]
      · simp [ha0]
      · simp [ha0]
    · obtain ⟨p, j2, o2, hple, hpl, hbA, hbO, hbS, hj2, ho2, hbf, hdec, hbB⟩ :=
        body_position env T mem w j o hT hj hjk hc ho ha hoff ha0
      have hbM := body_mem env w
      have hloop : writeCtrlEP.loop env (n + 1) w =
          writeCtrlEP.loop env n (writeCtrlEP.body env w) := by
        conv_lhs => unfold writeCtrlEP.loop
        simp [ha0]
      have htake := bytesFrom_take env.flash mem T j o p hpl
      obtain ⟨w', j', o', h1, h2, h3, h4, h5, h6, h7, h8⟩ :=
        ih (writeCtrlEP.body env w) j2 o2
          (by rw [hbS, ← hT]) (by rw [hbS]) hj2 (by rw [hbS]) ho2
          (by rw [hbM, hmem])
          (by rw [hbA, hbf, List.length_drop]; omega)
          (by rw [hbA, hbO]; omega) (by rw [hbA]; omega)
      refine ⟨w', j', o', by rw [hloop, h1], by rw [h2, hbS], h3, h4, ?_, h6, ?_, ?_⟩
      · rw [h5, hbA, hbf, List.drop_drop]
        congr 1; omega
      · intro x hx
        rw [h7 x (by rw [hbO]; omega), hbB x, if_neg (by omega)]
      · have hsplit : w.sendAmount = p + (w.sendAmount - p) := by omega
        rw [hbA, hbO, hbf] at h8
        rw [map_range'_split _ _ p _ hple, h8]
        conv_rhs => rw [hsplit, List.take_add]
        congr 1
        rw [htake, List.range'_eq_map_range, List.map_map]
        apply List.map_congr_left
        intro i hi
        rw [List.mem_range] at hi
        simp only [Function.comp]
        rw [h7 _ (by rw [hbO]; omega), hbB, if_pos (by omega), hmem]
        congr 2; omega

end LoopSpec

section Calls

variable (env : Env)

theorem inPacket_eq (s : State) :
    s.inPacket = (List.range' 0 (s.endpoints 0).controllerIn.CNT).map (s.epBuffer 1) := by
  unfold State.inPacket
  rw [List.range_eq_range']

/-- One call of `writeCtrlEP` in a multi-part transfer: it ends, the packet holds the
next `min(remaining, max packet size)` bytes of the table, and the status is that of the
transfer that many bytes further. -/
theorem writeCtrlEP_multiPart (T : usbMultiPartTable_t) (s : State) (j o : Nat)
    (hP : env.epBufferSize ≤ 255)
    (hinv : MultiPartAt env T s j o) (hnull : nullOnlyAtEnd env.flash T)
    (fuel : Nat) (hfuel : env.epBufferSize + T.count ≤ fuel) :
    ∃ s', writeCtrlEP env fuel s =
        some ((s.epStatusControllerIn 0).transferCount -
          min (s.epStatusControllerIn 0).transferCount env.epBufferSize == 0, s') ∧
      s'.inPacket = (bytesFrom env.flash s.mem T j o).take
        (min (s.epStatusControllerIn 0).transferCount env.epBufferSize) ∧
      s'.mem = s.mem ∧
      (s'.epStatusControllerIn 0).transferCount = (s.epStatusControllerIn 0).transferCount -
          min (s.epStatusControllerIn 0).transferCount env.epBufferSize ∧
      ((s.epStatusControllerIn 0).transferCount -
          min (s.epStatusControllerIn 0).transferCount env.epBufferSize ≠ 0 →
        ∃ j' o', MultiPartAt env T s' j' o' ∧
          bytesFrom env.flash s'.mem T j' o' = (bytesFrom env.flash s.mem T j o).drop
            (min (s.epStatusControllerIn 0).transferCount env.epBufferSize)) := by
  obtain ⟨hmp, hT, hj, hjk, ho, hcur, hr⟩ := hinv
  generalize hrdef : (s.epStatusControllerIn 0).transferCount = r at *
  generalize hndef : min r env.epBufferSize = n at *
  have hsc : (if r < env.epBufferSize then r % 256 else env.epBufferSize % 256) = n := by
    split <;> omega
  unfold writeCtrlEP
  simp only [hrdef, hsc, hmp, Bool.not_true, Bool.false_eq_true, if_false]
  generalize hs2 : (if (s.epStatusControllerIn 0).memBuffer = 0 then _ else _ : State) = s2
  have hs2In : s2.epStatusControllerIn 0 =
      { s.epStatusControllerIn 0 with
        transferCount := r - n
        memBuffer := (env.flash (T.part j)).descriptor + o } := by
    rw [← hs2]
    rcases hcur with ⟨h1, h2⟩ | ⟨h1, h2, h3⟩
    · rw [if_neg h2, setIn0_In0, ← h1]
    · rw [if_pos h1, setIn0_In0, setIn0_In0]
      subst h2 h3
      simp only [hT, Nat.add_zero]
  have hs2mem : s2.mem = s.mem := by
    rw [← hs2]
    simp only [apply_ite State.mem, setIn0_mem, ite_self]
  obtain ⟨w', j', o', h1, h2, h3, h4, h5, h6, h7, h8⟩ :=
    loop_spec env T s.mem fuel ⟨s2, n, 0⟩ j o
      (by simp only [hs2In, hT]) (by simp only [hs2In, hj]) hjk (by simp only [hs2In]) ho
      hs2mem (by show n ≤ _; omega) (by show 0 + n ≤ 255; omega)
      (by show n + _ ≤ fuel; omega)
  simp only [h1]
  refine ⟨_, rfl, ?_, ?_, ?_, ?_⟩
  · rw [inPacket_eq]
    simp only [setEPIn_In, setEPIn_epBuffer, apply_ite (fun s : State => s.epBuffer 1),
      setIn0_epBuffer, ite_self]
    exact h8
  · simp only [setEPIn_mem, apply_ite State.mem, setIn0_mem, ite_self, h6]
  · simp only [setEPIn_epStatusControllerIn,
      apply_ite (fun s : State => (s.epStatusControllerIn 0).transferCount), setIn0_In0,
      ite_self, h2, hs2In]
  · intro hne
    refine ⟨j', o', ?_, ?_⟩
    · simp only [if_neg hne]
      unfold MultiPartAt
      simp only [setEPIn_epStatusControllerIn, setEPIn_mem, h2, hs2In, h6, hmp, hT, h5,
        List.length_drop]
      refine ⟨trivial, trivial, trivial, h3, h4, ?_, by omega⟩
      by_cases hz : (env.flash (T.part j')).descriptor + o' = 0
      · right
        refine ⟨hz, ?_, by omega⟩
        by_contra hj0
        have := bytesFrom_null env.flash s.mem T hnull j' o' (by omega) h3 (by omega)
        rw [h5] at this
        have hlen := congrArg List.length this
        simp only [List.length_drop, List.length_nil] at hlen
        omega
      · left
        exact ⟨trivial, hz⟩
    · simp only [if_neg hne, setEPIn_mem, h6, h5]

end Calls

section Transfers

variable (env : Env)

/-- A call of `writeCtrlEP` with nothing left to send ends at once, with an empty packet. -/
theorem writeCtrlEP_zero (s : State) (fuel : Nat)
    (hr : (s.epStatusControllerIn 0).transferCount = 0) :
    ∃ s', writeCtrlEP env fuel s = some (true, s') ∧ s'.inPacket = [] := by
  have hsc : (if 0 < env.epBufferSize then 0 % 256 else env.epBufferSize % 256) = 0 := by
    split <;> omega
  have hloop : ∀ s2 : State, writeCtrlEP.loop env fuel ⟨s2, 0, 0⟩ = some ⟨s2, 0, 0⟩ := by
    intro s2
    unfold writeCtrlEP.loop
    simp
  unfold writeCtrlEP
  simp only [hr, hsc, hloop]
  by_cases hmp : (s.epStatusControllerIn 0).isMultiPart = true
  · simp only [hmp, Bool.not_true, Bool.false_eq_true, if_false]
    refine ⟨_, rfl, ?_⟩
    unfold State.inPacket
    simp only [setEPIn_In, List.range_zero, List.map_nil]
  · have hmp' : (s.epStatusControllerIn 0).isMultiPart = false := by simpa using hmp
    simp only [hmp', Bool.not_false, if_true]
    refine ⟨_, rfl, ?_⟩
    unfold State.inPacket
    simp only [setEPIn_In, List.range_zero, List.map_nil]

/-- The calls of `writeCtrlEP` from a status of a multi-part transfer: they end and their
packets, concatenated, are the next `transferCount` bytes of the table. -/
theorem writeAll_multiPart (T : usbMultiPartTable_t)
    (hP1 : 1 ≤ env.epBufferSize) (hP : env.epBufferSize ≤ 255)
    (hnull : nullOnlyAtEnd env.flash T)
    (fuel : Nat) (hfuel : env.epBufferSize + T.count ≤ fuel) :
    ∀ (calls : Nat) (s : State) (j o : Nat), MultiPartAt env T s j o →
      (s.epStatusControllerIn 0).transferCount < calls →
      ∃ packets s', writeAll env fuel calls s = some (packets, s') ∧
        packets.flatten =
          (bytesFrom env.flash s.mem T j o).take (s.epStatusControllerIn 0).transferCount := by
  intro calls
  induction calls with
  | zero => intro s j o _ h; omega
  | succ c ih =>
    intro s j o hinv hcalls
    obtain ⟨s1, h1, h2, h3, h4, h5⟩ := writeCtrlEP_multiPart env T s j o hP hinv hnull fuel hfuel
    generalize hrdef : (s.epStatusControllerIn 0).transferCount = r at *
    generalize hndef : min r env.epBufferSize = n at *
    by_cases hdone : r - n = 0
    · have hb : (r - n == 0) = true := by simp [hdone]
      rw [hb] at h1
      refine ⟨[s1.inPacket], s1, ?_, ?_⟩
      · unfold writeAll
        simp only [h1]
      · have hn : n = r := by omega
        simp only [List.flatten, List.append_nil, h2, hn]
    · have hb : (r - n == 0) = false := by simp [hdone]
      rw [hb] at h1
      obtain ⟨j', o', hinv', hbf⟩ := h5 hdone
      obtain ⟨pk, s2, hw, hfl⟩ := ih s1 j' o' hinv' (by rw [h4]; omega)
      refine ⟨s1.inPacket :: pk, s2, ?_, ?_⟩
      · unfold writeAll
        simp only [h1, hw]
      · have hsplit : r = n + (r - n) := by omega
        rw [List.flatten_cons, hfl, h2, hbf, h4]
        conv_rhs => rw [hsplit, List.take_add]

/-- The responder leaves `totalLength()` as the remaining count; when the lengths of the
fragments sum to less than 65536 that is the number of bytes of the table. -/
theorem totalLength_eq_length (flash : Nat → usbMultiPartDesc_t) (mem : Nat → Nat)
    (T : usbMultiPartTable_t)
    (hsum : ((T.parts flash).map (fun f => f.length.val)).sum < 65536) :
    T.totalLength flash = (tableBytes flash mem T).length := by
  rw [totalLength_eq, tableBytes_length, Nat.mod_eq_of_lt hsum]

/-- A multi-part transfer from the status the responder leaves, with any remaining count
up to the number of bytes of the table: the packets, concatenated, are the first
`transferCount` bytes of the concatenation of the fragments. -/
theorem writeAll_fresh (T : usbMultiPartTable_t) (s : State)
    (hP1 : 1 ≤ env.epBufferSize) (hP : env.epBufferSize ≤ 255)
    (hnull : nullOnlyAtEnd env.flash T)
    (hmp : (s.epStatusControllerIn 0).isMultiPart = true)
    (hT : (s.epStatusControllerIn 0).partsData = T)
    (hj : (s.epStatusControllerIn 0).partNumber = 0)
    (hc : (s.epStatusControllerIn 0).memBuffer = 0)
    (hr : (s.epStatusControllerIn 0).transferCount ≤ (tableBytes env.flash s.mem T).length)
    (fuel calls : Nat) (hfuel : env.epBufferSize + T.count ≤ fuel)
    (hcalls : (s.epStatusControllerIn 0).transferCount < calls) :
    ∃ packets s', writeAll env fuel calls s = some (packets, s') ∧
      packets.flatten =
        (tableBytes env.flash s.mem T).take (s.epStatusControllerIn 0).transferCount := by
  by_cases hk : 0 < T.count
  · rw [tableBytes_eq_bytesFrom env.flash s.mem T hk] at hr ⊢
    exact writeAll_multiPart env T hP1 hP hnull fuel hfuel calls s 0 0
      ⟨hmp, hT, hj, hk, Nat.zero_le _, Or.inr ⟨hc, rfl, rfl⟩, hr⟩ hcalls
  · have hk0 : T.count = 0 := by omega
    rw [tableBytes_empty env.flash s.mem T hk0] at hr ⊢
    have hr0 : (s.epStatusControllerIn 0).transferCount = 0 := by simpa using hr
    obtain ⟨s1, h1, h2⟩ := writeCtrlEP_zero env s fuel hr0
    obtain ⟨c, hc⟩ : ∃ c, calls = c + 1 := ⟨calls - 1, by omega⟩
    subst hc
    refine ⟨[s1.inPacket], s1, ?_, ?_⟩
    · unfold writeAll
      simp only [h1]
    · simp [h2]

end Transfers

section Reads

/-- The effect of `readCtrlEP`: `recvData` is handed the clamped count, which it takes
as a `uint8_t`. -/
theorem readCtrlEP_spec (s : State) :
    (∀ a, (readCtrlEP s).2.mem a =
      if (s.epStatusControllerOut 0).memBuffer ≤ a ∧
          a < (s.epStatusControllerOut 0).memBuffer +
            min (s.endpoints 0).controllerOut.CNT (s.epStatusControllerOut 0).transferCount % 256
      then s.epBuffer 0 (a - (s.epStatusControllerOut 0).memBuffer) else s.mem a) ∧
    (readCtrlEP s).2.epStatusControllerOut 0 =
      { s.epStatusControllerOut 0 with
        transferCount := (s.epStatusControllerOut 0).transferCount -
          min (s.endpoints 0).controllerOut.CNT (s.epStatusControllerOut 0).transferCount
        memBuffer := (s.epStatusControllerOut 0).memBuffer +
          min (s.endpoints 0).controllerOut.CNT (s.epStatusControllerOut 0).transferCount % 256 } ∧
    (readCtrlEP s).1 = ((s.epStatusControllerOut 0).transferCount -
      min (s.endpoints 0).controllerOut.CNT (s.epStatusControllerOut 0).transferCount == 0) := by
  have hrc : (if (s.endpoints 0).controllerOut.CNT > (s.epStatusControllerOut 0).transferCount
      then (s.epStatusControllerOut 0).transferCount else (s.endpoints 0).controllerOut.CNT) =
      min (s.endpoints 0).controllerOut.CNT (s.epStatusControllerOut 0).transferCount := by
    split <;> omega
  refine ⟨?_, ?_, ?_⟩
  · intro a
    unfold readCtrlEP
    simp only [hrc, setEPOut_mem, setOut0_mem, recvData_mem]
  · unfold readCtrlEP
    simp only [hrc, setEPOut_epStatusControllerOut, setOut0_Out0, recvData_Out, recvData_ptr]
  · unfold readCtrlEP
    simp only [hrc]

end Reads

section Counts

variable (env : Env)

theorem body_transferCount (w : WriteLoop) :
    ((writeCtrlEP.body env w).s.epStatusControllerIn 0).transferCount =
      (w.s.epStatusControllerIn 0).transferCount := by
  unfold writeCtrlEP.body
  simp only [apply_ite (fun s : State => (s.epStatusControllerIn 0).transferCount),
    setIn0_In0, sendDataOffset_In, ite_self]

theorem loop_transferCount (fuel : Nat) (w w' : WriteLoop)
    (h : writeCtrlEP.loop env fuel w = some w') :
    (w'.s.epStatusControllerIn 0).transferCount = (w.s.epStatusControllerIn 0).transferCount := by
  induction fuel generalizing w with
  | zero =>
    unfold writeCtrlEP.loop at h
    split at h
    · cases h; rfl
    · cases h
  | succ n ih =>
    unfold writeCtrlEP.loop at h
    split at h
    · cases h; rfl
    · rw [ih _ h, body_transferCount]

/-- The number of bytes `writeCtrlEP` puts in a packet: the remaining count when that is
below the max packet size, else the max packet size, as a `uint8_t`. -/
theorem sendCount_le (r P : Nat) : (if r < P then r % 256 else P % 256) ≤ r := by
  split <;> omega

/-- The remaining count across a call of `writeCtrlEP` that returns: the packet has as
many bytes as the remaining count is less after the call, and the call returns true
exactly when the remaining count has become 0. -/
theorem writeCtrlEP_count (s s' : State) (b : Bool) (fuel : Nat)
    (h : writeCtrlEP env fuel s = some (b, s')) :
    s'.inPacket.length + (s'.epStatusControllerIn 0).transferCount =
      (s.epStatusControllerIn 0).transferCount ∧
    b = ((s'.epStatusControllerIn 0).transferCount == 0) := by
  generalize hrdef : (s.epStatusControllerIn 0).transferCount = r at *
  have hle := sendCount_le r env.epBufferSize
  generalize hsc : (if r < env.epBufferSize then r % 256 else env.epBufferSize % 256) = n at *
  unfold writeCtrlEP at h
  simp only [hrdef, hsc] at h
  split at h
  · simp only [Option.some.injEq, Prod.mk.injEq] at h
    obtain ⟨hb, hs⟩ := h
    subst hs hb
    unfold State.inPacket
    simp only [setEPIn_In, List.length_map, List.length_range, setEPIn_epStatusControllerIn,
      setIn0_In0, sendData_In, and_true]
    omega
  · split at h
    · cases h
    · rename_i w hw
      simp only [Option.some.injEq, Prod.mk.injEq] at h
      obtain ⟨hb, hs⟩ := h
      subst hs hb
      have hl := loop_transferCount env fuel _ w hw
      simp only [apply_ite (fun s : State => (s.epStatusControllerIn 0).transferCount),
        setIn0_In0, ite_self] at hl
      unfold State.inPacket
      simp only [setEPIn_In, List.length_map, List.length_range, setEPIn_epStatusControllerIn,
        apply_ite (fun s : State => (s.epStatusControllerIn 0).transferCount), setIn0_In0,
        ite_self, hl, and_true]
      omega

/-- The bytes of all packets of a transfer are as many as the remaining count it starts
with. -/
theorem writeAll_total (fuel : Nat) :
    ∀ (calls : Nat) (s s' : State) (packets : List (List Nat)),
      writeAll env fuel calls s = some (packets, s') →
      (packets.map List.length).sum = (s.epStatusControllerIn 0).transferCount := by
  intro calls
  induction calls with
  | zero =>
    intro s s' packets h
    unfold writeAll at h
    cases h
  | succ c ih =>
    intro s s' packets h
    unfold writeAll at h
    split at h
    · cases h
    · rename_i s1 h1
      obtain ⟨h2, h3⟩ := writeCtrlEP_count env s s1 true fuel h1
      simp only [Option.some.injEq, Prod.mk.injEq] at h
      obtain ⟨hp, _⟩ := h
      subst hp
      have h5 : (s1.epStatusControllerIn 0).transferCount = 0 := by simpa using h3.symm
      simp only [List.map_cons, List.map_nil, List.sum_cons, List.sum_nil]
      omega
    · rename_i s1 h1
      obtain ⟨h2, h3⟩ := writeCtrlEP_count env s s1 false fuel h1
      split at h
      · cases h
      · rename_i pk s2 hw
        simp only [Option.some.injEq, Prod.mk.injEq] at h
        obtain ⟨hp, _⟩ := h
        subst hp
        have := ih s1 s2 pk hw
        simp only [List.map_cons, List.sum_cons, this]
        omega

end Counts

section Responder

variable (env : Env)

theorem totalLength_lt (flash : Nat → usbMultiPartDesc_t) (T : usbMultiPartTable_t) :
    T.totalLength flash < 65536 := by
  rw [totalLength_eq]
  exact Nat.mod_lt _ (by norm_num)

theorem usbInterfaceDesc_length_lt (i : Nat) : (usbInterfaceDesc i).length < 65536 := by
  unfold usbInterfaceDesc
  split
  · decide
  · decide

theorem usbEndpointDesc_length_lt (i : Nat) : (usbEndpointDesc env i).length < 65536 := by
  unfold usbEndpointDesc
  split
  · show sizeofEndpointDescriptor < 65536
    decide
  · decide

/-- The length `handleGetDescriptor` declares fits 16 bits, and its outcome is never a
zero-length acknowledgement. -/
theorem handleGetDescriptor_size (s : State) :
    (handleGetDescriptor env s).1.size < 65536 ∧
    (handleGetDescriptor env s).1.response ≠ .zeroLength := by
  have h1 := usbInterfaceDesc_length_lt
  have h2 := usbEndpointDesc_length_lt env
  have h3 := totalLength_lt env.flash
  unfold handleGetDescriptor
  simp only []
  split_ifs <;>
    simp [answer_t.unhandled, usbDeviceDesc, usbDeviceQualifierDesc, sizeofDeviceDescriptor,
      sizeofDeviceQualifierDescriptor, h1, h2, h3]

/-- The length `handleStandardRequest` declares fits 16 bits, and is 0 when the outcome is
a zero-length acknowledgement. -/
theorem handleStandardRequest_size (s : State) :
    (handleStandardRequest env s).1.size < 65536 ∧
    ((handleStandardRequest env s).1.response = .zeroLength →
      (handleStandardRequest env s).1.size = 0) := by
  have h1 := handleGetDescriptor_size env s
  unfold handleStandardRequest
  simp only []
  split_ifs <;>
    first
    | exact ⟨h1.1, fun h => absurd h h1.2⟩
    | simp [answer_t.unhandled]

/-- The Transfer Status of endpoint 0 IN that `handleSetupPacket` arms. -/
theorem arm_transferCount (s : State) :
    ((handleSetupPacket.arm env s).epStatusControllerIn 0).transferCount =
      min (handleStandardRequest env (handleSetupPacket.reset s)).1.size
        ((handleStandardRequest env (handleSetupPacket.reset s)).2.packet env).length := by
  obtain ⟨h1, h2⟩ := handleStandardRequest_size env (handleSetupPacket.reset s)
  unfold handleSetupPacket.arm
  simp only [apply_ite (fun s : State => (s.epStatusControllerIn 0).transferCount), setIn0_In0,
    ite_self]
  split
  · rename_i h
    rw [h2 h]
  · rw [Nat.mod_eq_of_lt h1]

end Responder

section SingleBuffer

variable (env : Env)

theorem memBytes_add (mem : Nat → Nat) (a n m : Nat) :
    memBytes mem a (n + m) = memBytes mem a n ++ memBytes mem (a + n) m := by
  unfold memBytes
  apply List.ext_getElem
  · simp
  · intro i h1 h2
    simp only [List.length_map, List.length_range] at h1
    by_cases hi : i < n
    · rw [List.getElem_append_left (by simpa using hi)]
      simp
    · rw [List.getElem_append_right (by simpa using hi)]
      simp only [List.getElem_map, List.getElem_range, List.length_map, List.length_range]
      congr 1
      omega

/-- One call of `writeCtrlEP` for a reply from one contiguous buffer: the packet holds
the next `min(remaining, max packet size)` bytes of the buffer and the cursor moves on by
as much. -/
theorem writeCtrlEP_single (s : State) (fuel : Nat) (hP : env.epBufferSize ≤ 255)
    (hmp : (s.epStatusControllerIn 0).isMultiPart = false) :
    ∃ s', writeCtrlEP env fuel s =
        some ((s.epStatusControllerIn 0).transferCount -
          min (s.epStatusControllerIn 0).transferCount env.epBufferSize == 0, s') ∧
      s'.inPacket = memBytes s.mem (s.epStatusControllerIn 0).memBuffer
        (min (s.epStatusControllerIn 0).transferCount env.epBufferSize) ∧
      s'.mem = s.mem ∧
      s'.epStatusControllerIn 0 =
        { s.epStatusControllerIn 0 with
          transferCount := (s.epStatusControllerIn 0).transferCount -
            min (s.epStatusControllerIn 0).transferCount env.epBufferSize
          memBuffer := (s.epStatusControllerIn 0).memBuffer +
            min (s.epStatusControllerIn 0).transferCount env.epBufferSize } := by
  generalize hrdef : (s.epStatusControllerIn 0).transferCount = r at *
  generalize hndef : min r env.epBufferSize = n at *
  have hsc : (if r < env.epBufferSize then r % 256 else env.epBufferSize % 256) = n := by
    split <;> omega
  have hn256 : n % 256 = n := by omega
  unfold writeCtrlEP
  simp only [hrdef, hsc, hmp, Bool.not_false, if_true]
  refine ⟨_, rfl, ?_, ?_, ?_⟩
  · unfold State.inPacket memBytes
    simp only [setEPIn_In, setEPIn_epBuffer, setIn0_epBuffer]
    apply List.map_congr_left
    intro i hi
    rw [List.mem_range] at hi
    rw [sendData_buf, if_pos (by omega)]
    rfl
  · simp only [setEPIn_mem, setIn0_mem, sendData_mem]
  · simp only [setEPIn_epStatusControllerIn, setIn0_In0, sendData_In, sendData_ptr, hn256, hmp]

/-- The calls of `writeCtrlEP` for a reply from one contiguous buffer: they end and their
packets, concatenated, are the `transferCount` bytes at the cursor. -/
theorem writeAll_single (fuel : Nat) (hP1 : 1 ≤ env.epBufferSize)
    (hP : env.epBufferSize ≤ 255) :
    ∀ (calls : Nat) (s : State), (s.epStatusControllerIn 0).isMultiPart = false →
      (s.epStatusControllerIn 0).transferCount < calls →
      ∃ packets s', writeAll env fuel calls s = some (packets, s') ∧
        packets.flatten = memBytes s.mem (s.epStatusControllerIn 0).memBuffer
          (s.epStatusControllerIn 0).transferCount := by
  intro calls
  induction calls with
  | zero => intro s _ h; omega
  | succ c ih =>
    intro s hmp hcalls
    obtain ⟨s1, h1, h2, h3, h4⟩ := writeCtrlEP_single env s fuel hP hmp
    generalize hrdef : (s.epStatusControllerIn 0).transferCount = r at *
    generalize hndef : min r env.epBufferSize = n at *
    by_cases hdone : r - n = 0
    · have hb : (r - n == 0) = true := by simp [hdone]
      rw [hb] at h1
      refine ⟨[s1.inPacket], s1, ?_, ?_⟩
      · unfold writeAll
        simp only [h1]
      · have hn : n = r := by omega
        simp only [List.flatten, List.append_nil, h2, hn]
    · have hb : (r - n == 0) = false := by simp [hdone]
      rw [hb] at h1
      obtain ⟨pk, s2, hw, hfl⟩ := ih s1 (by rw [h4]; exact hmp) (by rw [h4]; show r - n < c; omega)
      refine ⟨s1.inPacket :: pk, s2, ?_, ?_⟩
      · unfold writeAll
        simp only [h1, hw]
      · have hsplit : r = n + (r - n) := by omega
        rw [List.flatten_cons, hfl, h2, h3, h4]
        conv_rhs => rw [hsplit, memBytes_add]

end SingleBuffer

section Setup

variable (env : Env)

theorem packet_of_mem (s1 s2 : State) (h : s1.mem = s2.mem) : s1.packet env = s2.packet env := by
  unfold State.packet
  rw [h]

@[simp] theorem reset_mem (s : State) : (handleSetupPacket.reset s).mem = s.mem := rfl

@[simp] theorem reset_packet (s : State) : (handleSetupPacket.reset s).packet env = s.packet env :=
  packet_of_mem env _ _ rfl

theorem reset_In0 (s : State) :
    (handleSetupPacket.reset s).epStatusControllerIn 0 =
      { s.epStatusControllerIn 0 with needsArming := false, stall := false, transferCount := 0 } := by
  unfold handleSetupPacket.reset
  simp only [setOut0_epStatusControllerIn, setIn0_In0]

/-- GET_DESCRIPTOR(DEVICE) with the direction device to host. -/
theorem handleGetDescriptor_device (s : State)
    (hdir : (s.packet env).dir = .controllerIn)
    (htype : (s.packet env).descriptorType = usbDescriptor_t.device.toNat) :
    handleGetDescriptor env s = (⟨.data, env.addrDeviceDesc, 18, .flash⟩, s) := by
  unfold handleGetDescriptor
  simp only [hdir, htype]
  rfl

/-- A request with the direction host to device. -/
theorem handleGetDescriptor_controllerOut (s : State)
    (hdir : (s.packet env).dir = .controllerOut) :
    handleGetDescriptor env s = (⟨.unhandled, 0, 0, .sram⟩, s) := by
  unfold handleGetDescriptor
  simp only [hdir]
  rfl

end Setup

section Strings

theorem parts_pair (flash : Nat → usbMultiPartDesc_t) (T : usbMultiPartTable_t)
    (f0 f1 : usbMultiPartDesc_t) (h : T.parts flash = [f0, f1]) :
    T.count = 2 ∧ flash (T.part 0) = f0 ∧ flash (T.part 1) = f1 := by
  have hlen := congrArg List.length h
  unfold usbMultiPartTable_t.parts at h hlen
  simp only [List.length_map, List.length_range, List.length_cons, List.length_nil] at hlen
  have hc : T.count = 2 := by omega
  rw [hc] at h
  have h2 : List.range 2 = [0, 1] := rfl
  rw [h2] at h
  simp only [List.map_cons, List.map_nil, List.cons.injEq, and_true] at h
  exact ⟨hc, h.1, h.2⟩

theorem tableBytes_pair (flash : Nat → usbMultiPartDesc_t) (mem : Nat → Nat)
    (T : usbMultiPartTable_t) (f0 f1 : usbMultiPartDesc_t) (h : T.parts flash = [f0, f1]) :
    tableBytes flash mem T =
      memBytes mem f0.descriptor f0.length.val ++ memBytes mem f1.descriptor f1.length.val := by
  unfold tableBytes
  rw [h]
  simp [fragBytes, memBytes]

theorem ofView_length (data n : Nat) (hn : n ≤ 126) :
    (usbStringDesc_t.ofView data n).length = 2 + 2 * n := by
  unfold usbStringDesc_t.ofView usbStringDesc_t.baseLength toU8
  simp only []
  omega

theorem ofView_stringLength (data n : Nat) (hn : n ≤ 126) :
    (usbStringDesc_t.ofView data n).stringLength = 2 * n := by
  unfold usbStringDesc_t.stringLength
  rw [ofView_length data n hn]
  unfold usbStringDesc_t.baseLength toU8
  omega

theorem ofView_asParts (data this n : Nat) (hn : n ≤ 126) :
    (usbStringDesc_t.ofView data n).asParts this = [⟨2, this⟩, ⟨Fin.ofNat (2 * n), data⟩] := by
  unfold usbStringDesc_t.asParts
  rw [ofView_stringLength data n hn]
  rfl

theorem flatMap_pair_length (units : List Nat) (f g : Nat → Nat) :
    (units.flatMap (fun u => [f u, g u])).length = 2 * units.length := by
  induction units with
  | nil => rfl
  | cons u us ih =>
    rw [List.flatMap_cons, List.length_append, ih]
    simp only [List.length_cons, List.length_nil]
    omega

theorem memBytes_length (mem : Nat → Nat) (a n : Nat) : (memBytes mem a n).length = n := by
  simp [memBytes]

end Strings
/-! ## Registers and masks -/

section Masks

/-- The bits of a mask are 0 after they have been cleared. -/
theorem clearBits_and (x m : Nat) : clearBits x m &&& m = 0 := by
  apply Nat.eq_of_testBit_eq
  intro i
  have h255 : (255 : Nat) = 2 ^ 8 - 1 := by norm_num
  have h256 : (256 : Nat) = 2 ^ 8 := by norm_num
  unfold clearBits
  rw [h255, h256]
  simp only [Nat.testBit_and, Nat.testBit_xor, Nat.testBit_two_pow_sub_one,
    Nat.testBit_mod_two_pow, Nat.zero_testBit]
  cases m.testBit i <;> cases x.testBit i <;> by_cases h : i < 8 <;> simp [h]

/-- Bits that are 0 stay 0 when other bits are cleared. -/
theorem clearBits_and_of_and (x k m : Nat) (h : x &&& m = 0) : clearBits x k &&& m = 0 := by
  apply Nat.eq_of_testBit_eq
  intro i
  have hi := congrArg (fun n => Nat.testBit n i) h
  simp only [Nat.testBit_and, Nat.zero_testBit] at hi
  unfold clearBits
  simp only [Nat.testBit_and, Nat.zero_testBit]
  cases hx : x.testBit i <;> cases hm : m.testBit i <;> simp_all

/-- The bits of an 8-bit mask are 1 after they have been set. -/
theorem setBits_and (x m : Nat) (hm : m < 256) : setBits x m &&& m = m := by
  apply Nat.eq_of_testBit_eq
  intro i
  have h256 : (256 : Nat) = 2 ^ 8 := by norm_num
  unfold setBits
  rw [h256]
  simp only [Nat.testBit_and, Nat.testBit_or, Nat.testBit_mod_two_pow]
  by_cases h : i < 8
  · cases m.testBit i <;> cases x.testBit i <;> simp [h]
  · have : m.testBit i = false := by
      apply Nat.testBit_lt_two_pow
      calc m < 256 := hm
        _ = 2 ^ 8 := by norm_num
        _ ≤ 2 ^ i := Nat.pow_le_pow_right (by norm_num) (by omega)
    simp [h, this]

end Masks

/-! ## What `writeCtrlEP` leaves alone -/

section Frame

variable (env : Env) {α : Type} (g : State → α)

/-- An observation of the state that the writes of the loop body do not change is the
same after an iteration. -/
theorem body_frame (hIn : ∀ s f, g (State.setIn0 s f) = g s)
    (hsd : ∀ s ep p n off, g (sendDataOffset s ep p n off).1 = g s) (w : WriteLoop) :
    g (writeCtrlEP.body env w).s = g w.s := by
  unfold writeCtrlEP.body
  simp only [apply_ite g, hIn, hsd, ite_self]

theorem loop_frame (hIn : ∀ s f, g (State.setIn0 s f) = g s)
    (hsd : ∀ s ep p n off, g (sendDataOffset s ep p n off).1 = g s)
    (fuel : Nat) (w w' : WriteLoop) (h : writeCtrlEP.loop env fuel w = some w') :
    g w'.s = g w.s := by
  induction fuel generalizing w with
  | zero =>
    unfold writeCtrlEP.loop at h
    split at h
    · cases h; rfl
    · cases h
  | succ n ih =>
    unfold writeCtrlEP.loop at h
    split at h
    · cases h; rfl
    · rw [ih _ h, body_frame env g hIn hsd]

/-- An observation of the state that none of the writes of `writeCtrlEP` changes is the
same after a call that returns. -/
theorem writeCtrlEP_frame (hIn : ∀ s f, g (State.setIn0 s f) = g s)
    (hsd : ∀ s ep p n off, g (sendDataOffset s ep p n off).1 = g s)
    (hsd' : ∀ s ep p n, g (sendData s ep p n).1 = g s)
    (hfin : ∀ s c m, g (State.setEPIn s 0 (fun ep =>
      { ep with CNT := c, STATUS := clearBits ep.STATUS m })) = g s)
    (fuel : Nat) (s s' : State) (b : Bool) (h : writeCtrlEP env fuel s = some (b, s')) :
    g s' = g s := by
  unfold writeCtrlEP at h
  dsimp only at h
  split at h
  · simp only [Option.some.injEq, Prod.mk.injEq] at h
    obtain ⟨_, hs⟩ := h
    subst hs
    simp only [hfin, hIn, hsd']
  · split at h
    · cases h
    · rename_i w hw
      simp only [Option.some.injEq, Prod.mk.injEq] at h
      obtain ⟨_, hs⟩ := h
      subst hs
      have hl := loop_frame env g hIn hsd fuel _ w hw
      simp only [apply_ite g, hIn, ite_self] at hl
      simp only [hfin, apply_ite g, hIn, ite_self, hl]

end Frame

/-! ## The steps of `handleSetupPacket` -/

section SetupSteps

variable (env : Env)

/-- The read of the setup packet succeeds exactly when at least 8 bytes were received. -/
theorem read_flag (s : State) :
    (handleSetupPacket.read env s).1 = decide (8 ≤ (s.endpoints 0).controllerOut.CNT) := by
  unfold handleSetupPacket.read
  rw [(readCtrlEP_spec _).2.2]
  simp only [setOut0_Out0, setOut0_endpoints]
  by_cases h : 8 ≤ (s.endpoints 0).controllerOut.CNT
  · have h0 : 8 - min (s.endpoints 0).controllerOut.CNT 8 = 0 := by omega
    simp [h, h0]
  · have h0 : 8 - min (s.endpoints 0).controllerOut.CNT 8 ≠ 0 := by omega
    simp [h, h0]

/-- The memory after the read of the setup packet: the received bytes, at most 8, are at
`&packet`. -/
theorem read_mem (s : State) (a : Nat) :
    (handleSetupPacket.read env s).2.mem a =
      if env.addrPacket ≤ a ∧ a < env.addrPacket + min (s.endpoints 0).controllerOut.CNT 8
      then s.epBuffer 0 (a - env.addrPacket) else s.mem a := by
  unfold handleSetupPacket.read
  rw [(readCtrlEP_spec _).1 a]
  simp only [setOut0_Out0, setOut0_endpoints, setOut0_epBuffer, setOut0_mem]
  have h : min (s.endpoints 0).controllerOut.CNT 8 % 256 =
      min (s.endpoints 0).controllerOut.CNT 8 := by omega
  rw [h]

/-- An observation of the state that the writes of the read of the setup packet do not
change is the same after it. -/
theorem read_frame {α : Type} (g : State → α)
    (hOut : ∀ s f, g (State.setOut0 s f) = g s)
    (hrecv : ∀ s ep p n, g (recvData s ep p n).1 = g s)
    (hep : ∀ s c st, g (State.setEPOut s 0 (fun ep => { ep with CNT := c, STATUS := st })) = g s)
    (s : State) : g (handleSetupPacket.read env s).2 = g s := by
  unfold handleSetupPacket.read readCtrlEP
  simp only [hep, hOut, hrecv]

/-- An observation of the state that a write to the Transfer Status of endpoint 0 IN
does not change is after `arm` as the responder left it. -/
theorem arm_frame {α : Type} (g : State → α) (hIn : ∀ s f, g (State.setIn0 s f) = g s)
    (s : State) :
    g (handleSetupPacket.arm env s) =
      g (handleStandardRequest env (handleSetupPacket.reset s)).2 := by
  unfold handleSetupPacket.arm
  simp only [apply_ite g, hIn, ite_self]

theorem arm_stall (s : State) :
    ((handleSetupPacket.arm env s).epStatusControllerIn 0).stall =
      decide ((handleStandardRequest env (handleSetupPacket.reset s)).1.response = .stall ∨
        (handleStandardRequest env (handleSetupPacket.reset s)).1.response = .unhandled) := by
  unfold handleSetupPacket.arm
  simp only [apply_ite (fun s : State => (s.epStatusControllerIn 0).stall), setIn0_In0, ite_self]

theorem arm_isMultiPart (s : State) :
    ((handleSetupPacket.arm env s).epStatusControllerIn 0).isMultiPart =
      ((handleStandardRequest env (handleSetupPacket.reset s)).2.epStatusControllerIn 0).isMultiPart := by
  unfold handleSetupPacket.arm
  simp only [apply_ite (fun s : State => (s.epStatusControllerIn 0).isMultiPart), setIn0_In0,
    ite_self]

theorem arm_memBuffer (s : State) :
    ((handleSetupPacket.arm env s).epStatusControllerIn 0).memBuffer =
      (handleStandardRequest env (handleSetupPacket.reset s)).1.data := by
  unfold handleSetupPacket.arm
  simp only [apply_ite (fun s : State => (s.epStatusControllerIn 0).memBuffer), setIn0_In0,
    ite_self]

/-- The reply is armed for an outcome `data` or `zeroLength`, unless the outcome is
`data` with a null pointer and no multi-part transfer is set up. -/
theorem arm_needsArming (s : State) :
    ((handleSetupPacket.arm env s).epStatusControllerIn 0).needsArming =
      (decide ((handleStandardRequest env (handleSetupPacket.reset s)).1.response = .data ∨
          (handleStandardRequest env (handleSetupPacket.reset s)).1.response = .zeroLength) &&
        !decide ((handleStandardRequest env (handleSetupPacket.reset s)).1.response = .data ∧
          (handleStandardRequest env (handleSetupPacket.reset s)).1.data = 0 ∧
          ((handleStandardRequest env (handleSetupPacket.reset s)).2.epStatusControllerIn
            0).isMultiPart = false)) := by
  unfold handleSetupPacket.arm
  simp only [setIn0_In0, Bool.not_eq_true]
  split
  · rename_i h
    simp [setIn0_In0, h]
  · rename_i h
    simp [setIn0_In0, h]

end SetupSteps

/-! ## The steps of `completeSetupPacket` and `handleControllerInPacket` -/

section Complete

variable (env : Env)

/-- With a reply armed `completeSetupPacket` calls `writeCtrlEP` from the state `enter`. -/
theorem completeSetupPacket_armed (fuel : Nat) (s : State)
    (h : (s.epStatusControllerIn 0).needsArming = true) :
    completeSetupPacket env fuel s =
      match writeCtrlEP env fuel (completeSetupPacket.enter env s) with
      | none => none
      | some (true, s3) =>
        if s3.usbCtrlState = .dataTX then some { s3 with usbCtrlState := .statusRX }
        else some { s3 with usbCtrlState := .idle }
      | some (false, s3) => some s3 := by
  unfold completeSetupPacket completeSetupPacket.enter
  simp only [setEPOut_epStatusControllerIn, h, Bool.not_true, Bool.false_eq_true, if_false]

/-- With nothing armed in either direction and a stall asked for, `completeSetupPacket`
sets the stall bit of endpoint 0 IN and the Control State is `idle`. -/
theorem completeSetupPacket_stall (fuel : Nat) (s : State)
    (hIn : (s.epStatusControllerIn 0).needsArming = false)
    (hOut : (s.epStatusControllerOut 0).needsArming = false)
    (hst : (s.epStatusControllerIn 0).stall = true) :
    completeSetupPacket env fuel s =
      some { ((s.setEPOut 0 (fun ep =>
          { ep with STATUS := clearBits ep.STATUS env.usbEPStatusSetupComplete })).setEPIn 0
            (fun ep0 => { ep0 with CTRL := setBits ep0.CTRL env.usbEPCtrlStall })) with
        usbCtrlState := .idle } := by
  unfold completeSetupPacket
  simp only [setEPOut_epStatusControllerIn, setEPOut_epStatusControllerOut, hIn, hOut, hst,
    Bool.not_false, if_true, Bool.false_eq_true, if_false]

/-- The function `handleControllerInPacket` is the commit of the address followed by the
data or status phase. -/
theorem handleControllerInPacket_eq (fuel : Nat) (s : State) :
    handleControllerInPacket env fuel s =
      (if (handleControllerInPacket.commit env s).usbCtrlState = .dataTX then
        match writeCtrlEP env fuel (handleControllerInPacket.commit env s) with
        | none => none
        | some (true, s2) => some { s2 with usbCtrlState := .idle }
        | some (false, s2) => some s2
      else some { handleControllerInPacket.commit env s with usbCtrlState := .idle }).map
      (fun s2 => s2.setEPIn 0 (fun ep =>
        { ep with STATUS := clearBits ep.STATUS env.usbEPStatusIOComplete })) := rfl

end Complete

section Armed

variable (env : Env)

/-- An observation of the state that neither a write to the registers of endpoint 0 OUT
nor a change of the Control State changes is the same in the state `enter`. -/
theorem enter_frame {α : Type} (g : State → α)
    (hg : ∀ (s : State) f c, g { State.setEPOut s 0 f with usbCtrlState := c } = g s)
    (s : State) : g (completeSetupPacket.enter env s) = g s := by
  unfold completeSetupPacket.enter
  simp only [apply_ite g, hg, ite_self]

theorem enter_usbCtrlState (s : State) :
    (completeSetupPacket.enter env s).usbCtrlState =
      if (s.packet env).dir = .controllerIn then .dataTX else .statusTX := by
  unfold completeSetupPacket.enter
  have hp : (State.setEPOut s 0 (fun ep =>
      { ep with STATUS := clearBits ep.STATUS env.usbEPStatusSetupComplete })).packet env =
      s.packet env := packet_of_mem env _ _ rfl
  dsimp only
  rw [hp]
  split <;> rfl


/-- With a reply armed and `writeCtrlEP` returning, `completeSetupPacket` returns the
state `writeCtrlEP` leaves with the Control State set from the returned flag and the
direction of the request. -/
theorem completeSetupPacket_result (fuel : Nat) (s s3 : State) (b : Bool)
    (h : (s.epStatusControllerIn 0).needsArming = true)
    (hw : writeCtrlEP env fuel (completeSetupPacket.enter env s) = some (b, s3)) :
    completeSetupPacket env fuel s =
      some { s3 with
        usbCtrlState :=
          if (s.packet env).dir = .controllerIn then (if b then .statusRX else .dataTX)
          else (if b then .idle else .statusTX) } := by
  have hc : s3.usbCtrlState = (completeSetupPacket.enter env s).usbCtrlState :=
    writeCtrlEP_frame env State.usbCtrlState (fun _ _ => rfl) (fun _ _ _ _ _ => rfl)
      (fun _ _ _ _ => rfl) (fun _ _ _ => rfl) fuel _ s3 b hw
  rw [enter_usbCtrlState] at hc
  rw [completeSetupPacket_armed env fuel s h, hw]
  cases b
  · simp only [Bool.false_eq_true, if_false]
    congr 1
    cases s3
    simp only at hc
    subst hc
    rfl
  · simp only [if_true, hc]
    by_cases hd : (s.packet env).dir = .controllerIn
    · simp only [hd, if_true]
    · simp only [hd, if_false]
      rfl

/-- A complete setup packet for which a reply is armed: `handleSetupPacket` returns when
`writeCtrlEP` does, with the state that leaves, the Control State set from the returned
flag and the direction of the request, and the setup flag cleared. -/
theorem handleSetupPacket_armed (fuel : Nat) (s s3 : State) (b : Bool)
    (hcnt : 8 ≤ (s.endpoints 0).controllerOut.CNT)
    (h : ((handleSetupPacket.arm env (handleSetupPacket.read env s).2).epStatusControllerIn
      0).needsArming = true)
    (hw : writeCtrlEP env fuel (completeSetupPacket.enter env
      (handleSetupPacket.arm env (handleSetupPacket.read env s).2)) = some (b, s3)) :
    handleSetupPacket env fuel s =
      some (handleSetupPacket.clearFlag env { s3 with
        usbCtrlState :=
          if ((handleSetupPacket.arm env (handleSetupPacket.read env s).2).packet env).dir =
              .controllerIn then (if b then .statusRX else .dataTX)
          else (if b then .idle else .statusTX) }) := by
  have hflag : (handleSetupPacket.read env s).1 = true := by
    rw [read_flag]; exact decide_eq_true hcnt
  unfold handleSetupPacket
  simp only [hflag, Bool.not_true, Bool.false_eq_true, if_false]
  rw [completeSetupPacket_result env fuel _ s3 b h hw]
  rfl

end Armed

section Registers

variable (env : Env)

/-- The registers of endpoint 0 IN after a call of `writeCtrlEP` that returns: the count
is the number of bytes of the packet, the not-ready bits of the status are cleared and
the control register is as before. -/
theorem writeCtrlEP_regs (s s' : State) (b : Bool) (fuel : Nat)
    (h : writeCtrlEP env fuel s = some (b, s')) :
    (s'.endpoints 0).controllerIn =
      { (s.endpoints 0).controllerIn with
        CNT :=
          if (s.epStatusControllerIn 0).transferCount < env.epBufferSize then
            (s.epStatusControllerIn 0).transferCount % 256
          else env.epBufferSize % 256
        STATUS := clearBits (s.endpoints 0).controllerIn.STATUS
          (env.usbEPStatusNotReady ||| env.usbEPStatusNACK0) } := by
  unfold writeCtrlEP at h
  dsimp only at h
  split at h
  · simp only [Option.some.injEq, Prod.mk.injEq] at h
    obtain ⟨_, hs⟩ := h
    subst hs
    simp only [setEPIn_In, setIn0_endpoints, sendData_endpoints]
  · split at h
    · cases h
    · rename_i w hw
      simp only [Option.some.injEq, Prod.mk.injEq] at h
      obtain ⟨_, hs⟩ := h
      subst hs
      have hl := loop_frame env State.endpoints (fun _ _ => rfl) (fun _ _ _ _ _ => rfl) fuel _ w hw
      simp only [apply_ite State.endpoints, setIn0_endpoints, ite_self] at hl
      simp only [setEPIn_In, apply_ite State.endpoints, setIn0_endpoints, ite_self, hl]

end Registers

section Returns

variable (env : Env)

/-- A call of `writeCtrlEP` for a reply from one contiguous buffer returns whatever the
fuel. -/
theorem writeCtrlEP_single_returns (s : State) (fuel : Nat)
    (hmp : (s.epStatusControllerIn 0).isMultiPart = false) :
    ∃ r, writeCtrlEP env fuel s = some r := by
  unfold writeCtrlEP
  simp only [hmp, Bool.not_false, if_true]
  exact ⟨_, rfl⟩

/-- The invariant of a multi-part transfer reads only the Transfer Status of endpoint 0
IN and the memory. -/
theorem MultiPartAt_congr (T : usbMultiPartTable_t) (s s' : State) (j o : Nat)
    (hIn : s'.epStatusControllerIn = s.epStatusControllerIn) (hmem : s'.mem = s.mem)
    (h : MultiPartAt env T s j o) : MultiPartAt env T s' j o := by
  unfold MultiPartAt at *
  rw [hIn, hmem]
  exact h

/-- A call of `writeCtrlEP` in a multi-part transfer returns when the fuel is at least the
max packet size plus the number of fragments. -/
theorem writeCtrlEP_multiPart_returns (T : usbMultiPartTable_t) (s : State) (j o : Nat)
    (hP : env.epBufferSize ≤ 255) (hinv : MultiPartAt env T s j o)
    (fuel : Nat) (hfuel : env.epBufferSize + T.count ≤ fuel) :
    ∃ r, writeCtrlEP env fuel s = some r := by
  obtain ⟨hmp, hT, hj, hjk, ho, hcur, hr⟩ := hinv
  generalize hrdef : (s.epStatusControllerIn 0).transferCount = r at *
  generalize hndef : min r env.epBufferSize = n at *
  have hsc : (if r < env.epBufferSize then r % 256 else env.epBufferSize % 256) = n := by
    split <;> omega
  unfold writeCtrlEP
  simp only [hrdef, hsc, hmp, Bool.not_true, Bool.false_eq_true, if_false]
  generalize hs2 : (if (s.epStatusControllerIn 0).memBuffer = 0 then _ else _ : State) = s2
  have hs2In : s2.epStatusControllerIn 0 =
      { s.epStatusControllerIn 0 with
        transferCount := r - n
        memBuffer := (env.flash (T.part j)).descriptor + o } := by
    rw [← hs2]
    rcases hcur with ⟨h1, h2⟩ | ⟨h1, h2, h3⟩
    · rw [if_neg h2, setIn0_In0, ← h1]
    · rw [if_pos h1, setIn0_In0, setIn0_In0]
      subst h2 h3
      simp only [hT, Nat.add_zero]
  have hs2mem : s2.mem = s.mem := by
    rw [← hs2]
    simp only [apply_ite State.mem, setIn0_mem, ite_self]
  obtain ⟨w', j', o', h1, h2, h3, h4, h5, h6, h7, h8⟩ :=
    loop_spec env T s.mem fuel ⟨s2, n, 0⟩ j o
      (by simp only [hs2In, hT]) (by simp only [hs2In, hj]) hjk (by simp only [hs2In]) ho
      hs2mem (by show n ≤ _; omega) (by show 0 + n ≤ 255; omega)
      (by show n + _ ≤ fuel; omega)
  simp only [h1]
  exact ⟨_, rfl⟩

end Returns

section Rejected

variable (env : Env)

/-- The state is as before when `handleGetDescriptor` has no data to send. -/
theorem handleGetDescriptor_rejected (s : State)
    (h : (handleGetDescriptor env s).1.response ≠ .data) : (handleGetDescriptor env s).2 = s := by
  unfold handleGetDescriptor at h ⊢
  dsimp only at h ⊢
  split_ifs at h ⊢ <;> first | rfl | exact absurd rfl h

/-- The state after `handleSetConfiguration` returns false. -/
theorem handleSetConfiguration_false (s : State) (h : (handleSetConfiguration env s).1 = false) :
    (handleSetConfiguration env s).2 = resetEPsUser env s := by
  unfold handleSetConfiguration at h ⊢
  dsimp only at h ⊢
  split_ifs at h ⊢
  rfl

/-- A request the responder answers with `stall` or `unhandled` leaves the state as it
was, but for the reset of the user endpoints by a rejected SET_CONFIGURATION. -/
theorem handleStandardRequest_rejected (s : State)
    (h : (handleStandardRequest env s).1.response = .stall ∨
      (handleStandardRequest env s).1.response = .unhandled) :
    (handleStandardRequest env s).2 = s ∨
      (handleStandardRequest env s).2 = resetEPsUser env s := by
  have hg := handleGetDescriptor_rejected env s
  have hc := handleSetConfiguration_false env s
  unfold handleStandardRequest at h ⊢
  dsimp only at h ⊢
  split_ifs at h ⊢
  · simp at h
  · left
    apply hg
    rcases h with h | h <;> rw [h] <;> simp
  · simp at h
  · right
    apply hc
    exact Bool.eq_false_iff.mpr ‹_›
  · simp at h
  · simp at h
  · simp at h
  · left; rfl
  · left; rfl

/-- A request code outside the six the responder knows is `unhandled`. -/
theorem handleStandardRequest_unknown (s : State)
    (h5 : (s.packet env).request ≠ request_t.setAddress)
    (h6 : (s.packet env).request ≠ request_t.getDescriptor)
    (h9 : (s.packet env).request ≠ request_t.setConfiguration)
    (h8 : (s.packet env).request ≠ request_t.getConfiguration)
    (h10 : (s.packet env).request ≠ request_t.getInterface)
    (h11 : (s.packet env).request ≠ request_t.setInterface) :
    handleStandardRequest env s = (answer_t.unhandled, s) := by
  unfold handleStandardRequest
  simp only [h5, h6, h9, h8, h10, h11, if_false]

end Rejected

section BusReset

variable (env : Env)

/-- The stall bit of the control register of one half of an endpoint is 0 after the
statements of the loop of `reset`. -/
theorem resetEP_stall (ep : USB_EP_t) : (core.resetEP env ep).CTRL &&& env.usbEPCtrlStall = 0 := by
  unfold core.resetEP
  exact clearBits_and _ _

/-- After `reset` the stall bit of both control registers of every endpoint is 0. -/
theorem reset_stall (s : State) (i : Nat) (hi : i < env.endpointCount) :
    ((core.reset env s).endpoints i).controllerIn.CTRL &&& env.usbEPCtrlStall = 0 ∧
    ((core.reset env s).endpoints i).controllerOut.CTRL &&& env.usbEPCtrlStall = 0 := by
  unfold core.reset
  by_cases h0 : i = 0
  · subst h0
    simp only [setEPIn_In, setEPIn_Out, setEPOut_In, setEPOut_Out, hi, if_true]
    exact ⟨clearBits_and_of_and _ _ _ (resetEP_stall env _),
      clearBits_and_of_and _ _ _ (resetEP_stall env _)⟩
  · simp only [setEPIn_other _ _ _ _ h0, setEPOut_other _ _ _ _ h0, hi, if_true]
    exact ⟨resetEP_stall env _, resetEP_stall env _⟩

/-- After `reset` the address bits of the address register are 0 and the Device State is
`attached`. -/
theorem reset_addr (s : State) :
    (core.reset env s).USB.ADDR &&& env.addressMask = 0 ∧
    (core.reset env s).USB.ADDR = clearBits s.USB.ADDR env.addressMask ∧
    (core.reset env s).usbState = .attached := by
  unfold core.reset
  simp only [setEPIn_USB, setEPOut_USB, setEPIn_usbState, setEPOut_usbState, and_self, and_true]
  exact clearBits_and _ _

end BusReset

section FreshMultiPart

variable (env : Env)

theorem totalLength_le_length (flash : Nat → usbMultiPartDesc_t) (mem : Nat → Nat)
    (T : usbMultiPartTable_t) : T.totalLength flash ≤ (tableBytes flash mem T).length := by
  rw [totalLength_eq, tableBytes_length]
  exact Nat.mod_le _ _

theorem setupEndpoint_In (s : State) (d : usbEndpointDescriptor_t) :
    (setupEndpoint s d).epStatusControllerIn = s.epStatusControllerIn := by
  unfold setupEndpoint
  dsimp only
  split_ifs <;> rfl

theorem visit_In (s : State) (p : Nat) :
    (handleSetConfiguration.visit env s p).epStatusControllerIn = s.epStatusControllerIn := by
  unfold handleSetConfiguration.visit
  dsimp only
  split
  · exact setupEndpoint_In _ _
  · rfl

theorem walk_In (l : List Nat) (s : State) :
    (l.foldl (handleSetConfiguration.visit env) s).epStatusControllerIn =
      s.epStatusControllerIn := by
  induction l generalizing s with
  | nil => rfl
  | cons p l ih => rw [List.foldl_cons, ih, visit_In]

/-- The function `handleSetConfiguration` leaves the Transfer Status records of the IN
endpoints alone. -/
theorem handleSetConfiguration_In (s : State) :
    (handleSetConfiguration env s).2.epStatusControllerIn = s.epStatusControllerIn := by
  unfold handleSetConfiguration
  dsimp only
  split_ifs
  · rfl
  · rfl
  · exact walk_In env _ _

/-- The description of a fresh multi-part transfer in the answer and the state the
responder leaves: the answer has a null pointer and the total length of the table as
its size, the part index is 0 and the table has between 1 and 6 fragments. -/
theorem handleGetDescriptor_fresh (s : State)
    (hfresh : (s.epStatusControllerIn 0).isMultiPart = false)
    (hmp : ((handleGetDescriptor env s).2.epStatusControllerIn 0).isMultiPart = true) :
    (handleGetDescriptor env s).1.data = 0 ∧
    (handleGetDescriptor env s).1.size =
      ((handleGetDescriptor env s).2.epStatusControllerIn 0).partsData.totalLength env.flash ∧
    ((handleGetDescriptor env s).2.epStatusControllerIn 0).partNumber = 0 ∧
    0 < ((handleGetDescriptor env s).2.epStatusControllerIn 0).partsData.count ∧
    ((handleGetDescriptor env s).2.epStatusControllerIn 0).partsData.count ≤ 6 := by
  have hne : (s.epStatusControllerIn 0).isMultiPart ≠ true := by simp [hfresh]
  have hcfg : ∀ i, ¬ i ≥ configDescriptorCount →
      0 < (usbConfigDescriptors env i).count ∧ (usbConfigDescriptors env i).count ≤ 6 := by
    intro i hi
    have hi0 : i = 0 := by unfold configDescriptorCount at hi; omega
    subst hi0
    simp [usbConfigDescriptors, usbMultiPartTable_t.count]
  have hstr : ∀ i, 0 < (usbStrings env i).count ∧ (usbStrings env i).count ≤ 6 := by
    intro i
    simp [usbStrings, usbMultiPartTable_t.count]
  generalize hr : handleGetDescriptor env s = r at hmp ⊢
  unfold handleGetDescriptor at hr
  dsimp only at hr
  split_ifs at hr <;> subst hr <;>
    first
    | exact absurd hmp hne
    | (simp only [setIn0_In0]
       exact ⟨trivial, trivial, trivial, hcfg _ ‹_›⟩)
    | (simp only [setIn0_In0]
       exact ⟨trivial, trivial, trivial, hstr _⟩)

/-- When no multi-part transfer was pending before and one is set up after the
responder, it is a fresh one. -/
theorem handleStandardRequest_fresh (s : State)
    (hfresh : (s.epStatusControllerIn 0).isMultiPart = false)
    (hmp : ((handleStandardRequest env s).2.epStatusControllerIn 0).isMultiPart = true) :
    (handleStandardRequest env s).1.data = 0 ∧
    (handleStandardRequest env s).1.size =
      ((handleStandardRequest env s).2.epStatusControllerIn 0).partsData.totalLength env.flash ∧
    ((handleStandardRequest env s).2.epStatusControllerIn 0).partNumber = 0 ∧
    0 < ((handleStandardRequest env s).2.epStatusControllerIn 0).partsData.count ∧
    ((handleStandardRequest env s).2.epStatusControllerIn 0).partsData.count ≤ 6 := by
  have hc := handleSetConfiguration_In env s
  have hg := handleGetDescriptor_fresh env s hfresh
  have hne : (s.epStatusControllerIn 0).isMultiPart ≠ true := by simp [hfresh]
  generalize hr : handleStandardRequest env s = r at hmp ⊢
  unfold handleStandardRequest at hr
  dsimp only at hr
  split_ifs at hr <;> subst hr <;>
    first
    | exact absurd hmp hne
    | exact hg hmp
    | (exfalso; rw [hc] at hmp; exact absurd hmp hne)

end FreshMultiPart

section ArmedReply

variable (env : Env)

theorem arm_partsData (s : State) :
    ((handleSetupPacket.arm env s).epStatusControllerIn 0).partsData =
      ((handleStandardRequest env (handleSetupPacket.reset s)).2.epStatusControllerIn 0).partsData ∧
    ((handleSetupPacket.arm env s).epStatusControllerIn 0).partNumber =
      ((handleStandardRequest env (handleSetupPacket.reset s)).2.epStatusControllerIn
        0).partNumber := by
  unfold handleSetupPacket.arm
  simp only [apply_ite (fun s : State => (s.epStatusControllerIn 0).partsData),
    apply_ite (fun s : State => (s.epStatusControllerIn 0).partNumber), setIn0_In0, ite_self,
    and_self]

/-- The call of `writeCtrlEP` that `completeSetupPacket` makes for the reply to a setup
packet returns, when no multi-part transfer was left pending before the setup packet
and the fuel is at least the max packet size plus 6. -/
theorem armed_write_returns (s0 : State) (fuel : Nat)
    (hP : env.epBufferSize ≤ 255) (hfuel : env.epBufferSize + 6 ≤ fuel)
    (hfresh : (s0.epStatusControllerIn 0).isMultiPart = false) :
    ∃ r, writeCtrlEP env fuel (completeSetupPacket.enter env (handleSetupPacket.arm env s0)) =
      some r := by
  have he_In : (completeSetupPacket.enter env (handleSetupPacket.arm env s0)).epStatusControllerIn =
      (handleSetupPacket.arm env s0).epStatusControllerIn :=
    enter_frame env State.epStatusControllerIn (fun _ _ _ => rfl) _
  have hreset : ((handleSetupPacket.reset s0).epStatusControllerIn 0).isMultiPart = false := by
    rw [reset_In0]; exact hfresh
  by_cases hmp : ((handleStandardRequest env (handleSetupPacket.reset s0)).2.epStatusControllerIn
      0).isMultiPart = true
  · obtain ⟨hdata, hsize, hpart, hc0, hc6⟩ :=
      handleStandardRequest_fresh env _ hreset hmp
    have htc := arm_transferCount env s0
    have hpd := arm_partsData env s0
    have hmb := arm_memBuffer env s0
    have him := arm_isMultiPart env s0
    generalize handleStandardRequest env (handleSetupPacket.reset s0) = r at *
    apply writeCtrlEP_multiPart_returns env (r.2.epStatusControllerIn 0).partsData _ 0 0 hP
    · unfold MultiPartAt
      rw [he_In, him, hpd.1, hpd.2, hmb, htc]
      refine ⟨hmp, rfl, hpart, hc0, Nat.zero_le _, Or.inr ⟨hdata, rfl, rfl⟩, ?_⟩
      rw [← tableBytes_eq_bytesFrom _ _ _ hc0, hsize]
      exact le_trans (Nat.min_le_left _ _) (totalLength_le_length _ _ _)
    · omega
  · apply writeCtrlEP_single_returns
    rw [he_In, arm_isMultiPart]
    simpa using hmp

end ArmedReply

section Stuck

variable (env : Env)

/-- The quota left and the Transfer Status after an iteration of the loop of
`writeCtrlEP` depend only on the quota and the Transfer Status before it. -/
theorem body_congr (w w' : WriteLoop)
    (hs : w.s.epStatusControllerIn 0 = w'.s.epStatusControllerIn 0)
    (ha : w.sendAmount = w'.sendAmount) :
    (writeCtrlEP.body env w).sendAmount = (writeCtrlEP.body env w').sendAmount ∧
    (writeCtrlEP.body env w).s.epStatusControllerIn 0 =
      (writeCtrlEP.body env w').s.epStatusControllerIn 0 := by
  unfold writeCtrlEP.body
  simp only [apply_ite (fun s : State => s.epStatusControllerIn 0), setIn0_In0,
    sendDataOffset_In, sendDataOffset_ptr, hs, ha, and_self]

/-- The loop of `writeCtrlEP` does not end, whatever the fuel, from a state in a set that
the body maps into itself and in which the quota is not 0. -/
theorem loop_stuck (P : WriteLoop → Prop)
    (hP : ∀ w, P w → w.sendAmount ≠ 0 ∧ P (writeCtrlEP.body env w)) :
    ∀ (fuel : Nat) (w : WriteLoop), P w → writeCtrlEP.loop env fuel w = none := by
  intro fuel
  induction fuel with
  | zero =>
    intro w hw
    unfold writeCtrlEP.loop
    simp only [(hP w hw).1, if_false]
  | succ n ih =>
    intro w hw
    unfold writeCtrlEP.loop
    simp only [(hP w hw).1, if_false]
    exact ih _ (hP w hw).2

/-- A call of `writeCtrlEP` in a multi-part transfer does not return when its loop does
not end. -/
theorem writeCtrlEP_none (s : State) (fuel : Nat)
    (hmp : (s.epStatusControllerIn 0).isMultiPart = true)
    (hloop : ∀ s2 : State,
      s2.epStatusControllerIn 0 =
        (if (s.epStatusControllerIn 0).memBuffer = 0 then
          { s.epStatusControllerIn 0 with
            transferCount := (s.epStatusControllerIn 0).transferCount -
              (if (s.epStatusControllerIn 0).transferCount < env.epBufferSize then
                (s.epStatusControllerIn 0).transferCount % 256 else env.epBufferSize % 256)
            memBuffer := (env.flash ((s.epStatusControllerIn 0).partsData.part 0)).descriptor }
        else
          { s.epStatusControllerIn 0 with
            transferCount := (s.epStatusControllerIn 0).transferCount -
              (if (s.epStatusControllerIn 0).transferCount < env.epBufferSize then
                (s.epStatusControllerIn 0).transferCount % 256 else env.epBufferSize % 256) }) →
      writeCtrlEP.loop env fuel
        { s := s2
          sendAmount :=
            if (s.epStatusControllerIn 0).transferCount < env.epBufferSize then
              (s.epStatusControllerIn 0).transferCount % 256 else env.epBufferSize % 256
          sendOffset := 0 } = none) :
    writeCtrlEP env fuel s = none := by
  unfold writeCtrlEP
  simp only [hmp, Bool.not_true, Bool.false_eq_true, if_false]
  rw [hloop]
  simp only [apply_ite (fun s : State => s.epStatusControllerIn 0), setIn0_In0]

end Stuck

section Walk

variable (env : Env)

theorem setupEndpoint_mem (s : State) (d : usbEndpointDescriptor_t) :
    (setupEndpoint s d).mem = s.mem := by
  unfold setupEndpoint
  dsimp only
  split_ifs <;> rfl

/-- The range-for of `handleSetConfiguration` is the calls of `setupEndpoint` for the
fragments that have the type of an endpoint descriptor in their second byte. -/
theorem walk_eq (l : List Nat) (s : State) :
    l.foldl (handleSetConfiguration.visit env) s =
      (l.filter (fun p =>
        s.mem ((env.flash p).descriptor + 1) % 256 = usbDescriptor_t.endpoint.toNat)).foldl
        (fun s p => setupEndpoint s (readEndpointDescriptor s.mem (env.flash p).descriptor)) s := by
  induction l generalizing s with
  | nil => rfl
  | cons p l ih =>
    rw [List.foldl_cons, ih]
    by_cases h : s.mem ((env.flash p).descriptor + 1) % 256 = usbDescriptor_t.endpoint.toNat
    · have hv : handleSetConfiguration.visit env s p =
          setupEndpoint s (readEndpointDescriptor s.mem (env.flash p).descriptor) := by
        unfold handleSetConfiguration.visit
        simp only [h, if_true]
      rw [List.filter_cons_of_pos (by simpa using h), List.foldl_cons, hv, setupEndpoint_mem]
    · have hv : handleSetConfiguration.visit env s p = s := by
        unfold handleSetConfiguration.visit
        simp only [h, if_false]
      rw [List.filter_cons_of_neg (by simpa using h), hv]

/-- The state after a SET_CONFIGURATION with a configuration value from 1 to
`configDescriptorCount`: the calls of `setupEndpoint` for the fragments in
`endpointParts`, after the reset of the user endpoints and the write of the active
configuration. -/
theorem handleSetConfiguration_walk (s : State)
    (h0 : (s.packet env).asConfiguration ≠ 0)
    (h1 : (s.packet env).asConfiguration ≤ configDescriptorCount) :
    handleSetConfiguration env s =
      (true,
        (handleSetConfiguration.endpointParts env
          (Function.update s.mem env.addrActiveConfig (s.packet env).asConfiguration)
          (usbConfigDescriptors env ((s.packet env).asConfiguration - 1))).foldl
          (fun s p => setupEndpoint s (readEndpointDescriptor s.mem (env.flash p).descriptor))
          { resetEPsUser env s with
            mem := Function.update s.mem env.addrActiveConfig (s.packet env).asConfiguration }) := by
  have hp : (resetEPsUser env s).packet env = s.packet env := packet_of_mem env _ _ rfl
  unfold handleSetConfiguration handleSetConfiguration.endpointParts
  simp only [hp, State.activeConfig, Function.update_same, h0, if_false,
    show ¬ (s.packet env).asConfiguration > configDescriptorCount from by omega]
  rw [walk_eq]
  rfl

end Walk


/-! ## The active configuration -/

section ActiveConfig

variable (env : Env)

theorem visit_mem (s : State) (p : Nat) :
    (handleSetConfiguration.visit env s p).mem = s.mem := by
  unfold handleSetConfiguration.visit
  dsimp only
  split
  · exact setupEndpoint_mem _ _
  · rfl

theorem walk_mem (l : List Nat) (s : State) :
    (l.foldl (handleSetConfiguration.visit env) s).mem = s.mem := by
  induction l generalizing s with
  | nil => rfl
  | cons p l ih => rw [List.foldl_cons, ih, visit_mem]

/-- The memory after `handleSetConfiguration`: the configuration value is stored in
`activeConfig` unless it is greater than `configDescriptorCount`. -/
theorem handleSetConfiguration_mem (s : State) :
    (handleSetConfiguration env s).2.mem =
      if (s.packet env).asConfiguration > configDescriptorCount then s.mem
      else Function.update s.mem env.addrActiveConfig (s.packet env).asConfiguration := by
  have hp : (resetEPsUser env s).packet env = s.packet env := packet_of_mem env _ _ rfl
  unfold handleSetConfiguration
  dsimp only
  rw [hp]
  split_ifs
  · rfl
  · rfl
  · rw [walk_mem]
    rfl

/-- The answer to SET_CONFIGURATION and the memory after it. -/
theorem handleStandardRequest_setConfiguration (s : State)
    (hreq : (s.packet env).request = request_t.setConfiguration) :
    (handleStandardRequest env s).1.response =
      (if (s.packet env).asConfiguration > configDescriptorCount then .stall else .zeroLength) ∧
    (handleStandardRequest env s).2.mem =
      if (s.packet env).asConfiguration > configDescriptorCount then s.mem
      else Function.update s.mem env.addrActiveConfig (s.packet env).asConfiguration := by
  have hm := handleSetConfiguration_mem env s
  have hr : handleStandardRequest env s =
      (if (handleSetConfiguration env s).1 then (⟨.zeroLength, 0, 0, .sram⟩,
          (handleSetConfiguration env s).2)
        else (⟨.stall, 0, 0, .sram⟩, (handleSetConfiguration env s).2)) := by
    unfold handleStandardRequest
    simp [hreq, request_t.setConfiguration, request_t.setAddress, request_t.getDescriptor]
  have hflag : (handleSetConfiguration env s).1 =
      !decide ((s.packet env).asConfiguration > configDescriptorCount) := by
    have hp : (resetEPsUser env s).packet env = s.packet env := packet_of_mem env _ _ rfl
    unfold handleSetConfiguration
    dsimp only
    rw [hp]
    split_ifs <;> simp [*]
  rw [hr, hflag]
  by_cases hc : (s.packet env).asConfiguration > configDescriptorCount
  · simp only [hc, decide_True, Bool.not_true, Bool.false_eq_true, if_false, if_true] at hm ⊢
    exact ⟨trivial, hm⟩
  · simp only [hc, decide_False, Bool.not_false, if_true, if_false] at hm ⊢
    exact ⟨trivial, hm⟩

/-- The answer to GET_CONFIGURATION: one byte from RAM, the variable `activeConfig`. -/
theorem handleStandardRequest_getConfiguration (s : State)
    (hreq : (s.packet env).request = request_t.getConfiguration) :
    handleStandardRequest env s = (⟨.data, env.addrActiveConfig, 1, .sram⟩, s) := by
  unfold handleStandardRequest
  simp [hreq, request_t.getConfiguration, request_t.setConfiguration, request_t.setAddress,
    request_t.getDescriptor]

end ActiveConfig

/-! ## The IO-complete handlers -/

section IOComplete

variable (env : Env)

/-- An observation of the state that a write to the address register and to the Device
State does not change is the same after the commit of the address. -/
theorem commit_frame {α : Type} (g : State → α)
    (hg : ∀ (s : State) u d, g { s with USB := u, usbState := d } = g s) (s : State) :
    g (handleControllerInPacket.commit env s) = g s := by
  unfold handleControllerInPacket.commit
  dsimp only
  split_ifs
  · exact hg s _ _
  · exact hg s _ _
  · rfl

/-- The handler `handleControllerInPacket` in the Control State `dataTX`: it returns when
`writeCtrlEP` does, and its state is the one `writeCtrlEP` leaves, with the Control State
`idle` when `writeCtrlEP` returned true and the IO-complete flag of endpoint 0 IN
cleared. -/
theorem handleControllerInPacket_dataTX (fuel : Nat) (s : State)
    (h : s.usbCtrlState = .dataTX) :
    handleControllerInPacket env fuel s =
      (writeCtrlEP env fuel (handleControllerInPacket.commit env s)).map (fun r =>
        State.setEPIn (if r.1 then { r.2 with usbCtrlState := .idle } else r.2) 0 (fun ep =>
          { ep with STATUS := clearBits ep.STATUS env.usbEPStatusIOComplete })) := by
  have hc : (handleControllerInPacket.commit env s).usbCtrlState = .dataTX := by
    rw [commit_frame env State.usbCtrlState (fun _ _ _ => rfl), h]
  rw [handleControllerInPacket_eq]
  simp only [hc, if_true]
  cases hw : writeCtrlEP env fuel (handleControllerInPacket.commit env s) with
  | none => rfl
  | some r =>
    obtain ⟨b, s2⟩ := r
    cases b <;> rfl

/-- The handler `handleControllerInPacket` in a Control State other than `dataTX`. -/
theorem handleControllerInPacket_other (fuel : Nat) (s : State)
    (h : s.usbCtrlState ≠ .dataTX) :
    handleControllerInPacket env fuel s =
      some (State.setEPIn { handleControllerInPacket.commit env s with usbCtrlState := .idle } 0
        (fun ep => { ep with STATUS := clearBits ep.STATUS env.usbEPStatusIOComplete })) := by
  have hc : (handleControllerInPacket.commit env s).usbCtrlState ≠ .dataTX := by
    rw [commit_frame env State.usbCtrlState (fun _ _ _ => rfl)]; exact h
  rw [handleControllerInPacket_eq]
  simp only [hc, if_false, Option.map_some']

end IOComplete

/-! ## What the responder leaves alone -/

section ResponderFrame

variable (env : Env)

theorem setupEndpoint_Out (s : State) (d : usbEndpointDescriptor_t) :
    (setupEndpoint s d).epStatusControllerOut = s.epStatusControllerOut := by
  unfold setupEndpoint
  dsimp only
  split_ifs <;> rfl

theorem walk_Out (l : List Nat) (s : State) :
    (l.foldl (handleSetConfiguration.visit env) s).epStatusControllerOut =
      s.epStatusControllerOut := by
  induction l generalizing s with
  | nil => rfl
  | cons p l ih =>
    rw [List.foldl_cons, ih]
    unfold handleSetConfiguration.visit
    dsimp only
    split
    · exact setupEndpoint_Out _ _
    · rfl

theorem handleSetConfiguration_Out (s : State) :
    (handleSetConfiguration env s).2.epStatusControllerOut = s.epStatusControllerOut := by
  unfold handleSetConfiguration
  dsimp only
  split_ifs
  · rfl
  · rfl
  · exact walk_Out env _ _

theorem handleGetDescriptor_Out (s : State) :
    (handleGetDescriptor env s).2.epStatusControllerOut = s.epStatusControllerOut := by
  generalize hr : handleGetDescriptor env s = r
  unfold handleGetDescriptor at hr
  dsimp only at hr
  split_ifs at hr <;> subst hr <;> rfl

/-- The responder never writes the Transfer Status records of the OUT endpoints. -/
theorem handleStandardRequest_Out (s : State) :
    (handleStandardRequest env s).2.epStatusControllerOut = s.epStatusControllerOut := by
  have hc := handleSetConfiguration_Out env s
  have hg := handleGetDescriptor_Out env s
  generalize hr : handleStandardRequest env s = r
  unfold handleStandardRequest at hr
  dsimp only at hr
  split_ifs at hr <;> subst hr <;> first | rfl | exact hg | exact hc

/-- A request with the direction host to device leaves the Transfer Status records of
the IN endpoints as they were. -/
theorem handleStandardRequest_In_controllerOut (s : State)
    (hdir : (s.packet env).dir = .controllerOut) :
    (handleStandardRequest env s).2.epStatusControllerIn = s.epStatusControllerIn := by
  have hc := handleSetConfiguration_In env s
  have hg : (handleGetDescriptor env s).2.epStatusControllerIn = s.epStatusControllerIn := by
    rw [handleGetDescriptor_controllerOut env s hdir]
  generalize hr : handleStandardRequest env s = r
  unfold handleStandardRequest at hr
  dsimp only at hr
  split_ifs at hr <;> subst hr <;> first | rfl | exact hg | exact hc

theorem handleGetDescriptor_mem (s : State) :
    (handleGetDescriptor env s).2.mem = s.mem := by
  generalize hr : handleGetDescriptor env s = r
  unfold handleGetDescriptor at hr
  dsimp only at hr
  split_ifs at hr <;> subst hr <;> rfl

/-- Only SET_CONFIGURATION writes the memory: a request with another outcome than the
zero-length acknowledgement and `stall` leaves it as it was. -/
theorem handleStandardRequest_data_mem (s : State)
    (h : (handleStandardRequest env s).1.response = .data) :
    (handleStandardRequest env s).2.mem = s.mem := by
  have hg := handleGetDescriptor_mem env s
  generalize hr : handleStandardRequest env s = r at h
  unfold handleStandardRequest at hr
  dsimp only at hr
  split_ifs at hr <;> subst hr <;> first | rfl | exact hg | (exfalso; simp at h)

end ResponderFrame

/-! ## The end of the fragment loop -/

section LoopEnd

variable (env : Env)

/-- The loop of `writeCtrlEP` ends only with the quota used up. -/
theorem loop_sendAmount (fuel : Nat) (w w' : WriteLoop)
    (h : writeCtrlEP.loop env fuel w = some w') : w'.sendAmount = 0 := by
  induction fuel generalizing w with
  | zero =>
    unfold writeCtrlEP.loop at h
    split at h
    · cases h; assumption
    · cases h
  | succ n ih =>
    unfold writeCtrlEP.loop at h
    split at h
    · cases h; assumption
    · exact ih _ h

/-- An iteration of the loop with the cursor at the end of the last fragment copies
nothing and leaves the quota and the Transfer Status as they were. -/
theorem body_at_end (w : WriteLoop) (T : usbMultiPartTable_t) (j : Nat)
    (hT : (w.s.epStatusControllerIn 0).partsData = T)
    (hj : (w.s.epStatusControllerIn 0).partNumber = j)
    (hc : (w.s.epStatusControllerIn 0).memBuffer =
      (env.flash (T.part j)).descriptor + (env.flash (T.part j)).length.val)
    (hlast : j + 1 = T.count)
    (hoff : w.sendOffset + w.sendAmount ≤ 255) :
    (writeCtrlEP.body env w).sendAmount = w.sendAmount ∧
    (writeCtrlEP.body env w).sendOffset = w.sendOffset ∧
    (writeCtrlEP.body env w).s.epStatusControllerIn 0 = w.s.epStatusControllerIn 0 := by
  obtain ⟨h1, h2, h3, _⟩ := body_spec env w T j _ hT hj hc (Nat.le_refl _) hoff
  have hp : min ((env.flash (T.part j)).length.val - (env.flash (T.part j)).length.val)
      w.sendAmount = 0 := by omega
  rw [hp] at h1 h2 h3
  refine ⟨by rw [h1]; rfl, by rw [h2]; rfl, ?_⟩
  rw [h3, if_neg (by omega)]
  rw [← hc]
  rfl

/-- With the cursor at the end of the last fragment and quota left the loop does not
end. -/
theorem loop_at_end (w : WriteLoop) (T : usbMultiPartTable_t) (j : Nat)
    (hT : (w.s.epStatusControllerIn 0).partsData = T)
    (hj : (w.s.epStatusControllerIn 0).partNumber = j)
    (hc : (w.s.epStatusControllerIn 0).memBuffer =
      (env.flash (T.part j)).descriptor + (env.flash (T.part j)).length.val)
    (hlast : j + 1 = T.count)
    (hoff : w.sendOffset + w.sendAmount ≤ 255)
    (ha0 : w.sendAmount ≠ 0) (fuel : Nat) : writeCtrlEP.loop env fuel w = none := by
  apply loop_stuck env (fun w =>
    (w.s.epStatusControllerIn 0).partsData = T ∧ (w.s.epStatusControllerIn 0).partNumber = j ∧
    (w.s.epStatusControllerIn 0).memBuffer =
      (env.flash (T.part j)).descriptor + (env.flash (T.part j)).length.val ∧
    w.sendOffset + w.sendAmount ≤ 255 ∧ w.sendAmount ≠ 0)
  · intro w' ⟨h1, h2, h3, h4, h5⟩
    obtain ⟨e1, e2, e3⟩ := body_at_end env w' T j h1 h2 h3 hlast h4
    refine ⟨h5, ?_, ?_, ?_, ?_, ?_⟩
    · rw [e3]; exact h1
    · rw [e3]; exact h2
    · rw [e3]; exact h3
    · rw [e1, e2]; exact h4
    · rw [e1]; exact h5
  · exact ⟨hT, hj, hc, hoff, ha0⟩

end LoopEnd

/-! ## The number of calls of a transfer -/

section Calls

variable (env : Env)

/-- The count and the remaining count after a call of `writeCtrlEP` that returns, for a
max packet size that fits the `uint8_t` `sendCount`. -/
theorem writeCtrlEP_remaining (s s' : State) (b : Bool) (fuel : Nat)
    (hP : env.epBufferSize ≤ 255) (h : writeCtrlEP env fuel s = some (b, s')) :
    s'.inPacket.length = min (s.epStatusControllerIn 0).transferCount env.epBufferSize ∧
    (s'.epStatusControllerIn 0).transferCount = (s.epStatusControllerIn 0).transferCount -
      min (s.epStatusControllerIn 0).transferCount env.epBufferSize ∧
    b = ((s'.epStatusControllerIn 0).transferCount == 0) := by
  obtain ⟨hlen, hb⟩ := writeCtrlEP_count env s s' b fuel h
  have hregs := writeCtrlEP_regs env s s' b fuel h
  have hpl : s'.inPacket.length = (s'.endpoints 0).controllerIn.CNT := by
    unfold State.inPacket
    simp only [List.length_map, List.length_range]
  generalize (s.epStatusControllerIn 0).transferCount = r at *
  have hsc : (if r < env.epBufferSize then r % 256 else env.epBufferSize % 256) =
      min r env.epBufferSize := by
    split <;> omega
  have hl : s'.inPacket.length = min r env.epBufferSize := by
    rw [hpl, hregs]; exact hsc
  exact ⟨hl, by omega, hb⟩

/-- The number of calls of a transfer that completes: one for a remaining count up to the
max packet size, else the remaining count divided by the max packet size, rounded up;
no fewer calls complete it. -/
theorem writeAll_calls (hP1 : 1 ≤ env.epBufferSize) (hP : env.epBufferSize ≤ 255)
    (fuel : Nat) :
    ∀ (calls : Nat) (s s' : State) (packets : List (List Nat)),
      writeAll env fuel calls s = some (packets, s') →
      packets.length = max 1 (((s.epStatusControllerIn 0).transferCount +
        env.epBufferSize - 1) / env.epBufferSize) ∧
      packets.length ≤ calls ∧
      writeAll env fuel packets.length s = some (packets, s') := by
  intro calls
  induction calls with
  | zero =>
    intro s s' packets h
    unfold writeAll at h
    cases h
  | succ c ih =>
    intro s s' packets h
    unfold writeAll at h
    split at h
    · cases h
    · rename_i s1 h1
      obtain ⟨_, h3, h4⟩ := writeCtrlEP_remaining env s s1 true fuel hP h1
      simp only [Option.some.injEq, Prod.mk.injEq] at h
      obtain ⟨hp, hs⟩ := h
      subst hp hs
      have h5 : (s1.epStatusControllerIn 0).transferCount = 0 := by simpa using h4.symm
      generalize (s.epStatusControllerIn 0).transferCount = r at *
      have hle : r ≤ env.epBufferSize := by omega
      have hdiv : (r + env.epBufferSize - 1) / env.epBufferSize ≤ 1 := by
        rw [Nat.div_le_iff_le_mul_add_pred (by omega)]
        omega
      refine ⟨?_, ?_, ?_⟩
      · simp only [List.length_singleton]; omega
      · simp only [List.length_singleton]; omega
      · simp only [List.length_singleton]
        unfold writeAll
        simp only [h1]
    · rename_i s1 h1
      obtain ⟨_, h3, h4⟩ := writeCtrlEP_remaining env s s1 false fuel hP h1
      split at h
      · cases h
      · rename_i pk s2 hw
        simp only [Option.some.injEq, Prod.mk.injEq] at h
        obtain ⟨hp, hs⟩ := h
        subst hp hs
        obtain ⟨i1, i2, i3⟩ := ih s1 s2 pk hw
        have h5 : (s1.epStatusControllerIn 0).transferCount ≠ 0 := by
          intro h0; rw [h0] at h4; simp at h4
        generalize (s.epStatusControllerIn 0).transferCount = r at *
        generalize (s1.epStatusControllerIn 0).transferCount = r1 at *
        have hgt : env.epBufferSize < r := by omega
        have hr1 : r1 = r - env.epBufferSize := by omega
        have hdiv : (r + env.epBufferSize - 1) / env.epBufferSize =
            (r1 + env.epBufferSize - 1) / env.epBufferSize + 1 := by
          have : r + env.epBufferSize - 1 = (r1 + env.epBufferSize - 1) + env.epBufferSize := by
            omega
          rw [this, Nat.add_div_right _ (by omega)]
        have hge : 1 ≤ (r1 + env.epBufferSize - 1) / env.epBufferSize := by
          rw [Nat.le_div_iff_mul_le (by omega)]
          omega
        refine ⟨?_, ?_, ?_⟩
        · simp only [List.length_cons]; omega
        · simp only [List.length_cons]; omega
        · simp only [List.length_cons]
          unfold writeAll
          simp only [h1, i3]

end Calls

/-! ## The Transfer Status after a call in a multi-part transfer -/

section MultiPartStatus

variable (env : Env)

/-- The Transfer Status after a call of `writeCtrlEP` in a multi-part transfer: the part
index is below the count of the table, the cursor is inside the fragment of that index,
and the multi-part flag is set exactly when the remaining count is not 0. -/
theorem writeCtrlEP_multiPart_status (T : usbMultiPartTable_t) (s : State) (j o : Nat)
    (hP : env.epBufferSize ≤ 255) (hinv : MultiPartAt env T s j o)
    (fuel : Nat) (hfuel : env.epBufferSize + T.count ≤ fuel) :
    ∃ b s' j' o', writeCtrlEP env fuel s = some (b, s') ∧
      s'.epStatusControllerIn 0 =
        { s.epStatusControllerIn 0 with
          transferCount := (s.epStatusControllerIn 0).transferCount -
            min (s.epStatusControllerIn 0).transferCount env.epBufferSize
          memBuffer := (env.flash (T.part j')).descriptor + o'
          partNumber := j'
          isMultiPart := decide ((s.epStatusControllerIn 0).transferCount -
            min (s.epStatusControllerIn 0).transferCount env.epBufferSize ≠ 0) } ∧
      j' < T.count ∧ o' ≤ (env.flash (T.part j')).length.val := by
  obtain ⟨hmp, hT, hj, hjk, ho, hcur, hr⟩ := hinv
  generalize hrdef : (s.epStatusControllerIn 0).transferCount = r at *
  generalize hndef : min r env.epBufferSize = n at *
  have hsc : (if r < env.epBufferSize then r % 256 else env.epBufferSize % 256) = n := by
    split <;> omega
  unfold writeCtrlEP
  simp only [hrdef, hsc, hmp, Bool.not_true, Bool.false_eq_true, if_false]
  generalize hs2 : (if (s.epStatusControllerIn 0).memBuffer = 0 then _ else _ : State) = s2
  have hs2In : s2.epStatusControllerIn 0 =
      { s.epStatusControllerIn 0 with
        transferCount := r - n
        memBuffer := (env.flash (T.part j)).descriptor + o } := by
    rw [← hs2]
    rcases hcur with ⟨h1, h2⟩ | ⟨h1, h2, h3⟩
    · rw [if_neg h2, setIn0_In0, ← h1]
    · rw [if_pos h1, setIn0_In0, setIn0_In0]
      subst h2 h3
      simp only [hT, Nat.add_zero]
  have hs2mem : s2.mem = s.mem := by
    rw [← hs2]
    simp only [apply_ite State.mem, setIn0_mem, ite_self]
  obtain ⟨w', j', o', h1, h2, h3, h4, h5, h6, h7, h8⟩ :=
    loop_spec env T s.mem fuel ⟨s2, n, 0⟩ j o
      (by simp only [hs2In, hT]) (by simp only [hs2In, hj]) hjk (by simp only [hs2In]) ho
      hs2mem (by show n ≤ _; omega) (by show 0 + n ≤ 255; omega)
      (by show n + _ ≤ fuel; omega)
  simp only [h1]
  refine ⟨_, _, j', o', rfl, ?_, h3, h4⟩
  by_cases hz : r - n = 0
  · simp only [hz, if_true, setEPIn_epStatusControllerIn, setIn0_In0, h2, hs2In, ne_eq,
      not_true_eq_false, decide_False]
  · simp only [hz, if_false, setEPIn_epStatusControllerIn, h2, hs2In, ne_eq,
      not_false_eq_true, decide_True, hmp]

end MultiPartStatus

/-! ## The reply to a request for a multi-part descriptor -/

section TableReply

variable (env : Env)

/-- The answer to a device-to-host GET_DESCRIPTOR for a configuration or a string the
responder accepts, and the state it leaves: a fresh multi-part transfer of the table. -/
theorem handleGetDescriptor_table (s : State) (T : usbMultiPartTable_t)
    (hdir : (s.packet env).dir = .controllerIn)
    (hT : ((s.packet env).descriptorType = usbDescriptor_t.configuration.toNat ∧
        (s.packet env).descriptorIndex < configDescriptorCount ∧
        T = usbConfigDescriptors env (s.packet env).descriptorIndex) ∨
      ((s.packet env).descriptorType = usbDescriptor_t.string.toNat ∧
        (s.packet env).descriptorIndex < stringCount ∧
        T = usbStrings env (s.packet env).descriptorIndex)) :
    handleGetDescriptor env s =
      (⟨.data, 0, T.totalLength env.flash, .flash⟩,
        s.setIn0 (fun st => { st with isMultiPart := true, partNumber := 0, partsData := T })) ∧
    0 < T.count := by
  rcases hT with ⟨ht, hi, hT⟩ | ⟨ht, hi, hT⟩
  · subst hT
    refine ⟨?_, ?_⟩
    · unfold handleGetDescriptor
      have hi' : ¬ (s.packet env).descriptorIndex ≥ configDescriptorCount := by omega
      simp [hdir, ht, hi', usbDescriptor_t.toNat]
    · have hi0 : (s.packet env).descriptorIndex = 0 := by
        unfold configDescriptorCount at hi; omega
      rw [hi0]
      simp [usbConfigDescriptors, usbMultiPartTable_t.count]
  · subst hT
    refine ⟨?_, ?_⟩
    · unfold handleGetDescriptor
      have hi' : ¬ (s.packet env).descriptorIndex ≥ stringCount := by omega
      simp [hdir, ht, hi', usbDescriptor_t.toNat]
    · simp [usbStrings, usbMultiPartTable_t.count]

end TableReply

/-! ## `part` on pointers -/

section PartPointer

/-- The member `part` on positions is the member `part` on the pointers of the target for
every index for which `_begin + index` does not pass the end of the 16 bit address
space. -/
theorem partPointer_eq_part (base : Nat) (t : usbMultiPartTable_t) (index : Nat)
    (hidx : base + 3 * (t._begin + index) < 65536) :
    usbMultiPartTable_t.partPointer (recordPointer base t._begin) (recordPointer base t._end)
      index = recordPointer base (t.part index) := by
  have h1 : index % 65536 = index := Nat.mod_eq_of_lt (by omega)
  have h2 : (base + 3 * t._begin + 3 * index) % 65536 = base + 3 * (t._begin + index) := by
    rw [Nat.mod_eq_of_lt (by omega)]
    omega
  unfold usbMultiPartTable_t.partPointer usbMultiPartTable_t.part flash_t.ge flash_t.add
    recordPointer
  simp only [h1, h2, decide_eq_true_eq]
  by_cases h : t._begin + index ≥ t._end
  · rw [if_pos (by omega), if_pos h]
  · rw [if_neg (by omega), if_neg h]

end PartPointer

/-! ## Calls that do not return -/

section Stuck

/-- From `nullCursorStatus` the loop of `writeCtrlEP` does not end: the null cursor is
taken for a transfer not yet started, the quota wraps from 1 to 17 and 13 of it are left
at the end of the last fragment. -/
theorem writeCtrlEP_nullCursor (s : State) (h : s.epStatusControllerIn 0 = nullCursorStatus)
    (fuel : Nat) : writeCtrlEP envNullHang fuel s = none := by
  have hstuck : ∀ w : WriteLoop,
      (∃ x ∈ [nullCursorLoop 1 0x2110 1, nullCursorLoop 2 0x2300 17, nullCursorLoop 3 0x2300 16,
          nullCursorLoop 4 0x2300 15, nullCursorLoop 5 0x2300 14, nullCursorLoop 5 0x2301 13],
        w.sendAmount = x.sendAmount ∧ w.s.epStatusControllerIn 0 = x.s.epStatusControllerIn 0) →
      w.sendAmount ≠ 0 ∧
      (∃ x ∈ [nullCursorLoop 1 0x2110 1, nullCursorLoop 2 0x2300 17, nullCursorLoop 3 0x2300 16,
          nullCursorLoop 4 0x2300 15, nullCursorLoop 5 0x2300 14, nullCursorLoop 5 0x2301 13],
        (writeCtrlEP.body envNullHang w).sendAmount = x.sendAmount ∧
          (writeCtrlEP.body envNullHang w).s.epStatusControllerIn 0 =
            x.s.epStatusControllerIn 0) := by
    intro w hw
    obtain ⟨x, hx, ha, hs⟩ := hw
    obtain ⟨h1, h2⟩ := body_congr envNullHang w x hs ha
    simp only [List.mem_cons, List.mem_singleton, List.not_mem_nil, or_false] at hx
    rcases hx with rfl | rfl | rfl | rfl | rfl | rfl
    · exact ⟨by rw [ha]; decide, nullCursorLoop 2 0x2300 17, by simp,
        h1.trans (by decide), h2.trans (by decide)⟩
    · exact ⟨by rw [ha]; decide, nullCursorLoop 3 0x2300 16, by simp,
        h1.trans (by decide), h2.trans (by decide)⟩
    · exact ⟨by rw [ha]; decide, nullCursorLoop 4 0x2300 15, by simp,
        h1.trans (by decide), h2.trans (by decide)⟩
    · exact ⟨by rw [ha]; decide, nullCursorLoop 5 0x2300 14, by simp,
        h1.trans (by decide), h2.trans (by decide)⟩
    · exact ⟨by rw [ha]; decide, nullCursorLoop 5 0x2301 13, by simp,
        h1.trans (by decide), h2.trans (by decide)⟩
    · exact ⟨by rw [ha]; decide, nullCursorLoop 5 0x2301 13, by simp,
        h1.trans (by decide), h2.trans (by decide)⟩
  apply writeCtrlEP_none envNullHang s fuel (by rw [h]; rfl)
  intro s2 hs2
  apply loop_stuck envNullHang _ hstuck
  rw [h] at hs2 ⊢
  exact ⟨nullCursorLoop 1 0x2110 1, by simp, rfl, hs2.trans (by decide)⟩

end Stuck

/-! ## The reply to GET_DESCRIPTOR(DEVICE) -/

section DeviceReply

variable (env : Env)

/-- The Transfer Status of endpoint 0 IN armed for a device-to-host GET_DESCRIPTOR(DEVICE)
of 18 bytes: the cursor at `usbDeviceDesc`, 18 bytes to send; the multi-part flag, the
part index and the table are what they were. -/
theorem arm_device (s : State) (haddr : env.addrDeviceDesc ≠ 0)
    (hreq : (s.packet env).request = request_t.getDescriptor)
    (hdir : (s.packet env).dir = .controllerIn)
    (htype : (s.packet env).descriptorType = usbDescriptor_t.device.toNat)
    (hlen : (s.packet env).length = 18) :
    handleStandardRequest env (handleSetupPacket.reset s) =
      (⟨.data, env.addrDeviceDesc, 18, .flash⟩, handleSetupPacket.reset s) ∧
    (handleSetupPacket.arm env s).epStatusControllerIn 0 =
      { s.epStatusControllerIn 0 with
        stall := false
        needsArming := true
        memBuffer := env.addrDeviceDesc
        memoryType := .flash
        transferCount := 18 } ∧
    (handleSetupPacket.arm env s).mem = s.mem := by
  have hgd := handleGetDescriptor_device env (handleSetupPacket.reset s)
    (by rw [reset_packet]; exact hdir) (by rw [reset_packet]; exact htype)
  have hsr : handleStandardRequest env (handleSetupPacket.reset s) =
      (⟨.data, env.addrDeviceDesc, 18, .flash⟩, handleSetupPacket.reset s) := by
    unfold handleStandardRequest
    simp only [reset_packet, hreq]
    simp only [request_t.getDescriptor, request_t.setAddress, hgd]
    rfl
  have harm : handleSetupPacket.arm env s =
      (handleSetupPacket.reset s).setIn0 (fun st =>
        { st with
          stall := false
          needsArming := true
          memBuffer := env.addrDeviceDesc
          memoryType := .flash
          transferCount := 18 }) := by
    unfold handleSetupPacket.arm
    simp only [hsr, reset_packet, hlen, haddr]
    simp
  refine ⟨hsr, ?_, ?_⟩
  · rw [harm, setIn0_In0, reset_In0]
  · rw [harm, setIn0_mem, reset_mem]

end DeviceReply

/-! ## The claims -/

section Claims

theorem sum_map_const (n c : Nat) : ((List.range n).map (fun _ => c)).sum = n * c := by
  induction n with
  | zero => simp
  | succ n ih => rw [List.sum_range_succ, ih]; ring

theorem table258_sum :
    ((table258.parts flashAll255).map (fun f => f.length.val)).sum = 65790 := by
  unfold usbMultiPartTable_t.parts flashAll255
  rw [List.map_map]
  exact sum_map_const table258.count 255

/-- C1, as amended. Fragmentation-independence of `writeCtrlEP`: for every table whose
fragment lengths sum to less than 65536 and in which a fragment after the first has a
null data pointer only if it and all later fragments are empty, and every max packet size
from 1 to 64, from the status the responder leaves (multi-part flag set, part index 0,
null cursor, remaining count `totalLength()`), the calls of `writeCtrlEP` repeated until it
returns true all return (given fuel for `max packet size + count()` iterations of the
loop), and their packets, concatenated, are exactly the concatenation of the fragments
of the table in order. -/
theorem writeCtrlEP_fragmentation_independent (env : Env) (T : usbMultiPartTable_t)
    (s : State)
    (hP : 1 ≤ env.epBufferSize ∧ env.epBufferSize ≤ 64)
    (hsum : ((T.parts env.flash).map (fun f => f.length.val)).sum < 65536)
    (hnull : nullOnlyAtEnd env.flash T)
    (hmp : (s.epStatusControllerIn 0).isMultiPart = true)
    (hj : (s.epStatusControllerIn 0).partNumber = 0)
    (hc : (s.epStatusControllerIn 0).memBuffer = 0)
    (hr : (s.epStatusControllerIn 0).transferCount = T.totalLength env.flash)
    (hT : (s.epStatusControllerIn 0).partsData = T)
    (fuel calls : Nat) (hfuel : env.epBufferSize + T.count ≤ fuel)
    (hcalls : T.totalLength env.flash < calls) :
    ∃ packets s', writeAll env fuel calls s = some (packets, s') ∧
      packets.flatten = tableBytes env.flash s.mem T := by
  have hlen := totalLength_eq_length env.flash s.mem T hsum
  obtain ⟨packets, s', h1, h2⟩ := writeAll_fresh env T s hP.1 (by omega) hnull hmp hT hj hc
    (by rw [hr, hlen]) fuel calls hfuel (by rw [hr]; exact hcalls)
  refine ⟨packets, s', h1, ?_⟩
  rw [h2, hr, hlen, List.take_length]

/-- C1, a witness: the configuration table of the keyboard (six fragments, the last one
empty with a null data pointer) sent in packets of 8 bytes. -/
theorem writeCtrlEP_fragmentation_independent_witness :
    ∃ packets s',
      writeAll keyboard8 14 35 (multiPartState keyboard8.flash (usbConfigDescriptors keyboard8 0)) =
        some (packets, s') ∧
      packets.flatten =
        tableBytes keyboard8.flash (multiPartState keyboard8.flash
          (usbConfigDescriptors keyboard8 0)).mem (usbConfigDescriptors keyboard8 0) :=
  writeCtrlEP_fragmentation_independent keyboard8 (usbConfigDescriptors keyboard8 0)
    (multiPartState keyboard8.flash (usbConfigDescriptors keyboard8 0))
    (by decide) (by decide) (by decide) rfl rfl rfl rfl rfl 14 35 (by decide) (by decide)

/-- C1, as stated, fails. With a one byte max packet size and the table of a one byte
fragment, an empty fragment with a null data pointer and another one byte fragment, the
second packet repeats the byte of the first fragment: the fragment boundary falls on the
packet boundary, the cursor is left null, and the next call takes it for a fresh transfer.
And for the table of 258 fragments of 255 bytes `totalLength()` is 254, so the packets
hold 254 bytes of the 65790. -/
theorem writeCtrlEP_fragmentation_counterexample :
    ((writeAll envNullMiddle 4 4 (multiPartState flashNullMiddle tableNullMiddle)).map
        Prod.fst = some [[255], [255]] ∧
      tableBytes flashNullMiddle (multiPartState flashNullMiddle tableNullMiddle).mem
        tableNullMiddle = [255, 0]) ∧
    (∃ packets s',
      writeAll env258 322 255 (multiPartState flashAll255 table258) = some (packets, s') ∧
      packets.flatten.length = 254 ∧
      (tableBytes flashAll255 (multiPartState flashAll255 table258).mem table258).length =
        65790) := by
  refine ⟨⟨by decide, by decide⟩, ?_⟩
  have hsum := table258_sum
  have htot : table258.totalLength flashAll255 = 254 := by
    rw [totalLength_eq, hsum]
  have hlen : (tableBytes flashAll255 (multiPartState flashAll255 table258).mem
      table258).length = 65790 := by
    rw [tableBytes_length, hsum]
  have hr : ((multiPartState flashAll255 table258).epStatusControllerIn 0).transferCount =
      254 := by
    dsimp only [multiPartState, multiPartStatus]
    exact htot
  have hf : env258.flash = flashAll255 := rfl
  have hnull : nullOnlyAtEnd env258.flash table258 := by
    intro j _ _ hd
    simp [hf, flashAll255] at hd
  obtain ⟨packets, s', h1, h2⟩ := writeAll_fresh env258 table258
    (multiPartState flashAll255 table258) (by decide) (by decide) hnull rfl rfl rfl rfl
    (by rw [hr, hf, hlen]; omega) 322 255 (by decide) (by rw [hr]; omega)
  refine ⟨packets, s', h1, ?_, hlen⟩
  rw [h2, hr, hf, List.length_take, hlen]
  rfl

/-- C2, as amended. Length invariant: `totalLength()` is the sum of the length fields of
`part(i)` for `i` in `[0, count())` reduced modulo 65536, the range of the 16 bit
`std::size_t` it is accumulated in; it is that sum itself whenever the sum is below 65536,
and it is 0 for the empty table. -/
theorem totalLength_is_sum_mod (flash : Nat → usbMultiPartDesc_t) (T : usbMultiPartTable_t) :
    T.totalLength flash = ((T.parts flash).map (fun f => f.length.val)).sum % 65536 ∧
    (((T.parts flash).map (fun f => f.length.val)).sum < 65536 →
      T.totalLength flash = ((T.parts flash).map (fun f => f.length.val)).sum) ∧
    (T.count = 0 → T.totalLength flash = 0) := by
  refine ⟨totalLength_eq flash T, ?_, ?_⟩
  · intro h
    rw [totalLength_eq, Nat.mod_eq_of_lt h]
  · intro h
    rw [totalLength_eq]
    unfold usbMultiPartTable_t.parts
    simp [h]

/-- C2, as stated, fails: for the table of 258 fragments of 255 bytes the lengths sum to
65790 and `totalLength()` is 254. -/
theorem totalLength_counterexample :
    table258.totalLength flashAll255 = 254 ∧
    ((table258.parts flashAll255).map (fun f => f.length.val)).sum = 65790 := by
  have hsum := table258_sum
  exact ⟨by rw [totalLength_eq, hsum], hsum⟩

/-- C3 fails as stated. A table of 6 fragment records at the address 0x2000 has its end
sentinel at 0x2012; for the index 21846, not below `count()`, the pointer
`_begin + index` wraps around the 16 bit address space to 0x2002, below `_end`, and
`part` returns that pointer and not the end sentinel. -/
theorem part_counterexample :
    (usbMultiPartTable_t.mk 0 6).count ≤ 21846 ∧
    usbMultiPartTable_t.partPointer (recordPointer 0x2000 0) (recordPointer 0x2000 6) 21846 =
      ⟨0x2002⟩ ∧
    usbMultiPartTable_t.partPointer (recordPointer 0x2000 0) (recordPointer 0x2000 6) 21846 ≠
      recordPointer 0x2000 6 := by
  decide

/-- C3, amended: the member `part` is total and, for a table that lies inside the 16 bit
address space, returns for every index below `count()` the pointer to that fragment,
`_begin + index`, and for every index not below `count()` for which `_begin + index` does
not pass the end of the address space the end sentinel `_end`; on positions, where nothing
wraps, it is `_begin + index` below `count()` and `_end` for every other index. -/
theorem part_total (base : Nat) (T : usbMultiPartTable_t) (i : Nat)
    (hend : base + 3 * T._end < 65536) :
    (i < T.count →
      usbMultiPartTable_t.partPointer (recordPointer base T._begin) (recordPointer base T._end)
        i = recordPointer base (T._begin + i)) ∧
    (T.count ≤ i → base + 3 * (T._begin + i) < 65536 →
      usbMultiPartTable_t.partPointer (recordPointer base T._begin) (recordPointer base T._end)
        i = recordPointer base T._end) ∧
    (i < T.count → T.part i = T._begin + i) ∧ (T.count ≤ i → T.part i = T._end) := by
  refine ⟨?_, ?_, part_of_lt T i, part_of_ge T i⟩
  · intro hi
    have hlt : T._begin + i < T._end := by
      unfold usbMultiPartTable_t.count at hi
      omega
    rw [partPointer_eq_part base T i (by omega), part_of_lt T i hi]
  · intro hi hidx
    rw [partPointer_eq_part base T i hidx, part_of_ge T i hi]

/-- C3, a witness: the table of 6 fragment records at 0x2000, the indices 5 and 7. -/
theorem part_total_witness :
    usbMultiPartTable_t.partPointer (recordPointer 0x2000 0) (recordPointer 0x2000 6) 5 =
      ⟨0x200F⟩ ∧
    usbMultiPartTable_t.partPointer (recordPointer 0x2000 0) (recordPointer 0x2000 6) 7 =
      ⟨0x2012⟩ :=
  ⟨(part_total 0x2000 ⟨0, 6⟩ 5 (by decide)).1 (by decide),
    (part_total 0x2000 ⟨0, 6⟩ 7 (by decide)).2.1 (by decide) (by decide)⟩

/-- C4, as amended. Clamping in `readCtrlEP`: with `c` the received count the hardware
reports and `r` the remaining expected count, the remaining count becomes `r - min(c, r)`
and the call returns true exactly when that is 0; the bytes copied to the destination,
and the advance of the cursor, are `min(c, r)` reduced modulo 256 (`recvData` takes the
count as a `uint8_t`), never more than `r`; they are exactly `min(c, r)` whenever
`min(c, r) ≤ 255`. -/
theorem readCtrlEP_clamps (s : State) :
    (∀ i, i < min (s.endpoints 0).controllerOut.CNT
          (s.epStatusControllerOut 0).transferCount % 256 →
        (readCtrlEP s).2.mem ((s.epStatusControllerOut 0).memBuffer + i) = s.epBuffer 0 i) ∧
    (∀ a, a < (s.epStatusControllerOut 0).memBuffer ∨
          (s.epStatusControllerOut 0).memBuffer +
            min (s.endpoints 0).controllerOut.CNT
              (s.epStatusControllerOut 0).transferCount % 256 ≤ a →
        (readCtrlEP s).2.mem a = s.mem a) ∧
    ((readCtrlEP s).2.epStatusControllerOut 0).memBuffer =
      (s.epStatusControllerOut 0).memBuffer +
        min (s.endpoints 0).controllerOut.CNT (s.epStatusControllerOut 0).transferCount % 256 ∧
    min (s.endpoints 0).controllerOut.CNT (s.epStatusControllerOut 0).transferCount % 256 ≤
      (s.epStatusControllerOut 0).transferCount ∧
    (min (s.endpoints 0).controllerOut.CNT (s.epStatusControllerOut 0).transferCount ≤ 255 →
      min (s.endpoints 0).controllerOut.CNT (s.epStatusControllerOut 0).transferCount % 256 =
        min (s.endpoints 0).controllerOut.CNT (s.epStatusControllerOut 0).transferCount) ∧
    ((readCtrlEP s).2.epStatusControllerOut 0).transferCount =
      (s.epStatusControllerOut 0).transferCount -
        min (s.endpoints 0).controllerOut.CNT (s.epStatusControllerOut 0).transferCount ∧
    ((readCtrlEP s).1 = true ↔
      ((readCtrlEP s).2.epStatusControllerOut 0).transferCount = 0) := by
  obtain ⟨hmem, hst, hret⟩ := readCtrlEP_spec s
  generalize hc : (s.endpoints 0).controllerOut.CNT = c at *
  generalize hr : (s.epStatusControllerOut 0).transferCount = r at *
  generalize hd : (s.epStatusControllerOut 0).memBuffer = dest at *
  refine ⟨?_, ?_, by rw [hst], by omega, by omega, by rw [hst], ?_⟩
  · intro i hi
    rw [hmem, if_pos (by omega)]
    congr 1
    omega
  · intro a ha
    rw [hmem, if_neg (by omega)]
  · rw [hret, hst]
    simp

/-- C4, as stated, fails: with a received count of 256 and 256 bytes expected,
`readCtrlEP` reports the transfer complete and has copied nothing, the cursor and the
first byte of the destination are as before. -/
theorem readCtrlEP_counterexample :
    (readState256.endpoints 0).controllerOut.CNT = 256 ∧
    (readState256.epStatusControllerOut 0).transferCount = 256 ∧
    (readState256.epStatusControllerOut 0).memBuffer = 0x3000 ∧
    readState256.epBuffer 0 0 = 0xAA ∧
    (readCtrlEP readState256).1 = true ∧
    ((readCtrlEP readState256).2.epStatusControllerOut 0).memBuffer = 0x3000 ∧
    (readCtrlEP readState256).2.mem 0x3000 = 0 := by
  decide

/-- C5. Request-length clamp: when all 8 bytes of a setup packet have been received,
`handleSetupPacket` hands the state armed by the responder to `completeSetupPacket`, and
the remaining count of endpoint 0 IN in that state, the count the first call of
`writeCtrlEP` finds, is `min(L, wLength)` with `L` the length the responder declares; it is
0 for a zero-length acknowledgement, it never exceeds `wLength`, and the packets of the
calls of `writeCtrlEP` that send the reply hold that many bytes in all. -/
theorem handleSetupPacket_request_length_clamp (env : Env) (fuel : Nat) (s : State)
    (h8 : 8 ≤ (s.endpoints 0).controllerOut.CNT) :
    handleSetupPacket env fuel s =
      (completeSetupPacket env fuel
        (handleSetupPacket.arm env (handleSetupPacket.read env s).2)).map
        (handleSetupPacket.clearFlag env) ∧
    ((handleSetupPacket.arm env (handleSetupPacket.read env s).2).epStatusControllerIn
        0).transferCount =
      min (handleStandardRequest env
          (handleSetupPacket.reset (handleSetupPacket.read env s).2)).1.size
        ((handleStandardRequest env
          (handleSetupPacket.reset (handleSetupPacket.read env s).2)).2.packet env).length ∧
    ((handleStandardRequest env
        (handleSetupPacket.reset (handleSetupPacket.read env s).2)).1.response = .zeroLength →
      ((handleSetupPacket.arm env (handleSetupPacket.read env s).2).epStatusControllerIn
        0).transferCount = 0) ∧
    (∀ calls packets s',
      writeAll env fuel calls (handleSetupPacket.arm env (handleSetupPacket.read env s).2) =
        some (packets, s') →
      (packets.map List.length).sum =
        min (handleStandardRequest env
            (handleSetupPacket.reset (handleSetupPacket.read env s).2)).1.size
          ((handleStandardRequest env
            (handleSetupPacket.reset (handleSetupPacket.read env s).2)).2.packet env).length ∧
      (packets.map List.length).sum ≤
        ((handleStandardRequest env
          (handleSetupPacket.reset (handleSetupPacket.read env s).2)).2.packet env).length) := by
  have hread : (handleSetupPacket.read env s).1 = true := by
    unfold handleSetupPacket.read
    rw [(readCtrlEP_spec _).2.2]
    simp only [setOut0_Out0, setOut0_endpoints, beq_iff_eq]
    omega
  have harm := arm_transferCount env (handleSetupPacket.read env s).2
  have hsz := handleStandardRequest_size env
    (handleSetupPacket.reset (handleSetupPacket.read env s).2)
  refine ⟨?_, harm, ?_, ?_⟩
  · unfold handleSetupPacket
    simp only [hread, Bool.not_true, Bool.false_eq_true, if_false]
  · intro hz
    rw [harm, hsz.2 hz, Nat.zero_min]
  · intro calls packets s' hw
    have := writeAll_total env fuel calls _ s' packets hw
    rw [this, harm]
    exact ⟨rfl, Nat.min_le_right _ _⟩

/-- C5, a witness: GET_DESCRIPTOR(CONFIGURATION) with `wLength` 9 arrives on the sample
keyboard. -/
theorem handleSetupPacket_request_length_clamp_witness :
    8 ≤ ((setupState [0x80, 6, 0, 2, 0, 0, 9, 0]).endpoints 0).controllerOut.CNT ∧
    ((handleSetupPacket.arm keyboard
        (handleSetupPacket.read keyboard
          (setupState [0x80, 6, 0, 2, 0, 0, 9, 0])).2).epStatusControllerIn 0).transferCount =
      min (handleStandardRequest keyboard
          (handleSetupPacket.reset (handleSetupPacket.read keyboard
            (setupState [0x80, 6, 0, 2, 0, 0, 9, 0])).2)).1.size
        ((handleStandardRequest keyboard
          (handleSetupPacket.reset (handleSetupPacket.read keyboard
            (setupState [0x80, 6, 0, 2, 0, 0, 9, 0])).2)).2.packet keyboard).length :=
  ⟨by decide,
    (handleSetupPacket_request_length_clamp keyboard 70 (setupState [0x80, 6, 0, 2, 0, 0, 9, 0])
      (by decide)).2.1⟩

/-- Device descriptor validity, with no multi-part transfer left unfinished: for a
device-to-host GET_DESCRIPTOR(DEVICE) `handleGetDescriptor` returns outcome data, the
address of `usbDeviceDesc`, length 18 and memory kind flash, and leaves the state as it
is; `usbDeviceDesc` has length 18, type 1, `usbVersion` 0x0200, `deviceClass` 0,
`maxPacketSize0` the size of the buffer of endpoint 0 and `numConfigurations` the count of
configurations, 1, and is 18 bytes in memory. With `wLength` 18 and the descriptor in
memory at its address, `handleSetupPacket` returns with the multi-part flag clear, and the
packet it sends, followed by the packets of the calls of `writeCtrlEP` on the IN0
completions, is exactly the 18 bytes of the descriptor: all in the first packet, with the
Control State `statusRX`, when the max packet size is at least 18, else in several with the
Control State `dataTX`. -/
theorem getDescriptor_device_reply (env : Env) (s : State) (fuel calls : Nat)
    (haddr : env.addrDeviceDesc ≠ 0)
    (hP1 : 1 ≤ env.epBufferSize) (hP : env.epBufferSize ≤ 255)
    (hcnt : 8 ≤ (s.endpoints 0).controllerOut.CNT)
    (hreq : ((handleSetupPacket.read env s).2.packet env).request = request_t.getDescriptor)
    (hdir : ((handleSetupPacket.read env s).2.packet env).dir = .controllerIn)
    (htype : ((handleSetupPacket.read env s).2.packet env).descriptorType =
      usbDescriptor_t.device.toNat)
    (hlen : ((handleSetupPacket.read env s).2.packet env).length = 18)
    (hfresh : (s.epStatusControllerIn 0).isMultiPart = false)
    (hmem : memBytes (handleSetupPacket.read env s).2.mem env.addrDeviceDesc 18 =
      (usbDeviceDesc env).bytes)
    (hcalls : 18 < calls) :
    handleGetDescriptor env (handleSetupPacket.reset (handleSetupPacket.read env s).2) =
      (⟨.data, env.addrDeviceDesc, 18, .flash⟩,
        handleSetupPacket.reset (handleSetupPacket.read env s).2) ∧
    (usbDeviceDesc env).length = 18 ∧
    (usbDeviceDesc env).descriptorType = 0x01 ∧
    (usbDeviceDesc env).usbVersion = 0x0200 ∧
    (usbDeviceDesc env).deviceClass = 0 ∧
    (usbDeviceDesc env).maxPacketSize0 = env.epBufferSize ∧
    (usbDeviceDesc env).numConfigurations = configDescriptorCount ∧
    configDescriptorCount = 1 ∧
    (usbDeviceDesc env).bytes.length = 18 ∧
    ∃ s1, handleSetupPacket env fuel s = some s1 ∧
      (s1.epStatusControllerIn 0).isMultiPart = false ∧
      (18 ≤ env.epBufferSize →
        s1.usbCtrlState = .statusRX ∧ s1.inPacket = (usbDeviceDesc env).bytes) ∧
      (env.epBufferSize < 18 →
        s1.usbCtrlState = .dataTX ∧
        ∃ packets s2, writeAll env fuel calls s1 = some (packets, s2) ∧
          s1.inPacket ++ packets.flatten = (usbDeviceDesc env).bytes) := by
  have harmed := fun s3 b => handleSetupPacket_armed env fuel s s3 b hcnt
  have hrIn : (handleSetupPacket.read env s).2.epStatusControllerIn 0 =
      s.epStatusControllerIn 0 :=
    read_frame env (fun s => s.epStatusControllerIn 0) (fun _ _ => rfl)
      (fun _ _ _ _ => by simp only [recvData_In]) (fun _ _ _ => rfl) s
  generalize (handleSetupPacket.read env s).2 = s0 at *
  have hgd := handleGetDescriptor_device env (handleSetupPacket.reset s0)
    (by rw [reset_packet]; exact hdir) (by rw [reset_packet]; exact htype)
  obtain ⟨_, haIn, hamem⟩ := arm_device env s0 haddr hreq hdir htype hlen
  have ha_dir : ((handleSetupPacket.arm env s0).packet env).dir = .controllerIn := by
    rw [packet_of_mem env (handleSetupPacket.arm env s0) s0 hamem]; exact hdir
  have ha_arm : ((handleSetupPacket.arm env s0).epStatusControllerIn 0).needsArming = true := by
    rw [haIn]
  generalize handleSetupPacket.arm env s0 = sa at *
  have he_In : (completeSetupPacket.enter env sa).epStatusControllerIn = sa.epStatusControllerIn :=
    enter_frame env State.epStatusControllerIn (fun _ _ _ => rfl) sa
  have he_mem : (completeSetupPacket.enter env sa).mem = sa.mem :=
    enter_frame env State.mem (fun _ _ _ => rfl) sa
  generalize completeSetupPacket.enter env sa = se at *
  have hmp : (se.epStatusControllerIn 0).isMultiPart = false := by
    rw [he_In, haIn]
    show (s0.epStatusControllerIn 0).isMultiPart = false
    rw [hrIn]; exact hfresh
  obtain ⟨s3, hw, hpk, hmem3, hst⟩ := writeCtrlEP_single env se fuel hP hmp
  rw [he_In, haIn] at hw hpk hst
  rw [he_mem, hamem] at hpk hmem3
  simp only [] at hw hpk hst
  have hs1 := harmed s3 _ ha_arm hw
  refine ⟨hgd, rfl, rfl, rfl, rfl, rfl, rfl, rfl, rfl, _, hs1, ?_, ?_, ?_⟩
  · show (s3.epStatusControllerIn 0).isMultiPart = false
    rw [hst]
    show (s0.epStatusControllerIn 0).isMultiPart = false
    rw [hrIn]; exact hfresh
  · intro hle
    have hn : min 18 env.epBufferSize = 18 := by omega
    have hb : (18 - min 18 env.epBufferSize == 0) = true := by simp [hn]
    refine ⟨?_, ?_⟩
    · show (if _ then (if _ then _ else _) else (if _ then _ else _)) = _
      rw [ha_dir, hb]
      rfl
    · show s3.inPacket = _
      rw [hpk, hn, hmem]
  · intro hgt
    have hn : min 18 env.epBufferSize = env.epBufferSize := by omega
    have hne : 18 - min 18 env.epBufferSize ≠ 0 := by omega
    have hb : (18 - min 18 env.epBufferSize == 0) = false := by simp [hne]
    refine ⟨?_, ?_⟩
    · show (if _ then (if _ then _ else _) else (if _ then _ else _)) = _
      rw [ha_dir, hb]
      rfl
    · generalize hs1def : handleSetupPacket.clearFlag env _ = s1 at hs1
      have h1_In : s1.epStatusControllerIn = s3.epStatusControllerIn := by rw [← hs1def]; rfl
      have h1_mem : s1.mem = s3.mem := by rw [← hs1def]; rfl
      have h1_pk : s1.inPacket = s3.inPacket := by rw [← hs1def]; rfl
      obtain ⟨packets, s2, hwa, hfl⟩ := writeAll_single env fuel hP1 hP calls s1
        (by rw [h1_In, hst]; show (s0.epStatusControllerIn 0).isMultiPart = false
            rw [hrIn]; exact hfresh)
        (by rw [h1_In, hst]; show 18 - min 18 env.epBufferSize < calls; omega)
      refine ⟨packets, s2, hwa, ?_⟩
      rw [hfl, h1_pk, hpk, h1_mem, hmem3, h1_In, hst, ← hmem]
      show memBytes s0.mem env.addrDeviceDesc (min 18 env.epBufferSize) ++
        memBytes s0.mem (env.addrDeviceDesc + min 18 env.epBufferSize)
          (18 - min 18 env.epBufferSize) = _
      rw [← memBytes_add]
      congr 1
      omega

/-- A witness of the device descriptor reply: GET_DESCRIPTOR(DEVICE) with `wLength` 18 on the sample keyboard with 8
byte packets, the descriptor in memory at 0x2100; the reply takes three packets. -/
theorem getDescriptor_device_reply_witness :
    ∃ s1 packets s2,
      handleSetupPacket keyboard8 0
        { setupState [0x80, 6, 0, 1, 0, 0, 18, 0] with
          mem := fun a => (usbDeviceDesc keyboard8).bytes.getD (a - 0x2100) 0 } = some s1 ∧
      s1.usbCtrlState = .dataTX ∧
      writeAll keyboard8 0 19 s1 = some (packets, s2) ∧
      s1.inPacket ++ packets.flatten = (usbDeviceDesc keyboard8).bytes := by
  obtain ⟨s1, h1, _, _, h4⟩ :=
    (getDescriptor_device_reply keyboard8
      { setupState [0x80, 6, 0, 1, 0, 0, 18, 0] with
        mem := fun a => (usbDeviceDesc keyboard8).bytes.getD (a - 0x2100) 0 } 0 19
      (by decide) (by decide) (by decide) (by decide) (by decide) (by decide) (by decide)
      (by decide) rfl (by decide) (by decide)).2.2.2.2.2.2.2.2.2
  obtain ⟨h5, packets, s2, h6, h7⟩ := h4 (by decide)
  exact ⟨s1, packets, s2, h1, h5, h6, h7⟩

/-- C7. Out-of-range rejection: for a descriptor type that is none of device, device
qualifier, configuration, interface, endpoint and string, and for a configuration,
interface, endpoint or string request whose index is not below the count of those,
`handleGetDescriptor` returns outcome unhandled with a null pointer and length 0 and
leaves the state, the IN0 Transfer Status with it, as it is. -/
theorem handleGetDescriptor_out_of_range (env : Env) (s : State)
    (h : ((s.packet env).descriptorType ≠ usbDescriptor_t.device.toNat ∧
          (s.packet env).descriptorType ≠ usbDescriptor_t.deviceQualifier.toNat ∧
          (s.packet env).descriptorType ≠ usbDescriptor_t.configuration.toNat ∧
          (s.packet env).descriptorType ≠ usbDescriptor_t.interface.toNat ∧
          (s.packet env).descriptorType ≠ usbDescriptor_t.endpoint.toNat ∧
          (s.packet env).descriptorType ≠ usbDescriptor_t.string.toNat) ∨
        ((s.packet env).descriptorType = usbDescriptor_t.configuration.toNat ∧
          configDescriptorCount ≤ (s.packet env).descriptorIndex) ∨
        ((s.packet env).descriptorType = usbDescriptor_t.interface.toNat ∧
          env.interfaceDescriptorCount ≤ (s.packet env).descriptorIndex) ∨
        ((s.packet env).descriptorType = usbDescriptor_t.endpoint.toNat ∧
          env.endpointDescriptorCount ≤ (s.packet env).descriptorIndex) ∨
        ((s.packet env).descriptorType = usbDescriptor_t.string.toNat ∧
          stringCount ≤ (s.packet env).descriptorIndex)) :
    handleGetDescriptor env s = (⟨.unhandled, 0, 0, .sram⟩, s) := by
  unfold handleGetDescriptor
  simp only []
  split
  · rfl
  · rcases h with ⟨h1, h2, h3, h4, h5, h6⟩ | ⟨h1, h2⟩ | ⟨h1, h2⟩ | ⟨h1, h2⟩ | ⟨h1, h2⟩
    · simp only [h1, h2, h3, h4, h5, h6, if_false]
      rfl
    · simp only [h1, ge_iff_le, h2, if_true]
      simp [usbDescriptor_t.toNat]
      rfl
    · simp only [h1, ge_iff_le, h2, if_true]
      simp [usbDescriptor_t.toNat]
      rfl
    · simp only [h1, ge_iff_le, h2, if_true]
      simp [usbDescriptor_t.toNat]
      rfl
    · simp only [h1, ge_iff_le, h2, if_true]
      simp [usbDescriptor_t.toNat]
      rfl

/-- C7, a witness: GET_DESCRIPTOR(CONFIGURATION, index 5) with one configuration. -/
theorem handleGetDescriptor_out_of_range_witness :
    handleGetDescriptor keyboard (packetState [0x80, 6, 5, 2, 0, 0, 64, 0]) =
      (⟨.unhandled, 0, 0, .sram⟩, packetState [0x80, 6, 5, 2, 0, 0, 64, 0]) :=
  handleGetDescriptor_out_of_range keyboard (packetState [0x80, 6, 5, 2, 0, 0, 64, 0])
    (Or.inr (Or.inl ⟨by decide, by decide⟩))

/-- C8, as amended. Direction sanity check of `handleGetDescriptor`: for every setup
packet whose direction bit says host to device (the bit is clear, a controller-out
transfer), `handleGetDescriptor` returns unhandled before it dispatches on the descriptor
type: no descriptor is returned and the state, the IN0 Transfer Status with it, is as
before. -/
theorem handleGetDescriptor_direction (env : Env) (s : State)
    (hdir : (s.packet env).requestType / 128 % 2 = 0) :
    (s.packet env).dir = .controllerOut ∧
    handleGetDescriptor env s = (⟨.unhandled, 0, 0, .sram⟩, s) := by
  have h : (s.packet env).dir = .controllerOut := by
    unfold setupPacket_t.dir
    simp [hdir]
  exact ⟨h, handleGetDescriptor_controllerOut env s h⟩

/-- C8, a witness: a host-to-device GET_DESCRIPTOR(DEVICE). -/
theorem handleGetDescriptor_direction_witness :
    handleGetDescriptor keyboard (packetState [0x00, 6, 0, 1, 0, 0, 18, 0]) =
      (⟨.unhandled, 0, 0, .sram⟩, packetState [0x00, 6, 0, 1, 0, 0, 18, 0]) :=
  (handleGetDescriptor_direction keyboard (packetState [0x00, 6, 0, 1, 0, 0, 18, 0])
    (by decide)).2

/-- C8, as stated, fails: a GET_DESCRIPTOR(DEVICE) whose direction bit says device to
host is dispatched and answered with the device descriptor. -/
theorem handleGetDescriptor_direction_counterexample :
    ((packetState [0x80, 6, 0, 1, 0, 0, 18, 0]).packet keyboard).requestType / 128 % 2 = 1 ∧
    ((packetState [0x80, 6, 0, 1, 0, 0, 18, 0]).packet keyboard).dir = .controllerIn ∧
    (handleGetDescriptor keyboard (packetState [0x80, 6, 0, 1, 0, 0, 18, 0])).1 =
      ⟨.data, keyboard.addrDeviceDesc, 18, .flash⟩ := by
  decide

/-- C9. Lazy multi-part reply: for a device-to-host GET_DESCRIPTOR(CONFIGURATION, i)
with `i` below the count of configurations, and for a device-to-host
GET_DESCRIPTOR(STRING, i) with `i` below `stringCount`, `handleGetDescriptor` stores the
`i`-th table in the IN0 Transfer Status, sets its multi-part flag and sets its part index
to 0, changes nothing else, and returns outcome data with a null pointer, memory kind
flash and the `totalLength()` of that table as length. -/
theorem handleGetDescriptor_multiPart (env : Env) (s : State)
    (hdir : (s.packet env).dir = .controllerIn) :
    ((s.packet env).descriptorType = usbDescriptor_t.configuration.toNat →
      (s.packet env).descriptorIndex < configDescriptorCount →
      handleGetDescriptor env s =
        (⟨.data, 0, (usbConfigDescriptors env (s.packet env).descriptorIndex).totalLength
            env.flash, .flash⟩,
          s.setIn0 (fun st =>
            { st with
              isMultiPart := true
              partNumber := 0
              partsData := usbConfigDescriptors env (s.packet env).descriptorIndex }))) ∧
    ((s.packet env).descriptorType = usbDescriptor_t.string.toNat →
      (s.packet env).descriptorIndex < stringCount →
      handleGetDescriptor env s =
        (⟨.data, 0, (usbStrings env (s.packet env).descriptorIndex).totalLength env.flash,
            .flash⟩,
          s.setIn0 (fun st =>
            { st with
              isMultiPart := true
              partNumber := 0
              partsData := usbStrings env (s.packet env).descriptorIndex }))) := by
  constructor
  · intro htype hidx
    unfold handleGetDescriptor
    simp only [hdir, htype, ge_iff_le, Nat.not_le.mpr hidx]
    simp [usbDescriptor_t.toNat]
  · intro htype hidx
    unfold handleGetDescriptor
    simp only [hdir, htype, ge_iff_le, Nat.not_le.mpr hidx]
    simp [usbDescriptor_t.toNat]

/-- C9, a witness: GET_DESCRIPTOR(STRING, 2) on the sample keyboard. -/
theorem handleGetDescriptor_multiPart_witness :
    (handleGetDescriptor keyboard (packetState [0x80, 6, 2, 3, 0, 0, 255, 0])).1 =
      ⟨.data, 0, 22, .flash⟩ ∧
    ((handleGetDescriptor keyboard
      (packetState [0x80, 6, 2, 3, 0, 0, 255, 0])).2.epStatusControllerIn 0).partsData =
      usbStrings keyboard 2 := by
  have h := (handleGetDescriptor_multiPart keyboard (packetState [0x80, 6, 2, 3, 0, 0, 255, 0])
    (by decide)).2 (by decide) (by decide)
  rw [h]
  exact ⟨by decide, by decide⟩

/-- C10. String assembly: the `usbStringDesc_t` built from a string of `n ≤ 126` UTF-16
code units has length byte `2 + 2n` and type byte 3, and `asParts()` gives two fragments,
2 bytes at the record and `2n` bytes at the code units. For a table of these two
fragments `count()` is 2 and `totalLength()` is the length byte, and with the record and
the code units (low byte first) in memory the reply assembled by `writeCtrlEP` from the
status the responder leaves is the two bytes `2 + 2n`, 3 followed by the code units.
The record of string 2 is built from 10 code units and has length byte 22. -/
theorem usbStringDesc_assembly (env : Env) (s : State) (T : usbMultiPartTable_t)
    (data this n : Nat) (units : List Nat) (fuel calls : Nat)
    (hn : n ≤ 126)
    (hdata : data = 0 → n = 0)
    (hP : 1 ≤ env.epBufferSize ∧ env.epBufferSize ≤ 64)
    (hparts : T.parts env.flash = (usbStringDesc_t.ofView data n).asParts this)
    (hhdr : memBytes s.mem this 2 =
      [(usbStringDesc_t.ofView data n).length, (usbStringDesc_t.ofView data n).descriptorType])
    (hstr : memBytes s.mem data (2 * n) = units.flatMap (fun u => [u % 256, u / 256]))
    (hmp : (s.epStatusControllerIn 0).isMultiPart = true)
    (hj : (s.epStatusControllerIn 0).partNumber = 0)
    (hc : (s.epStatusControllerIn 0).memBuffer = 0)
    (hr : (s.epStatusControllerIn 0).transferCount = T.totalLength env.flash)
    (hT : (s.epStatusControllerIn 0).partsData = T)
    (hfuel : env.epBufferSize + 2 ≤ fuel) (hcalls : 2 + 2 * n < calls) :
    (usbStringDesc_t.ofView data n).length = 2 + 2 * n ∧
    (usbStringDesc_t.ofView data n).descriptorType = 0x03 ∧
    (usbStringDesc_t.ofView data n).asParts this =
      [⟨2, this⟩, ⟨Fin.ofNat (2 * n), data⟩] ∧
    ((usbStringDesc_t.ofView data n).asParts this).map (fun f => f.length.val) = [2, 2 * n] ∧
    units.length = n ∧
    T.count = 2 ∧
    T.totalLength env.flash = (usbStringDesc_t.ofView data n).length ∧
    (∃ packets s', writeAll env fuel calls s = some (packets, s') ∧
      packets.flatten = [2 + 2 * n, 0x03] ++ units.flatMap (fun u => [u % 256, u / 256])) ∧
    (usbStringDescs env).getD 2 ⟨0, 0, 0⟩ = usbStringDesc_t.ofView (env.addrStringData 2) 10 ∧
    ((usbStringDescs env).getD 2 ⟨0, 0, 0⟩).length = 22 := by
  have hlen := ofView_length data n hn
  have hasp := ofView_asParts data this n hn
  have hfin : (Fin.ofNat (2 * n) : Fin 256).val = 2 * n := by
    show (2 * n) % 256 = 2 * n
    omega
  rw [hasp] at hparts
  obtain ⟨hcount, hf0, hf1⟩ := parts_pair env.flash T _ _ hparts
  have hsum : ((T.parts env.flash).map (fun f => f.length.val)).sum = 2 + 2 * n := by
    rw [hparts]
    simp only [List.map_cons, List.map_nil, List.sum_cons, List.sum_nil, hfin]
    rfl
  have htot : T.totalLength env.flash = 2 + 2 * n := by
    rw [totalLength_eq, hsum]
    omega
  have hbytes := tableBytes_pair env.flash s.mem T _ _ hparts
  simp only [hfin] at hbytes
  have hnull : nullOnlyAtEnd env.flash T := by
    intro j hjk hj0 hd i hik hji
    have hj1 : j = 1 := by omega
    have hi1 : i = 1 := by omega
    subst hj1 hi1
    rw [hf1] at hd ⊢
    simp only at hd
    show (2 * n) % 256 = 0
    rw [hdata hd]
  have hunits : units.length = n := by
    have h := congrArg List.length hstr
    rw [memBytes_length, flatMap_pair_length] at h
    omega
  obtain ⟨packets, s', h1, h2⟩ := writeAll_fresh env T s hP.1 (by omega) hnull hmp hT hj hc
    (by rw [hr, htot, hbytes]; simp [memBytes]) fuel calls (by omega) (by rw [hr, htot]; omega)
  refine ⟨hlen, rfl, hasp, ?_, hunits, hcount, by rw [htot, hlen], ⟨packets, s', h1, ?_⟩, rfl,
    rfl⟩
  · rw [hasp]
    simp only [List.map_cons, List.map_nil, hfin]
    rfl
  · rw [h2, hr, htot, hbytes, List.take_of_length_le (by simp [memBytes])]
    have h2' : memBytes s.mem this 2 = [2 + 2 * n, 0x03] := by
      rw [hhdr, hlen]
      rfl
    show memBytes s.mem this 2 ++ memBytes s.mem data (2 * n) = _
    rw [h2', hstr]

/-- C10, a witness: the reply to GET_DESCRIPTOR(STRING, 2) on the sample keyboard, with
"MXKeyboard" in memory, is 22 bytes. -/
theorem usbStringDesc_assembly_witness :
    ∃ packets s',
      writeAll keyboard 70 23
        { multiPartState keyboard.flash (usbStrings keyboard 2) with mem := stringMem } =
        some (packets, s') ∧
      packets.flatten = [22, 3] ++
        [77, 88, 75, 101, 121, 98, 111, 97, 114, 100].flatMap (fun u => [u % 256, u / 256]) :=
  (usbStringDesc_assembly keyboard
    { multiPartState keyboard.flash (usbStrings keyboard 2) with mem := stringMem }
    (usbStrings keyboard 2) (keyboard.addrStringData 2) 0x2148 10
    [77, 88, 75, 101, 121, 98, 111, 97, 114, 100] 70 23
    (by decide) (by decide) (by decide) (by decide) (by decide) (by decide) rfl rfl rfl rfl rfl
    (by decide) (by decide)).2.2.2.2.2.2.2.1


/-! ## Requests, bus events and the reply path -/

/-- C11: SET_ADDRESS is committed in two steps. For a complete setup packet that is a
standard-type SET_ADDRESS with zero high address byte, `handleSetupPacket` returns with
Device State `addressing`, an empty (zero-length) packet armed on endpoint 0 IN and the
address register as it was; the following `handleControllerInPacket` returns with the low
address byte, masked with the address mask, in the address register and Device State
`addressed`. -/
theorem setAddress_commit_order (env : Env) (s : State) (fuel fuel' : Nat)
    (hcnt : 8 ≤ (s.endpoints 0).controllerOut.CNT)
    (hreq : ((handleSetupPacket.read env s).2.packet env).request = request_t.setAddress)
    (htype : ((handleSetupPacket.read env s).2.packet env).type = 0)
    (haddr : ((handleSetupPacket.read env s).2.packet env).addrH = 0) :
    ∃ s1, handleSetupPacket env fuel s = some s1 ∧
      s1.usbState = .addressing ∧
      s1.inPacket = [] ∧
      (s1.endpoints 0).controllerIn.STATUS &&&
        (env.usbEPStatusNotReady ||| env.usbEPStatusNACK0) = 0 ∧
      s1.USB.ADDR = s.USB.ADDR ∧
      ∃ s2, handleControllerInPacket env fuel' s1 = some s2 ∧
        s2.USB.ADDR = ((handleSetupPacket.read env s).2.packet env).addrL &&& env.addressMask ∧
        s2.usbState = .addressed := by
  have hUSB0 : (handleSetupPacket.read env s).2.USB = s.USB :=
    read_frame env State.USB (fun _ _ => rfl) (fun _ _ _ _ => rfl) (fun _ _ _ => rfl) s
  have harmed := fun s3 b => handleSetupPacket_armed env fuel s s3 b hcnt
  generalize (handleSetupPacket.read env s).2 = s0 at *
  -- the responder
  have hsr : handleStandardRequest env (handleSetupPacket.reset s0) =
      (⟨.zeroLength, 0, 0, .sram⟩, { handleSetupPacket.reset s0 with usbState := .addressing }) := by
    unfold handleStandardRequest
    simp only [reset_packet, hreq, if_true]
  have ha_mem : (handleSetupPacket.arm env s0).mem = s0.mem := by
    rw [arm_frame env State.mem (fun _ _ => rfl), hsr]; rfl
  have ha_state : (handleSetupPacket.arm env s0).usbState = .addressing := by
    rw [arm_frame env State.usbState (fun _ _ => rfl), hsr]
  have ha_USB : (handleSetupPacket.arm env s0).USB = s0.USB := by
    rw [arm_frame env State.USB (fun _ _ => rfl), hsr]; rfl
  have ha_arm : ((handleSetupPacket.arm env s0).epStatusControllerIn 0).needsArming = true := by
    rw [arm_needsArming, hsr]; rfl
  have ha_cnt : ((handleSetupPacket.arm env s0).epStatusControllerIn 0).transferCount = 0 := by
    rw [arm_transferCount, hsr]; simp
  generalize handleSetupPacket.arm env s0 = sa at *
  -- the call of writeCtrlEP
  have he_In : (completeSetupPacket.enter env sa).epStatusControllerIn = sa.epStatusControllerIn :=
    enter_frame env State.epStatusControllerIn (fun _ _ _ => rfl) sa
  have he_mem : (completeSetupPacket.enter env sa).mem = sa.mem :=
    enter_frame env State.mem (fun _ _ _ => rfl) sa
  have he_state : (completeSetupPacket.enter env sa).usbState = sa.usbState :=
    enter_frame env State.usbState (fun _ _ _ => rfl) sa
  have he_USB : (completeSetupPacket.enter env sa).USB = sa.USB :=
    enter_frame env State.USB (fun _ _ _ => rfl) sa
  obtain ⟨s3, hw, hpkt⟩ := writeCtrlEP_zero env (completeSetupPacket.enter env sa) fuel
    (by rw [he_In]; exact ha_cnt)
  have h3_mem : s3.mem = (completeSetupPacket.enter env sa).mem :=
    writeCtrlEP_frame env State.mem (fun _ _ => rfl) (fun _ _ _ _ _ => rfl)
      (fun _ _ _ _ => rfl) (fun _ _ _ => rfl) fuel _ s3 true hw
  have h3_state : s3.usbState = (completeSetupPacket.enter env sa).usbState :=
    writeCtrlEP_frame env State.usbState (fun _ _ => rfl) (fun _ _ _ _ _ => rfl)
      (fun _ _ _ _ => rfl) (fun _ _ _ => rfl) fuel _ s3 true hw
  have h3_USB : s3.USB = (completeSetupPacket.enter env sa).USB :=
    writeCtrlEP_frame env State.USB (fun _ _ => rfl) (fun _ _ _ _ _ => rfl)
      (fun _ _ _ _ => rfl) (fun _ _ _ => rfl) fuel _ s3 true hw
  have h3_regs := writeCtrlEP_regs env _ s3 true fuel hw
  have h3_buf : s3.inPacket = [] := hpkt
  refine ⟨_, harmed s3 true ha_arm hw, ?_, ?_, ?_, ?_, ?_⟩
  · show s3.usbState = _
    rw [h3_state, he_state, ha_state]
  · exact hpkt
  · show (s3.endpoints 0).controllerIn.STATUS &&& _ = 0
    rw [h3_regs]
    exact clearBits_and _ _
  · show s3.USB.ADDR = _
    rw [h3_USB, he_USB, ha_USB, hUSB0]
  · generalize hs1 : handleSetupPacket.clearFlag env _ = s1
    have h1_state : s1.usbState = .addressing := by
      rw [← hs1]; show s3.usbState = _; rw [h3_state, he_state, ha_state]
    have h1_packet : s1.packet env = s0.packet env := by
      apply packet_of_mem
      rw [← hs1]; show s3.mem = _; rw [h3_mem, he_mem, ha_mem]
    have h1_ctrl : s1.usbCtrlState ≠ .dataTX := by
      rw [← hs1]
      show (if _ then _ else _) ≠ _
      split <;> simp
    have hcommit : handleControllerInPacket.commit env s1 =
        { s1 with
          USB := { s1.USB with ADDR := (s0.packet env).addrL &&& env.addressMask }
          usbState := .addressed } := by
      unfold handleControllerInPacket.commit
      simp only [h1_state, h1_packet, hreq, htype, haddr, if_true, ne_eq, not_true_eq_false,
        or_self, if_false]
    rw [handleControllerInPacket_eq, hcommit]
    simp only [h1_ctrl, if_false, Option.map_some']
    exact ⟨_, rfl, rfl, rfl⟩

theorem setAddress_commit_order_witness :
    ∃ s1, handleSetupPacket keyboard 0 (setupState [0, 5, 5, 0, 0, 0, 0, 0]) = some s1 ∧
      s1.usbState = .addressing ∧ s1.inPacket = [] ∧ s1.USB.ADDR = 0 ∧
      ∃ s2, handleControllerInPacket keyboard 0 s1 = some s2 ∧
        s2.USB.ADDR = 5 ∧ s2.usbState = .addressed := by
  obtain ⟨s1, h1, h2, h3, _, h5, s2, h6, h7, h8⟩ :=
    setAddress_commit_order keyboard (setupState [0, 5, 5, 0, 0, 0, 0, 0]) 0 0
      (by decide) (by decide) (by decide) (by decide)
  exact ⟨s1, h1, h2, h3, h5, s2, h6, h7.trans (by decide), h8⟩

/-- C12: an inconsistent address commit. When `handleControllerInPacket` runs with Device
State `addressing` and the stored setup packet is not a standard-type SET_ADDRESS or its
address has a non-zero high byte, the address bits of the address register are cleared
and the Device State is `waiting` in every state the handler returns; the handler
returns when the Control State is not `dataTX`, when the reply is from one contiguous
buffer, and, with enough fuel, when a multi-part transfer is under way. -/
theorem inconsistent_address_commit (env : Env) (s : State)
    (hstate : s.usbState = .addressing)
    (hpkt : (s.packet env).type ≠ 0 ∨ (s.packet env).request ≠ request_t.setAddress ∨
      (s.packet env).addrH ≠ 0) :
    (∀ fuel s', handleControllerInPacket env fuel s = some s' →
      s'.USB.ADDR = clearBits s.USB.ADDR env.addressMask ∧
      s'.USB.ADDR &&& env.addressMask = 0 ∧ s'.usbState = .waiting) ∧
    (s.usbCtrlState ≠ .dataTX ∨ (s.epStatusControllerIn 0).isMultiPart = false →
      ∀ fuel, ∃ s', handleControllerInPacket env fuel s = some s') ∧
    (∀ T j o fuel, MultiPartAt env T s j o → nullOnlyAtEnd env.flash T →
      env.epBufferSize ≤ 255 → env.epBufferSize + T.count ≤ fuel →
      ∃ s', handleControllerInPacket env fuel s = some s') := by
  have hcommit : handleControllerInPacket.commit env s =
      { s with
        USB := { s.USB with ADDR := clearBits s.USB.ADDR env.addressMask }
        usbState := .waiting } := by
    unfold handleControllerInPacket.commit
    simp only [hstate, hpkt, if_true]
  generalize hsc : handleControllerInPacket.commit env s = sc at hcommit
  have hc_USB : sc.USB.ADDR = clearBits s.USB.ADDR env.addressMask := by rw [hcommit]
  have hc_state : sc.usbState = .waiting := by rw [hcommit]
  have hc_ctrl : sc.usbCtrlState = s.usbCtrlState := by rw [hcommit]
  have hc_In : sc.epStatusControllerIn = s.epStatusControllerIn := by rw [hcommit]
  have hc_mem : sc.mem = s.mem := by rw [hcommit]
  have hret : ∀ fuel r, writeCtrlEP env fuel sc = some r →
      ∃ s', handleControllerInPacket env fuel s = some s' := by
    intro fuel r hr
    rw [handleControllerInPacket_eq, hsc]
    split
    · rw [hr]
      obtain ⟨b, s2⟩ := r
      cases b <;> exact ⟨_, rfl⟩
    · exact ⟨_, rfl⟩
  refine ⟨?_, ?_, ?_⟩
  · intro fuel s' h
    rw [handleControllerInPacket_eq, hsc] at h
    have key : s'.USB = sc.USB ∧ s'.usbState = sc.usbState := by
      split at h
      · split at h
        · cases h
        · rename_i s2 hw
          simp only [Option.map_some', Option.some.injEq] at h
          subst h
          exact ⟨writeCtrlEP_frame env State.USB (fun _ _ => rfl) (fun _ _ _ _ _ => rfl)
              (fun _ _ _ _ => rfl) (fun _ _ _ => rfl) fuel _ s2 true hw,
            writeCtrlEP_frame env State.usbState (fun _ _ => rfl) (fun _ _ _ _ _ => rfl)
              (fun _ _ _ _ => rfl) (fun _ _ _ => rfl) fuel _ s2 true hw⟩
        · rename_i s2 hw
          simp only [Option.map_some', Option.some.injEq] at h
          subst h
          exact ⟨writeCtrlEP_frame env State.USB (fun _ _ => rfl) (fun _ _ _ _ _ => rfl)
              (fun _ _ _ _ => rfl) (fun _ _ _ => rfl) fuel _ s2 false hw,
            writeCtrlEP_frame env State.usbState (fun _ _ => rfl) (fun _ _ _ _ _ => rfl)
              (fun _ _ _ _ => rfl) (fun _ _ _ => rfl) fuel _ s2 false hw⟩
      · simp only [Option.map_some', Option.some.injEq] at h
        subst h
        exact ⟨rfl, rfl⟩
    rw [key.1, key.2, hc_USB]
    exact ⟨rfl, clearBits_and _ _, hc_state⟩
  · intro h fuel
    rcases h with h | h
    · rw [handleControllerInPacket_eq, hsc]
      simp only [hc_ctrl, h, if_false, Option.map_some']
      exact ⟨_, rfl⟩
    · obtain ⟨r, hr⟩ := writeCtrlEP_single_returns env sc fuel (by rw [hc_In]; exact h)
      exact hret fuel r hr
  · intro T j o fuel hinv hnull hP hfuel
    obtain ⟨s2, hr, _⟩ := writeCtrlEP_multiPart env T sc j o hP
      (MultiPartAt_congr env T s sc j o hc_In hc_mem hinv) hnull fuel hfuel
    exact hret fuel _ hr

theorem inconsistent_address_commit_witness :
    ∃ s', handleControllerInPacket keyboard 0 (addressingState [0, 5, 5, 1, 0, 0, 0, 0]) =
        some s' ∧
      s'.USB.ADDR = 0 ∧ s'.usbState = .waiting := by
  have h := inconsistent_address_commit keyboard (addressingState [0, 5, 5, 1, 0, 0, 0, 0]) rfl
    (by decide)
  obtain ⟨s', hs'⟩ := h.2.1 (Or.inl (by decide)) 0
  obtain ⟨ha, _, hst⟩ := h.1 0 s' hs'
  exact ⟨s', hs', ha.trans (by decide), hst⟩

/-- C13: SET_CONFIGURATION(0) unconfigures. From every state, `handleSetConfiguration`
with configuration value 0 returns true, the active configuration is 0 and the Device
State `addressed` afterwards, and the endpoints are as `resetEPs(user)` left them: no
endpoint is set up; for the request SET_CONFIGURATION the responder's outcome is the
zero-length acknowledgement. -/
theorem setConfiguration_zero (env : Env) (s : State)
    (hcfg : (s.packet env).asConfiguration = 0) :
    handleSetConfiguration env s =
      (true, { resetEPsUser env s with
        mem := Function.update s.mem env.addrActiveConfig 0, usbState := .addressed }) ∧
    (handleSetConfiguration env s).2.activeConfig env = 0 ∧
    (handleSetConfiguration env s).2.usbState = .addressed ∧
    (handleSetConfiguration env s).2.endpoints = (resetEPsUser env s).endpoints ∧
    ((s.packet env).request = request_t.setConfiguration →
      (handleStandardRequest env s).1.response = .zeroLength ∧
      (handleStandardRequest env s).2 = (handleSetConfiguration env s).2) := by
  have hp : (resetEPsUser env s).packet env = s.packet env := packet_of_mem env _ _ rfl
  have h : handleSetConfiguration env s =
      (true, { resetEPsUser env s with
        mem := Function.update s.mem env.addrActiveConfig 0, usbState := .addressed }) := by
    unfold handleSetConfiguration
    simp only [hp, hcfg, State.activeConfig, Function.update_same, if_true]
    rfl
  refine ⟨h, ?_, ?_, ?_, ?_⟩
  · rw [h]
    simp only [State.activeConfig, Function.update_same]
  · rw [h]
  · rw [h]
  · intro hreq
    unfold handleStandardRequest
    simp [hreq, h, request_t.setConfiguration, request_t.setAddress, request_t.getDescriptor]

theorem setConfiguration_zero_witness :
    (handleSetConfiguration keyboard (packetState [0, 9, 0, 0, 0, 0, 0, 0])).1 = true ∧
    (handleSetConfiguration keyboard (packetState [0, 9, 0, 0, 0, 0, 0, 0])).2.activeConfig
      keyboard = 0 ∧
    (handleSetConfiguration keyboard (packetState [0, 9, 0, 0, 0, 0, 0, 0])).2.usbState =
      .addressed :=
  have h := setConfiguration_zero keyboard (packetState [0, 9, 0, 0, 0, 0, 0, 0]) (by decide)
  ⟨by rw [h.1], h.2.1, h.2.2.1⟩

/-- C15: a bad configuration or interface value. For every SET_CONFIGURATION whose
configuration value is greater than `configDescriptorCount`, `handleStandardRequest`
returns `stall` and the active configuration and the Device State are as before (the
state is the one `resetEPs(user)` leaves); for every SET_INTERFACE it returns `stall`
when the value is not 0 and the zero-length acknowledgement when the value is 0, and the
state is as before. -/
theorem bad_configuration_or_interface (env : Env) (s : State) :
    ((s.packet env).request = request_t.setConfiguration →
      (s.packet env).asConfiguration > configDescriptorCount →
      (handleStandardRequest env s).1.response = .stall ∧
      (handleStandardRequest env s).2.activeConfig env = s.activeConfig env ∧
      (handleStandardRequest env s).2.usbState = s.usbState ∧
      (handleStandardRequest env s).2 = resetEPsUser env s) ∧
    ((s.packet env).request = request_t.setInterface → (s.packet env).value ≠ 0 →
      (handleStandardRequest env s).1.response = .stall ∧
      (handleStandardRequest env s).2 = s) ∧
    ((s.packet env).request = request_t.setInterface → (s.packet env).value = 0 →
      (handleStandardRequest env s).1.response = .zeroLength ∧
      (handleStandardRequest env s).2 = s) := by
  refine ⟨?_, ?_, ?_⟩
  · intro hreq hcfg
    have hp : (resetEPsUser env s).packet env = s.packet env := packet_of_mem env _ _ rfl
    have h : handleSetConfiguration env s = (false, resetEPsUser env s) := by
      unfold handleSetConfiguration
      simp only [hp, hcfg, if_true]
    have hr : handleStandardRequest env s = (⟨.stall, 0, 0, .sram⟩, resetEPsUser env s) := by
      unfold handleStandardRequest
      simp [hreq, h, request_t.setConfiguration, request_t.setAddress, request_t.getDescriptor]
    rw [hr]
    exact ⟨rfl, rfl, rfl, rfl⟩
  · intro hreq hval
    have hr : handleStandardRequest env s = (⟨.stall, 0, 0, .sram⟩, s) := by
      unfold handleStandardRequest
      simp [hreq, hval, request_t.setInterface, request_t.setConfiguration,
        request_t.setAddress, request_t.getDescriptor, request_t.getConfiguration,
        request_t.getInterface]
    rw [hr]
    exact ⟨rfl, rfl⟩
  · intro hreq hval
    have hr : handleStandardRequest env s = (⟨.zeroLength, 0, 0, .sram⟩, s) := by
      unfold handleStandardRequest
      simp [hreq, hval, request_t.setInterface, request_t.setConfiguration,
        request_t.setAddress, request_t.getDescriptor, request_t.getConfiguration,
        request_t.getInterface]
    rw [hr]
    exact ⟨rfl, rfl⟩

/-- C16: a stall on unsupported requests. For every complete setup packet for which the
responder's outcome is `stall` or `unhandled`, `handleSetupPacket` returns, having set
the stall bit in the control register of endpoint 0 IN; no IN packet is armed (nothing
is armed in the Transfer Status and the count and status registers of endpoint 0 IN are
as before) and the Control State is `idle`. Every request code outside SET_ADDRESS,
GET_DESCRIPTOR, GET/SET_CONFIGURATION and GET/SET_INTERFACE has the outcome
`unhandled`. -/
theorem stall_on_rejected_request (env : Env) (s : State) (fuel : Nat)
    (hcnt : 8 ≤ (s.endpoints 0).controllerOut.CNT)
    (hresp :
      (handleStandardRequest env
        (handleSetupPacket.reset (handleSetupPacket.read env s).2)).1.response = .stall ∨
      (handleStandardRequest env
        (handleSetupPacket.reset (handleSetupPacket.read env s).2)).1.response = .unhandled) :
    (∃ s', handleSetupPacket env fuel s = some s' ∧
      (s'.endpoints 0).controllerIn.CTRL =
        setBits (s.endpoints 0).controllerIn.CTRL env.usbEPCtrlStall ∧
      (env.usbEPCtrlStall < 256 →
        (s'.endpoints 0).controllerIn.CTRL &&& env.usbEPCtrlStall = env.usbEPCtrlStall) ∧
      (s'.epStatusControllerIn 0).needsArming = false ∧
      (s'.endpoints 0).controllerIn.CNT = (s.endpoints 0).controllerIn.CNT ∧
      (s'.endpoints 0).controllerIn.STATUS = (s.endpoints 0).controllerIn.STATUS ∧
      s'.usbCtrlState = .idle) ∧
    (∀ s0 : State,
      (s0.packet env).request ≠ request_t.setAddress →
      (s0.packet env).request ≠ request_t.getDescriptor →
      (s0.packet env).request ≠ request_t.setConfiguration →
      (s0.packet env).request ≠ request_t.getConfiguration →
      (s0.packet env).request ≠ request_t.getInterface →
      (s0.packet env).request ≠ request_t.setInterface →
      (handleStandardRequest env s0).1.response = .unhandled) := by
  refine ⟨?_, ?_⟩
  swap
  · intro s0 h5 h6 h9 h8 h10 h11
    rw [handleStandardRequest_unknown env s0 h5 h6 h9 h8 h10 h11]
    rfl
  have hflag : (handleSetupPacket.read env s).1 = true := by
    rw [read_flag]; exact decide_eq_true hcnt
  have h0_In : ((handleSetupPacket.read env s).2.endpoints 0).controllerIn =
      (s.endpoints 0).controllerIn :=
    read_frame env (fun s => (s.endpoints 0).controllerIn) (fun _ _ => rfl)
      (fun _ _ _ _ => rfl) (fun _ _ _ => by simp only [setEPOut_In]) s
  have hs' : handleSetupPacket env fuel s =
      (completeSetupPacket env fuel (handleSetupPacket.arm env (handleSetupPacket.read env s).2)).map
        (handleSetupPacket.clearFlag env) := by
    unfold handleSetupPacket
    simp only [hflag, Bool.not_true, Bool.false_eq_true, if_false]
  generalize (handleSetupPacket.read env s).2 = s0 at *
  have hr_ep : (handleStandardRequest env (handleSetupPacket.reset s0)).2.endpoints 0 =
      s0.endpoints 0 := by
    rcases handleStandardRequest_rejected env _ hresp with h | h
    · rw [h]; rfl
    · rw [h]
      unfold resetEPsUser
      simp
      rfl
  have hr_Out : (handleStandardRequest env (handleSetupPacket.reset s0)).2.epStatusControllerOut =
      (handleSetupPacket.reset s0).epStatusControllerOut := by
    rcases handleStandardRequest_rejected env _ hresp with h | h
    · rw [h]
    · rw [h]; rfl
  have ha_arm : ((handleSetupPacket.arm env s0).epStatusControllerIn 0).needsArming = false := by
    rw [arm_needsArming]
    rcases hresp with h | h <;> rw [h] <;> simp
  have ha_stall : ((handleSetupPacket.arm env s0).epStatusControllerIn 0).stall = true := by
    rw [arm_stall]
    rcases hresp with h | h <;> rw [h] <;> simp
  have ha_Out : ((handleSetupPacket.arm env s0).epStatusControllerOut 0).needsArming = false := by
    rw [arm_frame env State.epStatusControllerOut (fun _ _ => rfl), hr_Out]
    unfold handleSetupPacket.reset
    simp only [setOut0_Out0]
  have ha_ep : ((handleSetupPacket.arm env s0).endpoints 0).controllerIn =
      (s.endpoints 0).controllerIn := by
    rw [arm_frame env State.endpoints (fun _ _ => rfl), hr_ep, h0_In]
  rw [hs', completeSetupPacket_stall env fuel _ ha_arm ha_Out ha_stall]
  generalize handleSetupPacket.arm env s0 = sa at *
  refine ⟨_, rfl, ?_, ?_, ?_, ?_, ?_, rfl⟩
  · simp only [handleSetupPacket.clearFlag, setEPIn_In, setEPOut_In, ha_ep]
  · intro hm
    simp only [handleSetupPacket.clearFlag, setEPIn_In, setEPOut_In]
    exact setBits_and _ _ hm
  · simp only [handleSetupPacket.clearFlag, setEPIn_epStatusControllerIn,
      setEPOut_epStatusControllerIn, ha_arm]
  · simp only [handleSetupPacket.clearFlag, setEPIn_In, setEPOut_In, ha_ep]
  · simp only [handleSetupPacket.clearFlag, setEPIn_In, setEPOut_In, ha_ep]

theorem stall_on_rejected_request_witness :
    ∃ s', handleSetupPacket keyboard 0 (setupState [0, 3, 0, 0, 0, 0, 0, 0]) = some s' ∧
      (s'.endpoints 0).controllerIn.CTRL = 4 ∧
      (s'.epStatusControllerIn 0).needsArming = false ∧ s'.usbCtrlState = .idle := by
  obtain ⟨s', h1, h2, _, h4, _, _, h7⟩ :=
    (stall_on_rejected_request keyboard (setupState [0, 3, 0, 0, 0, 0, 0, 0]) 0
      (by decide) (Or.inr (by decide))).1
  exact ⟨s', h1, h2.trans (by decide), h4, h7⟩

/-- C17: a truncated setup packet. For every received byte count below 8,
`handleSetupPacket` sets the stall bit in the control register of endpoint 0 IN and
returns the state the read left, without a call of the responder: the Control State, the
Device State, the Transfer Status of endpoint 0 IN and, `activeConfig` lying outside the
8 bytes of `packet`, the active configuration are as before. -/
theorem truncated_setup_packet (env : Env) (s : State) (fuel : Nat)
    (hcnt : (s.endpoints 0).controllerOut.CNT < 8)
    (hlayout : env.addrActiveConfig < env.addrPacket ∨
      env.addrPacket + 8 ≤ env.addrActiveConfig) :
    ∃ s', handleSetupPacket env fuel s = some s' ∧
      s' = (handleSetupPacket.read env s).2.setEPIn 0
        (fun ep0 => { ep0 with CTRL := setBits ep0.CTRL env.usbEPCtrlStall }) ∧
      (s'.endpoints 0).controllerIn.CTRL =
        setBits (s.endpoints 0).controllerIn.CTRL env.usbEPCtrlStall ∧
      (env.usbEPCtrlStall < 256 →
        (s'.endpoints 0).controllerIn.CTRL &&& env.usbEPCtrlStall = env.usbEPCtrlStall) ∧
      s'.usbCtrlState = s.usbCtrlState ∧ s'.usbState = s.usbState ∧
      s'.activeConfig env = s.activeConfig env ∧
      s'.epStatusControllerIn = s.epStatusControllerIn := by
  have hflag : (handleSetupPacket.read env s).1 = false := by
    rw [read_flag]; exact decide_eq_false (by omega)
  have h0_In : ((handleSetupPacket.read env s).2.endpoints 0).controllerIn =
      (s.endpoints 0).controllerIn :=
    read_frame env (fun s => (s.endpoints 0).controllerIn) (fun _ _ => rfl)
      (fun _ _ _ _ => rfl) (fun _ _ _ => by simp only [setEPOut_In]) s
  have h0_ctrl : (handleSetupPacket.read env s).2.usbCtrlState = s.usbCtrlState :=
    read_frame env State.usbCtrlState (fun _ _ => rfl) (fun _ _ _ _ => rfl) (fun _ _ _ => rfl) s
  have h0_state : (handleSetupPacket.read env s).2.usbState = s.usbState :=
    read_frame env State.usbState (fun _ _ => rfl) (fun _ _ _ _ => rfl) (fun _ _ _ => rfl) s
  have h0_st : (handleSetupPacket.read env s).2.epStatusControllerIn = s.epStatusControllerIn :=
    read_frame env State.epStatusControllerIn (fun _ _ => rfl) (fun _ _ _ _ => rfl)
      (fun _ _ _ => rfl) s
  have h0_mem : (handleSetupPacket.read env s).2.mem env.addrActiveConfig =
      s.mem env.addrActiveConfig := by
    rw [read_mem, if_neg]
    omega
  have hs' : handleSetupPacket env fuel s = some ((handleSetupPacket.read env s).2.setEPIn 0
      (fun ep0 => { ep0 with CTRL := setBits ep0.CTRL env.usbEPCtrlStall })) := by
    unfold handleSetupPacket
    simp only [hflag, Bool.not_false, if_true]
  refine ⟨_, hs', rfl, ?_, ?_, ?_, ?_, ?_, ?_⟩
  · simp only [setEPIn_In, h0_In]
  · intro hm
    simp only [setEPIn_In]
    exact setBits_and _ _ hm
  · simp only [setEPIn_usbCtrlState, h0_ctrl]
  · simp only [setEPIn_usbState, h0_state]
  · simp only [State.activeConfig, setEPIn_mem, h0_mem]
  · simp only [setEPIn_epStatusControllerIn, h0_st]

theorem truncated_setup_packet_witness :
    ∃ s', handleSetupPacket keyboard 0
        { setupState [0, 9, 1, 0, 0, 0, 0, 0] with
          endpoints := fun _ => ⟨⟨0x10, 0, 7⟩, ⟨0, 0, 0⟩⟩ } = some s' ∧
      (s'.endpoints 0).controllerIn.CTRL = 4 ∧ s'.usbCtrlState = .idle ∧
      s'.usbState = .waiting := by
  obtain ⟨s', h1, _, h3, _, h5, h6, _, _⟩ :=
    truncated_setup_packet keyboard
      { setupState [0, 9, 1, 0, 0, 0, 0, 0] with
        endpoints := fun _ => ⟨⟨0x10, 0, 7⟩, ⟨0, 0, 0⟩⟩ } 0 (by decide) (by decide)
  exact ⟨s', h1, h3.trans (by decide), h5, h6⟩

/-- C18: a bus reset. For every state that is not suspended, or with the resume flag set
in the event, a bus event with the reset flag set and bus-event interrupts enabled ends
with the stall bit of the IN and the OUT control register of every endpoint cleared, the
address bits of the address register 0 and Device State `waiting`, after `reset` had set
it to `attached`. -/
theorem bus_reset (env : Env) (s : State)
    (hawake : s.usbSuspended = false ∨ s.USB.INTFLAGSA &&& env.itrStatusResume ≠ 0)
    (hreset : s.USB.INTFLAGSA &&& env.itrStatusReset ≠ 0)
    (hen : s.USB.INTCTRLA &&& env.intCtrlAEnableBusEvent ≠ 0) :
    (∀ i, i < env.endpointCount →
      ((usbBusEvtIRQ env s).endpoints i).controllerIn.CTRL &&& env.usbEPCtrlStall = 0 ∧
      ((usbBusEvtIRQ env s).endpoints i).controllerOut.CTRL &&& env.usbEPCtrlStall = 0) ∧
    (usbBusEvtIRQ env s).USB.ADDR &&& env.addressMask = 0 ∧
    (usbBusEvtIRQ env s).usbState = .waiting ∧
    ∃ s2, usbBusEvtIRQ env s = { core.reset env s2 with usbState := .waiting } ∧
      (core.reset env s2).usbState = .attached := by
  have key : ∃ s2, usbBusEvtIRQ env s = { core.reset env s2 with usbState := .waiting } := by
    unfold usbBusEvtIRQ
    dsimp only
    have hsus : (if s.usbState = .attached then { s with usbState := .powered } else s).usbSuspended
        = s.usbSuspended := by split <;> rfl
    rw [hsus]
    by_cases hres : s.USB.INTFLAGSA &&& env.itrStatusResume ≠ 0
    · simp only [hres, hen, hreset, ne_eq, not_false_eq_true, and_self, decide_True,
        Bool.not_true, Bool.false_eq_true, false_and, if_false, if_true]
      exact ⟨_, rfl⟩
    · have hs : s.usbSuspended = false := by
        rcases hawake with h | h
        · exact h
        · exact absurd h hres
      simp only [hres, hen, hreset, hs, ne_eq, not_false_eq_true, and_self, decide_True,
        false_and, decide_False, Bool.not_false, Bool.false_eq_true, and_false, if_false, if_true]
      exact ⟨_, rfl⟩
  obtain ⟨s2, h⟩ := key
  rw [h]
  refine ⟨fun i hi => reset_stall env s2 i hi, (reset_addr env s2).1, rfl, s2, rfl,
    (reset_addr env s2).2.2⟩

theorem bus_reset_witness :
    ((usbBusEvtIRQ keyboard (busEventState .addressed false 0x40 0x10)).endpoints 1).controllerIn.CTRL
      &&& 4 = 0 ∧
    (usbBusEvtIRQ keyboard (busEventState .addressed false 0x40 0x10)).USB.ADDR &&& 0x7F = 0 ∧
    (usbBusEvtIRQ keyboard (busEventState .addressed false 0x40 0x10)).usbState = .waiting :=
  have h := bus_reset keyboard (busEventState .addressed false 0x40 0x10) (Or.inl rfl)
    (by decide) (by decide)
  ⟨(h.1 1 (by decide)).1, h.2.1, h.2.2.1⟩

/-- C20 fails as stated. The setup packet of SET_ADDRESS(5), whose outcome is the
zero-length acknowledgement, leaves the Control State `idle`, not `statusRX`. And for the
setup packet of GET_DESCRIPTOR(DEVICE), whose outcome is `data` with the direction
device to host, received while a multi-part transfer is left unfinished,
`handleSetupPacket` does not return whatever the fuel: the loop of `writeCtrlEP` does
not end. -/
theorem handleSetupPacket_reply_counterexample :
    (handleStandardRequest keyboard (handleSetupPacket.reset (handleSetupPacket.read keyboard
      (setupState [0, 5, 5, 0, 0, 0, 0, 0])).2)).1.response = .zeroLength ∧
    (handleSetupPacket keyboard 0 (setupState [0, 5, 5, 0, 0, 0, 0, 0])).map State.usbCtrlState =
      some .idle ∧
    (handleStandardRequest keyboard (handleSetupPacket.reset (handleSetupPacket.read keyboard
      staleState).2)).1.response = .data ∧
    ((handleSetupPacket.read keyboard staleState).2.packet keyboard).dir = .controllerIn ∧
    ∀ fuel, handleSetupPacket keyboard fuel staleState = none := by
  refine ⟨by decide, by decide, by decide, by decide, ?_⟩
  intro fuel
  have hflag : (handleSetupPacket.read keyboard staleState).1 = true := by decide
  have harm : ((handleSetupPacket.arm keyboard
      (handleSetupPacket.read keyboard staleState).2).epStatusControllerIn 0).needsArming = true := by
    decide
  have hIn : (completeSetupPacket.enter keyboard (handleSetupPacket.arm keyboard
      (handleSetupPacket.read keyboard staleState).2)).epStatusControllerIn 0 =
      { stuckStatus 4 0x2100 with transferCount := 18 } := by
    decide
  have hstuck : ∀ w : WriteLoop,
      (w.sendAmount = 18 ∧ w.s.epStatusControllerIn 0 = stuckStatus 4 0x2100) ∨
        (w.sendAmount = 221 ∧ w.s.epStatusControllerIn 0 = stuckStatus 5 0) →
      w.sendAmount ≠ 0 ∧
        (((writeCtrlEP.body keyboard w).sendAmount = 18 ∧
            (writeCtrlEP.body keyboard w).s.epStatusControllerIn 0 = stuckStatus 4 0x2100) ∨
          ((writeCtrlEP.body keyboard w).sendAmount = 221 ∧
            (writeCtrlEP.body keyboard w).s.epStatusControllerIn 0 = stuckStatus 5 0)) := by
    intro w hw
    rcases hw with ⟨ha, hs⟩ | ⟨ha, hs⟩
    · obtain ⟨h1, h2⟩ := body_congr keyboard w (stuckLoop 4 0x2100 18) hs ha
      refine ⟨by omega, Or.inr ⟨h1.trans (by decide), h2.trans (by decide)⟩⟩
    · obtain ⟨h1, h2⟩ := body_congr keyboard w (stuckLoop 5 0 221) hs ha
      refine ⟨by omega, Or.inr ⟨h1.trans (by decide), h2.trans (by decide)⟩⟩
  unfold handleSetupPacket
  simp only [hflag, Bool.not_true, Bool.false_eq_true, if_false]
  rw [completeSetupPacket_armed keyboard fuel _ harm]
  generalize completeSetupPacket.enter keyboard _ = se at hIn
  rw [writeCtrlEP_none keyboard se fuel (by rw [hIn]; rfl)]
  · rfl
  · intro s2 hs2
    apply loop_stuck keyboard _ hstuck
    left
    rw [hIn] at hs2
    exact ⟨by rw [hIn]; rfl, hs2.trans (by decide)⟩

/-- C20, amended: for every complete setup packet, received with no multi-part transfer
left unfinished, for which the responder's outcome is `data` (with a buffer or a
multi-part table) or the zero-length acknowledgement, `handleSetupPacket` returns, having
written through `writeCtrlEP` one packet of min(armed length, max packet size) bytes;
the Control State is then `dataTX` if bytes remain and `statusRX` if the packet drained
the transfer when the direction of the request is device to host, and `statusTX` if
bytes remain and `idle` if drained when it is host to device. -/
theorem handleSetupPacket_reply (env : Env) (s : State) (fuel : Nat)
    (hP : env.epBufferSize ≤ 255) (hfuel : env.epBufferSize + 6 ≤ fuel)
    (hcnt : 8 ≤ (s.endpoints 0).controllerOut.CNT)
    (hfresh : (s.epStatusControllerIn 0).isMultiPart = false)
    (hresp :
      (handleStandardRequest env
        (handleSetupPacket.reset (handleSetupPacket.read env s).2)).1.response = .zeroLength ∨
      ((handleStandardRequest env
          (handleSetupPacket.reset (handleSetupPacket.read env s).2)).1.response = .data ∧
        ((handleStandardRequest env
            (handleSetupPacket.reset (handleSetupPacket.read env s).2)).1.data ≠ 0 ∨
          ((handleStandardRequest env (handleSetupPacket.reset
            (handleSetupPacket.read env s).2)).2.epStatusControllerIn 0).isMultiPart = true))) :
    ∃ s', handleSetupPacket env fuel s = some s' ∧
      s'.inPacket.length =
        min ((handleSetupPacket.arm env (handleSetupPacket.read env s).2).epStatusControllerIn
          0).transferCount env.epBufferSize ∧
      s'.usbCtrlState =
        (if ((handleSetupPacket.arm env (handleSetupPacket.read env s).2).packet env).dir =
            .controllerIn then
          (if ((handleSetupPacket.arm env (handleSetupPacket.read env s).2).epStatusControllerIn
              0).transferCount ≤ env.epBufferSize then .statusRX else .dataTX)
        else
          (if ((handleSetupPacket.arm env (handleSetupPacket.read env s).2).epStatusControllerIn
              0).transferCount ≤ env.epBufferSize then .idle else .statusTX)) := by
  have h0_In : (handleSetupPacket.read env s).2.epStatusControllerIn = s.epStatusControllerIn :=
    read_frame env State.epStatusControllerIn (fun _ _ => rfl) (fun _ _ _ _ => rfl)
      (fun _ _ _ => rfl) s
  have harmed := fun s3 b => handleSetupPacket_armed env fuel s s3 b hcnt
  generalize (handleSetupPacket.read env s).2 = s0 at *
  have ha_arm : ((handleSetupPacket.arm env s0).epStatusControllerIn 0).needsArming = true := by
    rw [arm_needsArming]
    rcases hresp with h | ⟨h, h' | h'⟩
    · rw [h]; simp
    · rw [h]; simp [h']
    · rw [h]; simp [h']
  obtain ⟨⟨b, s3⟩, hw⟩ := armed_write_returns env s0 fuel hP hfuel (by rw [h0_In]; exact hfresh)
  have he_In : (completeSetupPacket.enter env (handleSetupPacket.arm env s0)).epStatusControllerIn =
      (handleSetupPacket.arm env s0).epStatusControllerIn :=
    enter_frame env State.epStatusControllerIn (fun _ _ _ => rfl) _
  obtain ⟨hlen, hb⟩ := writeCtrlEP_count env _ s3 b fuel hw
  have hregs := writeCtrlEP_regs env _ s3 b fuel hw
  rw [he_In] at hlen hregs
  have hpl : s3.inPacket.length = (s3.endpoints 0).controllerIn.CNT := by
    unfold State.inPacket
    simp only [List.length_map, List.length_range]
  generalize ((handleSetupPacket.arm env s0).epStatusControllerIn 0).transferCount = armed at *
  have hsc : (if armed < env.epBufferSize then armed % 256 else env.epBufferSize % 256) =
      min armed env.epBufferSize := by
    split <;> omega
  have hlen3 : s3.inPacket.length = min armed env.epBufferSize := by
    rw [hpl, hregs]
    exact hsc
  have hb' : b = decide (armed ≤ env.epBufferSize) := by
    rw [hb]
    have : (s3.epStatusControllerIn 0).transferCount = armed - min armed env.epBufferSize := by
      omega
    rw [this]
    by_cases hle : armed ≤ env.epBufferSize
    · have h0 : armed - min armed env.epBufferSize = 0 := by omega
      simp [hle, h0]
    · have h0 : armed - min armed env.epBufferSize ≠ 0 := by omega
      simp [hle, h0]
  refine ⟨_, harmed s3 b ha_arm hw, ?_, ?_⟩
  · exact hlen3
  · show (if _ then (if b = true then _ else _) else (if b = true then _ else _)) = _
    rw [hb']
    simp only [decide_eq_true_eq]

theorem handleSetupPacket_reply_witness :
    ∃ s', handleSetupPacket keyboard8 14 (setupState [0x80, 6, 0, 2, 0, 0, 34, 0]) = some s' ∧
      s'.inPacket.length = 8 ∧ s'.usbCtrlState = .dataTX := by
  obtain ⟨s', h1, h2, h3⟩ :=
    handleSetupPacket_reply keyboard8 (setupState [0x80, 6, 0, 2, 0, 0, 34, 0]) 14
      (by decide) (by decide) (by decide) (by decide)
      (Or.inr ⟨by decide, Or.inr (by decide)⟩)
  exact ⟨s', h1, h2.trans (by decide), h3.trans (by decide)⟩

/-- SET_CONFIGURATION(1) with the fragment records of `usbConfigSecs` in the store and
the endpoint descriptor `usbEndpointDesc[0]` in memory, when neither the second byte of
one of the four other descriptors nor the byte at address 1, which the walk reads as the
type of the sixth, zero-initialised fragment, is the type of an endpoint descriptor: the
walk takes exactly the fifth fragment for an endpoint descriptor and the one call of
`setupEndpoint` sets the count of endpoint 1 IN to 0 and its control register to the
bulk type with the size code of the max packet size. -/
theorem handleSetConfiguration_one_endpoint (env : Env) (s : State)
    (htab : env.staticTables)
    (hcfg : (s.packet env).asConfiguration = 1)
    (hdesc : readEndpointDescriptor (Function.update s.mem env.addrActiveConfig 1)
      env.addrEndpointDesc = usbEndpointDesc env 0)
    (hc : Function.update s.mem env.addrActiveConfig 1 (env.addrConfigDesc + 1) % 256 ≠
      usbDescriptor_t.endpoint.toNat)
    (hi : Function.update s.mem env.addrActiveConfig 1 (env.addrInterfaceDesc + 1) % 256 ≠
      usbDescriptor_t.endpoint.toNat)
    (hk : Function.update s.mem env.addrActiveConfig 1 (env.addrKeyboardDesc + 1) % 256 ≠
      usbDescriptor_t.endpoint.toNat)
    (hr : Function.update s.mem env.addrActiveConfig 1 (env.addrKeyboardReportDesc + 1) % 256 ≠
      usbDescriptor_t.endpoint.toNat)
    (hnull : Function.update s.mem env.addrActiveConfig 1 1 % 256 ≠
      usbDescriptor_t.endpoint.toNat) :
    handleSetConfiguration.endpointParts env (Function.update s.mem env.addrActiveConfig 1)
      (usbConfigDescriptors env 0) = [env.posConfigSecs + 4] ∧
    handleSetConfiguration env s =
      (true, State.setEPIn
        { resetEPsUser env s with mem := Function.update s.mem env.addrActiveConfig 1 } 1
        (fun ep =>
          { ep with
            CNT := 0
            CTRL := USB_EP_TYPE_BULK_gc ||| endpoint.mapMaxSize env.epBufferSize })) := by
  have he : Function.update s.mem env.addrActiveConfig 1 (env.addrEndpointDesc + 1) % 256 =
      usbDescriptor_t.endpoint.toNat := by
    have := congrArg usbEndpointDescriptor_t.descriptorType hdesc
    simpa [readEndpointDescriptor, usbEndpointDesc] using this
  have hparts : handleSetConfiguration.endpointParts env
      (Function.update s.mem env.addrActiveConfig 1) (usbConfigDescriptors env 0) =
      [env.posConfigSecs + 4] := by
    obtain ⟨hflash, _⟩ := htab
    have f0 := hflash 0 (by omega)
    have f1 := hflash 1 (by omega)
    have f2 := hflash 2 (by omega)
    have f3 := hflash 3 (by omega)
    have f4 := hflash 4 (by omega)
    have f5 := hflash 5 (by omega)
    simp only [usbConfigSecs, List.getD_cons_zero, List.getD_cons_succ, Nat.add_zero] at f0 f1 f2 f3 f4 f5
    unfold handleSetConfiguration.endpointParts
    have hr6 : (usbConfigDescriptors env 0)._end - (usbConfigDescriptors env 0)._begin = 6 := by
      simp [usbConfigDescriptors]
    have hb : (usbConfigDescriptors env 0)._begin = env.posConfigSecs := by
      simp [usbConfigDescriptors]
    have hl : List.range' env.posConfigSecs 6 =
        [env.posConfigSecs + 0, env.posConfigSecs + 1, env.posConfigSecs + 2,
          env.posConfigSecs + 3, env.posConfigSecs + 4, env.posConfigSecs + 5] := by
      simp [List.range']
    rw [hr6, hb, hl]
    generalize Function.update s.mem env.addrActiveConfig 1 = m at hc hi hk hr hnull he ⊢
    simp only [List.filter_cons, List.filter_nil, f0, f1, f2, f3, f4, f5, Nat.add_zero,
      Nat.zero_add, decide_eq_true_eq, hc, hi, hk, hr, hnull, he, if_true, if_false]
  have hse : ∀ s0 : State, setupEndpoint s0 (usbEndpointDesc env 0) =
      s0.setEPIn 1 (fun ep =>
        { ep with
          CNT := 0
          CTRL := USB_EP_TYPE_BULK_gc ||| endpoint.mapMaxSize env.epBufferSize }) := by
    intro s0
    have h1 : (usbEndpointDesc env 0).endpointType = 3 := rfl
    have h2 : (usbEndpointDesc env 0).endpointAddress = 0x81 := rfl
    have h3 : (usbEndpointDesc env 0).maxPacketSize = env.epBufferSize := rfl
    unfold setupEndpoint
    rw [h1, h2, h3]
    rfl
  refine ⟨hparts, ?_⟩
  rw [handleSetConfiguration_walk env s (by rw [hcfg]; decide) (by rw [hcfg]; decide)]
  simp only [hcfg, Nat.sub_self, hparts, List.foldl_cons, List.foldl_nil]
  obtain ⟨hflash, _⟩ := htab
  have f4 := hflash 4 (by omega)
  simp only [usbConfigSecs, List.getD_cons_zero, List.getD_cons_succ] at f4
  rw [f4]
  dsimp only
  rw [hdesc, hse]

theorem handleSetConfiguration_one_endpoint_witness :
    handleSetConfiguration.endpointParts keyboard
      (Function.update (configState []).mem keyboard.addrActiveConfig 1)
      (usbConfigDescriptors keyboard 0) = [4] ∧
    ((handleSetConfiguration keyboard (configState [])).2.endpoints 1).controllerIn =
      ⟨0, 0x83, 0⟩ := by
  have h := handleSetConfiguration_one_endpoint keyboard (configState []) (by decide)
    (by decide) (by decide) (by decide) (by decide) (by decide) (by decide) (by decide)
  refine ⟨h.1, ?_⟩
  rw [h.2]
  decide

/-! ## Claims C21 to C29 -/

/-- C21 fails as stated. The setup packet of a GET_CONFIGURATION with the direction host
to device has the outcome `data`; `handleSetupPacket` does not arm endpoint 0 OUT but
sends the byte in an IN packet, and the Control State is `idle`, not `dataRX`. -/
theorem handleSetupPacket_dataRX_counterexample :
    (handleStandardRequest keyboard (handleSetupPacket.reset (handleSetupPacket.read keyboard
      (setupState [0, 8, 0, 0, 0, 0, 1, 0])).2)).1.response = .data ∧
    ((handleSetupPacket.read keyboard (setupState [0, 8, 0, 0, 0, 0, 1, 0])).2.packet
      keyboard).dir = .controllerOut ∧
    (handleSetupPacket keyboard 0 (setupState [0, 8, 0, 0, 0, 0, 1, 0])).map
        (fun s => (s.usbCtrlState, (s.epStatusControllerOut 0).needsArming, s.inPacket)) =
      some (.idle, false, [8]) := by
  decide

/-- C21, amended: for every complete setup packet, received with no multi-part transfer
left unfinished, for which the responder's outcome is `data` with a buffer and the
direction of the request is host to device, `handleSetupPacket` returns without arming
endpoint 0 OUT: nothing is armed in the OUT Transfer Status, the data are sent in an IN
packet of min(armed length, max packet size) bytes, and the Control State is `statusTX`
if bytes remain and `idle` if the packet drained the transfer, never `dataRX`. -/
theorem handleSetupPacket_host_to_device_data (env : Env) (s : State) (fuel : Nat)
    (hP : env.epBufferSize ≤ 255)
    (hcnt : 8 ≤ (s.endpoints 0).controllerOut.CNT)
    (hfresh : (s.epStatusControllerIn 0).isMultiPart = false)
    (hresp : (handleStandardRequest env
      (handleSetupPacket.reset (handleSetupPacket.read env s).2)).1.response = .data)
    (hbuf : (handleStandardRequest env
      (handleSetupPacket.reset (handleSetupPacket.read env s).2)).1.data ≠ 0)
    (hdir : ((handleSetupPacket.read env s).2.packet env).dir = .controllerOut) :
    ∃ s', handleSetupPacket env fuel s = some s' ∧
      (s'.epStatusControllerOut 0).needsArming = false ∧
      s'.inPacket.length =
        min ((handleSetupPacket.arm env (handleSetupPacket.read env s).2).epStatusControllerIn
          0).transferCount env.epBufferSize ∧
      s'.usbCtrlState =
        (if ((handleSetupPacket.arm env (handleSetupPacket.read env s).2).epStatusControllerIn
            0).transferCount ≤ env.epBufferSize then .idle else .statusTX) ∧
      s'.usbCtrlState ≠ .dataRX := by
  have h0_In : (handleSetupPacket.read env s).2.epStatusControllerIn = s.epStatusControllerIn :=
    read_frame env State.epStatusControllerIn (fun _ _ => rfl) (fun _ _ _ _ => rfl)
      (fun _ _ _ => rfl) s
  have harmed := fun s3 b => handleSetupPacket_armed env fuel s s3 b hcnt
  generalize (handleSetupPacket.read env s).2 = s0 at *
  have hr_In := handleStandardRequest_In_controllerOut env (handleSetupPacket.reset s0)
    (by rw [reset_packet]; exact hdir)
  have hr_Out := handleStandardRequest_Out env (handleSetupPacket.reset s0)
  have hr_mem := handleStandardRequest_data_mem env (handleSetupPacket.reset s0) hresp
  have ha_arm : ((handleSetupPacket.arm env s0).epStatusControllerIn 0).needsArming = true := by
    rw [arm_needsArming, hresp]; simp [hbuf]
  have ha_mp : ((handleSetupPacket.arm env s0).epStatusControllerIn 0).isMultiPart = false := by
    rw [arm_isMultiPart, hr_In, reset_In0, h0_In]; exact hfresh
  have ha_Out : ((handleSetupPacket.arm env s0).epStatusControllerOut 0).needsArming = false := by
    rw [arm_frame env State.epStatusControllerOut (fun _ _ => rfl), hr_Out]
    unfold handleSetupPacket.reset
    simp only [setOut0_Out0]
  have ha_dir : ((handleSetupPacket.arm env s0).packet env).dir = .controllerOut := by
    rw [packet_of_mem env (handleSetupPacket.arm env s0) s0
      (by rw [arm_frame env State.mem (fun _ _ => rfl), hr_mem]; rfl)]
    exact hdir
  have he_In : (completeSetupPacket.enter env (handleSetupPacket.arm env s0)).epStatusControllerIn =
      (handleSetupPacket.arm env s0).epStatusControllerIn :=
    enter_frame env State.epStatusControllerIn (fun _ _ _ => rfl) _
  have he_Out : (completeSetupPacket.enter env (handleSetupPacket.arm env s0)).epStatusControllerOut =
      (handleSetupPacket.arm env s0).epStatusControllerOut :=
    enter_frame env State.epStatusControllerOut (fun _ _ _ => rfl) _
  obtain ⟨⟨b, s3⟩, hw⟩ := writeCtrlEP_single_returns env
    (completeSetupPacket.enter env (handleSetupPacket.arm env s0)) fuel
    (by rw [he_In]; exact ha_mp)
  obtain ⟨hlen, hb⟩ := writeCtrlEP_count env _ s3 b fuel hw
  have hregs := writeCtrlEP_regs env _ s3 b fuel hw
  have h3_Out : s3.epStatusControllerOut =
      (completeSetupPacket.enter env (handleSetupPacket.arm env s0)).epStatusControllerOut :=
    writeCtrlEP_frame env State.epStatusControllerOut (fun _ _ => rfl) (fun _ _ _ _ _ => rfl)
      (fun _ _ _ _ => rfl) (fun _ _ _ => rfl) fuel _ s3 b hw
  rw [he_In] at hlen hregs
  have hpl : s3.inPacket.length = (s3.endpoints 0).controllerIn.CNT := by
    unfold State.inPacket
    simp only [List.length_map, List.length_range]
  generalize ((handleSetupPacket.arm env s0).epStatusControllerIn 0).transferCount = armed at *
  have hsc : (if armed < env.epBufferSize then armed % 256 else env.epBufferSize % 256) =
      min armed env.epBufferSize := by
    split <;> omega
  have hlen3 : s3.inPacket.length = min armed env.epBufferSize := by
    rw [hpl, hregs]
    exact hsc
  have hb' : b = decide (armed ≤ env.epBufferSize) := by
    rw [hb]
    have : (s3.epStatusControllerIn 0).transferCount = armed - min armed env.epBufferSize := by
      omega
    rw [this]
    by_cases hle : armed ≤ env.epBufferSize
    · have h0 : armed - min armed env.epBufferSize = 0 := by omega
      simp [hle, h0]
    · have h0 : armed - min armed env.epBufferSize ≠ 0 := by omega
      simp [hle, h0]
  have hctrl : (if ((handleSetupPacket.arm env s0).packet env).dir = .controllerIn then
        (if b = true then ctrlState_t.statusRX else ctrlState_t.dataTX)
      else (if b = true then ctrlState_t.idle else ctrlState_t.statusTX)) =
      (if armed ≤ env.epBufferSize then ctrlState_t.idle else ctrlState_t.statusTX) := by
    rw [ha_dir, hb']
    simp
  refine ⟨_, harmed s3 b ha_arm hw, ?_, hlen3, hctrl, ?_⟩
  · show (s3.epStatusControllerOut 0).needsArming = false
    rw [h3_Out, he_Out]
    exact ha_Out
  · show (if _ then (if b = true then _ else _) else (if b = true then _ else _)) ≠ _
    rw [hctrl]
    split <;> decide

theorem handleSetupPacket_host_to_device_data_witness :
    ∃ s', handleSetupPacket keyboard 0 (setupState [0, 10, 0, 0, 0, 0, 1, 0]) = some s' ∧
      (s'.epStatusControllerOut 0).needsArming = false ∧ s'.inPacket.length = 1 ∧
      s'.usbCtrlState = .idle := by
  obtain ⟨s', h1, h2, h3, h4, _⟩ :=
    handleSetupPacket_host_to_device_data keyboard (setupState [0, 10, 0, 0, 0, 0, 1, 0]) 0
      (by decide) (by decide) (by decide) (by decide) (by decide) (by decide)
  exact ⟨s', h1, h2, h3.trans (by decide), h4.trans (by decide)⟩

/-- C22 fails as stated. In `envNullHang`, where the second fragment of the configuration
table is empty with a null data pointer and packets hold one byte, `handleSetupPacket`
answers GET_DESCRIPTOR(CONFIGURATION) of 2 bytes with the packet of the first byte and
leaves the Control State `dataTX` with one byte remaining; on the following IN0
completion `handleControllerInPacket` produces no packet: it does not return, whatever
the fuel. -/
theorem io_complete_counterexample :
    (handleSetupPacket envNullHang 8 (setupState [0x80, 6, 0, 2, 0, 0, 2, 0])).map
        (fun s => (s.usbCtrlState, s.inPacket, s.epStatusControllerIn 0)) =
      some (.dataTX, [16], nullCursorStatus) ∧
    ∀ fuel, (handleSetupPacket envNullHang 8 (setupState [0x80, 6, 0, 2, 0, 0, 2, 0])).bind
      (handleControllerInPacket envNullHang fuel) = none := by
  have h : (handleSetupPacket envNullHang 8 (setupState [0x80, 6, 0, 2, 0, 0, 2, 0])).map
      (fun s => (s.usbCtrlState, s.inPacket, s.epStatusControllerIn 0)) =
      some (.dataTX, [16], nullCursorStatus) := by decide
  refine ⟨h, ?_⟩
  intro fuel
  cases hs : handleSetupPacket envNullHang 8 (setupState [0x80, 6, 0, 2, 0, 0, 2, 0]) with
  | none => rfl
  | some s1 =>
    rw [hs] at h
    simp only [Option.map_some', Option.some.injEq, Prod.mk.injEq] at h
    obtain ⟨hctrl, _, hIn⟩ := h
    show handleControllerInPacket envNullHang fuel s1 = none
    rw [handleControllerInPacket_dataTX envNullHang fuel s1 hctrl,
      writeCtrlEP_nullCursor _
        (by rw [commit_frame envNullHang (fun s => s.epStatusControllerIn 0) (fun _ _ _ => rfl)]
            exact hIn) fuel]
    rfl

/-- C22, amended: the IO-complete transitions on endpoint 0, with max packet size at most
255. In the Control State `dataTX`, for a Transfer Status of a reply from one buffer, or
of a multi-part transfer with the cursor inside its table, in which a fragment after the
first has a null data pointer only if it and all fragments after it are empty,
`handleControllerInPacket` returns with the next min(remaining, max packet size) bytes
of the reply in the packet, and the Control State is `dataTX` while bytes remain and
`idle` once the remaining count is 0; and whenever it returns, from any status, packet
and remaining count make up the count before and the Control State is as said. In
`dataRX` `handleControllerOutPacket` copies the received bytes to the cursor and leaves
`dataRX` while bytes are pending and `statusTX` once the remaining count is 0. In
`statusTX`, `statusRX`, `idle` and `wait` both handlers return with the Control State
`idle`. -/
theorem io_complete_transitions (env : Env) (s : State) (hP : env.epBufferSize ≤ 255) :
    (s.usbCtrlState = .dataTX →
      ((s.epStatusControllerIn 0).isMultiPart = false →
        ∀ fuel, ∃ s', handleControllerInPacket env fuel s = some s' ∧
          s'.inPacket = memBytes s.mem (s.epStatusControllerIn 0).memBuffer
            (min (s.epStatusControllerIn 0).transferCount env.epBufferSize) ∧
          (s'.epStatusControllerIn 0).transferCount = (s.epStatusControllerIn 0).transferCount -
            min (s.epStatusControllerIn 0).transferCount env.epBufferSize ∧
          s'.usbCtrlState =
            if (s'.epStatusControllerIn 0).transferCount = 0 then .idle else .dataTX) ∧
      (∀ T j o fuel, MultiPartAt env T s j o → nullOnlyAtEnd env.flash T →
        env.epBufferSize + T.count ≤ fuel →
        ∃ s', handleControllerInPacket env fuel s = some s' ∧
          s'.inPacket = (bytesFrom env.flash s.mem T j o).take
            (min (s.epStatusControllerIn 0).transferCount env.epBufferSize) ∧
          (s'.epStatusControllerIn 0).transferCount = (s.epStatusControllerIn 0).transferCount -
            min (s.epStatusControllerIn 0).transferCount env.epBufferSize ∧
          s'.usbCtrlState =
            if (s'.epStatusControllerIn 0).transferCount = 0 then .idle else .dataTX) ∧
      (∀ fuel s', handleControllerInPacket env fuel s = some s' →
        s'.inPacket.length + (s'.epStatusControllerIn 0).transferCount =
          (s.epStatusControllerIn 0).transferCount ∧
        s'.usbCtrlState =
          if (s'.epStatusControllerIn 0).transferCount = 0 then .idle else .dataTX)) ∧
    (s.usbCtrlState = .dataRX →
      (∀ a, (handleControllerOutPacket env s).mem a =
        if (s.epStatusControllerOut 0).memBuffer ≤ a ∧
            a < (s.epStatusControllerOut 0).memBuffer +
              min (s.endpoints 0).controllerOut.CNT (s.epStatusControllerOut 0).transferCount % 256
        then s.epBuffer 0 (a - (s.epStatusControllerOut 0).memBuffer) else s.mem a) ∧
      ((handleControllerOutPacket env s).epStatusControllerOut 0).transferCount =
        (s.epStatusControllerOut 0).transferCount -
          min (s.endpoints 0).controllerOut.CNT (s.epStatusControllerOut 0).transferCount ∧
      (handleControllerOutPacket env s).usbCtrlState =
        if ((handleControllerOutPacket env s).epStatusControllerOut 0).transferCount = 0
        then .statusTX else .dataRX) ∧
    (s.usbCtrlState = .statusTX ∨ s.usbCtrlState = .statusRX ∨ s.usbCtrlState = .idle ∨
        s.usbCtrlState = .wait →
      (handleControllerOutPacket env s).usbCtrlState = .idle ∧
      ∀ fuel, ∃ s', handleControllerInPacket env fuel s = some s' ∧ s'.usbCtrlState = .idle) := by
  have hc_In : (handleControllerInPacket.commit env s).epStatusControllerIn =
      s.epStatusControllerIn := commit_frame env State.epStatusControllerIn (fun _ _ _ => rfl) s
  have hc_mem : (handleControllerInPacket.commit env s).mem = s.mem :=
    commit_frame env State.mem (fun _ _ _ => rfl) s
  -- every call in `dataTX` that returns
  have hret : s.usbCtrlState = .dataTX → ∀ fuel s',
      handleControllerInPacket env fuel s = some s' →
      ∃ b s2, writeCtrlEP env fuel (handleControllerInPacket.commit env s) = some (b, s2) ∧
        s'.inPacket = s2.inPacket ∧
        s'.epStatusControllerIn 0 = s2.epStatusControllerIn 0 ∧
        s'.inPacket.length + (s'.epStatusControllerIn 0).transferCount =
          (s.epStatusControllerIn 0).transferCount ∧
        s'.usbCtrlState =
          if (s'.epStatusControllerIn 0).transferCount = 0 then .idle else .dataTX := by
    intro hs fuel s' h
    rw [handleControllerInPacket_dataTX env fuel s hs] at h
    cases hw : writeCtrlEP env fuel (handleControllerInPacket.commit env s) with
    | none => rw [hw] at h; cases h
    | some r =>
      obtain ⟨b, s2⟩ := r
      rw [hw] at h
      simp only [Option.map_some', Option.some.injEq] at h
      obtain ⟨hlen, hb⟩ := writeCtrlEP_count env _ s2 b fuel hw
      have hctrl : s2.usbCtrlState = .dataTX := by
        rw [writeCtrlEP_frame env State.usbCtrlState (fun _ _ => rfl) (fun _ _ _ _ _ => rfl)
          (fun _ _ _ _ => rfl) (fun _ _ _ => rfl) fuel _ s2 b hw,
          commit_frame env State.usbCtrlState (fun _ _ _ => rfl), hs]
      rw [hc_In] at hlen
      subst h
      refine ⟨b, s2, rfl, ?_⟩
      cases b
      · have hne : (s2.epStatusControllerIn 0).transferCount ≠ 0 := by
          intro h0; rw [h0] at hb; simp at hb
        refine ⟨rfl, rfl, hlen, ?_⟩
        show s2.usbCtrlState = if (s2.epStatusControllerIn 0).transferCount = 0 then _ else _
        rw [if_neg hne, hctrl]
      · have he : (s2.epStatusControllerIn 0).transferCount = 0 := by
          simpa using hb.symm
        refine ⟨rfl, rfl, hlen, ?_⟩
        show ctrlState_t.idle = if (s2.epStatusControllerIn 0).transferCount = 0 then _ else _
        rw [if_pos he]
  refine ⟨?_, ?_, ?_⟩
  · intro hs
    have heq := handleControllerInPacket_dataTX env
    refine ⟨?_, ?_, ?_⟩
    · intro hmp fuel
      obtain ⟨s2, hw, hpk, _, hst⟩ := writeCtrlEP_single env
        (handleControllerInPacket.commit env s) fuel hP (by rw [hc_In]; exact hmp)
      rw [hc_In] at hw hpk hst
      rw [hc_mem] at hpk
      have hsome : ∃ s', handleControllerInPacket env fuel s = some s' := by
        rw [heq fuel s hs, hw]
        exact ⟨_, rfl⟩
      obtain ⟨s', hs'⟩ := hsome
      obtain ⟨b, s2', hw', h1, h2, _, h4⟩ := hret hs fuel s' hs'
      rw [hw] at hw'
      simp only [Option.some.injEq, Prod.mk.injEq] at hw'
      obtain ⟨_, rfl⟩ := hw'
      refine ⟨s', hs', by rw [h1, hpk], by rw [h2, hst], h4⟩
    · intro T j o fuel hinv hnull hfuel
      obtain ⟨s2, hw, hpk, _, hcount, _⟩ := writeCtrlEP_multiPart env T
        (handleControllerInPacket.commit env s) j o hP
        (MultiPartAt_congr env T s _ j o hc_In hc_mem hinv) hnull fuel hfuel
      rw [hc_In] at hw hpk hcount
      rw [hc_mem] at hpk
      have hsome : ∃ s', handleControllerInPacket env fuel s = some s' := by
        rw [heq fuel s hs, hw]
        exact ⟨_, rfl⟩
      obtain ⟨s', hs'⟩ := hsome
      obtain ⟨b, s2', hw', h1, h2, _, h4⟩ := hret hs fuel s' hs'
      rw [hw] at hw'
      simp only [Option.some.injEq, Prod.mk.injEq] at hw'
      obtain ⟨_, rfl⟩ := hw'
      refine ⟨s', hs', by rw [h1, hpk], by rw [h2, hcount], h4⟩
    · intro fuel s' h
      obtain ⟨_, _, _, _, _, h3, h4⟩ := hret hs fuel s' h
      exact ⟨h3, h4⟩
  · intro hs
    have hspec := readCtrlEP_spec s
    obtain ⟨hmemr, hst, hflag⟩ := hspec
    refine ⟨?_, ?_⟩
    · intro a
      rw [← hmemr a]
      unfold handleControllerOutPacket
      simp only [hs, if_true]
      split <;> rfl
    · unfold handleControllerOutPacket
      simp only [hs, if_true, setEPOut_epStatusControllerOut, setEPOut_usbCtrlState]
      generalize (s.epStatusControllerOut 0).transferCount -
        min (s.endpoints 0).controllerOut.CNT (s.epStatusControllerOut 0).transferCount = r' at *
      by_cases h0 : r' = 0
      · have hb : (readCtrlEP s).1 = true := by rw [hflag]; simp [h0]
        simp only [hb, if_true, hst, h0, and_self]
      · have hb : (readCtrlEP s).1 = false := by rw [hflag]; simp [h0]
        have hctrl : (readCtrlEP s).2.usbCtrlState = s.usbCtrlState := by
          unfold readCtrlEP; rfl
        simp only [hb, Bool.false_eq_true, if_false, hst, h0, hctrl, hs, and_self]
  · intro hs
    have hne : s.usbCtrlState ≠ .dataTX := by rcases hs with h | h | h | h <;> rw [h] <;> decide
    have hne' : s.usbCtrlState ≠ .dataRX := by rcases hs with h | h | h | h <;> rw [h] <;> decide
    refine ⟨?_, ?_⟩
    · unfold handleControllerOutPacket
      simp only [hne', if_false, setEPOut_usbCtrlState]
    · intro fuel
      rw [handleControllerInPacket_other env fuel s hne]
      exact ⟨_, rfl, rfl⟩

/-- C22, a witness: the sample keyboard with 8 byte packets in `dataTX`, 18 bytes of the
device descriptor remaining. -/
theorem io_complete_transitions_witness :
    ∃ s', handleControllerInPacket keyboard8 0
        { sampleState with
          usbCtrlState := .dataTX
          epStatusControllerIn := fun _ =>
            { sampleStatus with memBuffer := 0x2100, transferCount := 18 } } = some s' ∧
      s'.inPacket = [0, 1, 2, 3, 4, 5, 6, 7] ∧
      (s'.epStatusControllerIn 0).transferCount = 10 ∧ s'.usbCtrlState = .dataTX := by
  obtain ⟨s', h1, h2, h3, h4⟩ := ((io_complete_transitions keyboard8
    { sampleState with
      usbCtrlState := .dataTX
      epStatusControllerIn := fun _ =>
        { sampleStatus with memBuffer := 0x2100, transferCount := 18 } } (by decide)).1 rfl).1 rfl 0
  have h3' : (s'.epStatusControllerIn 0).transferCount = 10 := h3.trans (by decide)
  refine ⟨s', h1, h2.trans (by decide), h3', ?_⟩
  rw [h4, h3']
  rfl

/-- C23 fails as stated. With a max packet size of 300 and 300 bytes remaining, `writeCtrlEP`
places 44 bytes in the packet (the count is a `uint8_t`) and leaves 256 remaining, not
min(300, 300) bytes and 0. And in `envNullHang`, where the second fragment of the
configuration table is empty with a null data pointer and packets hold one byte, the call of
`writeCtrlEP` that follows the first packet of GET_DESCRIPTOR(CONFIGURATION) of 2 bytes,
with one byte remaining, does not return, whatever the fuel. -/
theorem remaining_count_counterexample :
    (writeCtrlEP { keyboard with epBufferSize := 300 } 0
        { sampleState with
          epStatusControllerIn := fun _ =>
            { sampleStatus with memBuffer := 0x2100, transferCount := 300 } }).map
        (fun r => (r.1, r.2.inPacket.length, (r.2.epStatusControllerIn 0).transferCount)) =
      some (false, 44, 256) ∧
    (handleSetupPacket envNullHang 8 (setupState [0x80, 6, 0, 2, 0, 0, 2, 0])).map
        (fun s => (s.epStatusControllerIn 0).transferCount) = some 1 ∧
    ∀ fuel, (handleSetupPacket envNullHang 8 (setupState [0x80, 6, 0, 2, 0, 0, 2, 0])).bind
      (writeCtrlEP envNullHang fuel) = none := by
  have h : (handleSetupPacket envNullHang 8 (setupState [0x80, 6, 0, 2, 0, 0, 2, 0])).map
      (fun s => s.epStatusControllerIn 0) = some nullCursorStatus := by decide
  refine ⟨by decide, by decide, ?_⟩
  intro fuel
  cases hs : handleSetupPacket envNullHang 8 (setupState [0x80, 6, 0, 2, 0, 0, 2, 0]) with
  | none => rfl
  | some s1 =>
    rw [hs] at h
    simp only [Option.map_some', Option.some.injEq] at h
    exact writeCtrlEP_nullCursor s1 h fuel

/-- C23, amended: the remaining-count invariant, for a max packet size `P` from 1 to 255.
Every call of `writeCtrlEP` that returns, from remaining count `r`, has a packet of
min(r, P) bytes, leaves the remaining count r - min(r, P), not larger than before, and
returns true exactly when that is 0. For a Transfer Status of a reply from one buffer, or
of a multi-part transfer with the cursor inside its table, in which a fragment after the
first has a null data pointer only if it and all fragments after it are empty, the call
returns and the packet holds the next min(r, P) bytes of the reply; the transfer then
completes after exactly max(1, ceil(r / P)) calls, whose packets hold the `r` bytes. The
remaining count after `readCtrlEP` is not larger than before. -/
theorem remaining_count_invariant (env : Env) (s : State)
    (hP1 : 1 ≤ env.epBufferSize) (hP : env.epBufferSize ≤ 255) :
    (∀ fuel b s', writeCtrlEP env fuel s = some (b, s') →
      s'.inPacket.length = min (s.epStatusControllerIn 0).transferCount env.epBufferSize ∧
      (s'.epStatusControllerIn 0).transferCount = (s.epStatusControllerIn 0).transferCount -
        min (s.epStatusControllerIn 0).transferCount env.epBufferSize ∧
      (s'.epStatusControllerIn 0).transferCount ≤ (s.epStatusControllerIn 0).transferCount ∧
      (b = true ↔ (s'.epStatusControllerIn 0).transferCount = 0)) ∧
    ((s.epStatusControllerIn 0).isMultiPart = false →
      ∀ fuel, ∃ b s', writeCtrlEP env fuel s = some (b, s') ∧
        s'.inPacket = memBytes s.mem (s.epStatusControllerIn 0).memBuffer
          (min (s.epStatusControllerIn 0).transferCount env.epBufferSize)) ∧
    (∀ T j o fuel, MultiPartAt env T s j o → env.epBufferSize + T.count ≤ fuel →
      (∃ r, writeCtrlEP env fuel s = some r) ∧
      (nullOnlyAtEnd env.flash T →
        ∃ b s', writeCtrlEP env fuel s = some (b, s') ∧
          s'.inPacket = (bytesFrom env.flash s.mem T j o).take
            (min (s.epStatusControllerIn 0).transferCount env.epBufferSize))) ∧
    (∀ fuel calls packets s', writeAll env fuel calls s = some (packets, s') →
      packets.length = max 1 (((s.epStatusControllerIn 0).transferCount +
        env.epBufferSize - 1) / env.epBufferSize) ∧
      packets.length ≤ calls) ∧
    ((s.epStatusControllerIn 0).isMultiPart = false →
      ∀ fuel, ∃ packets s', writeAll env fuel (max 1 (((s.epStatusControllerIn 0).transferCount +
        env.epBufferSize - 1) / env.epBufferSize)) s = some (packets, s') ∧
        packets.flatten = memBytes s.mem (s.epStatusControllerIn 0).memBuffer
          (s.epStatusControllerIn 0).transferCount) ∧
    (∀ T j o fuel, MultiPartAt env T s j o → nullOnlyAtEnd env.flash T →
      env.epBufferSize + T.count ≤ fuel →
      ∃ packets s', writeAll env fuel (max 1 (((s.epStatusControllerIn 0).transferCount +
        env.epBufferSize - 1) / env.epBufferSize)) s = some (packets, s') ∧
        packets.flatten =
          (bytesFrom env.flash s.mem T j o).take (s.epStatusControllerIn 0).transferCount) ∧
    ((readCtrlEP s).2.epStatusControllerOut 0).transferCount ≤
      (s.epStatusControllerOut 0).transferCount := by
  refine ⟨?_, ?_, ?_, ?_, ?_, ?_, ?_⟩
  · intro fuel b s' h
    obtain ⟨h1, h2, h3⟩ := writeCtrlEP_remaining env s s' b fuel hP h
    refine ⟨h1, h2, by omega, ?_⟩
    rw [h3]
    simp
  · intro hmp fuel
    obtain ⟨s', hw, hpk, _⟩ := writeCtrlEP_single env s fuel hP hmp
    exact ⟨_, s', hw, hpk⟩
  · intro T j o fuel hinv hfuel
    refine ⟨writeCtrlEP_multiPart_returns env T s j o hP hinv fuel hfuel, ?_⟩
    intro hnull
    obtain ⟨s', hw, hpk, _⟩ := writeCtrlEP_multiPart env T s j o hP hinv hnull fuel hfuel
    exact ⟨_, s', hw, hpk⟩
  · intro fuel calls packets s' h
    obtain ⟨h1, h2, _⟩ := writeAll_calls env hP1 hP fuel calls s s' packets h
    exact ⟨h1, h2⟩
  · intro hmp fuel
    obtain ⟨packets, s', h, hfl⟩ := writeAll_single env fuel hP1 hP
      ((s.epStatusControllerIn 0).transferCount + 1) s hmp (by omega)
    obtain ⟨h1, _, h3⟩ := writeAll_calls env hP1 hP fuel _ s s' packets h
    rw [h1] at h3
    exact ⟨packets, s', h3, hfl⟩
  · intro T j o fuel hinv hnull hfuel
    obtain ⟨packets, s', h, hfl⟩ := writeAll_multiPart env T hP1 hP hnull fuel hfuel
      ((s.epStatusControllerIn 0).transferCount + 1) s j o hinv (by omega)
    obtain ⟨h1, _, h3⟩ := writeAll_calls env hP1 hP fuel _ s s' packets h
    rw [h1] at h3
    exact ⟨packets, s', h3, hfl⟩
  · rw [(readCtrlEP_spec s).2.1]
    exact Nat.sub_le _ _

/-- C23, a witness: 18 bytes of the device descriptor in 8 byte packets, three calls. -/
theorem remaining_count_invariant_witness :
    ∃ packets s', writeAll keyboard8 0 3
        { sampleState with
          epStatusControllerIn := fun _ => { sampleStatus with memBuffer := 0x2100, transferCount := 18 } } =
        some (packets, s') ∧ packets.length = 3 ∧
      packets.flatten = [0, 1, 2, 3, 4, 5, 6, 7, 8, 9, 10, 11, 12, 13, 14, 15, 16, 17] := by
  have h := remaining_count_invariant keyboard8
    { sampleState with
      epStatusControllerIn := fun _ => { sampleStatus with memBuffer := 0x2100, transferCount := 18 } }
    (by decide) (by decide)
  obtain ⟨packets, s', hw, hfl⟩ := h.2.2.2.2.1 rfl 0
  exact ⟨packets, s', hw, (h.2.2.2.1 0 _ packets s' hw).1.trans (by decide), hfl.trans (by decide)⟩

/-- C24 fails as stated. In the table of one byte at 0x2110, an empty fragment with a
null data pointer and one byte at 0x2300, with max packet size 1, the first call of
`writeCtrlEP` leaves the multi-part flag set, the part index 1 below the count 3, the
cursor at the null start of fragment 1 and the remaining count 1, not more than the
byte left in the table; the next call takes the null cursor for a transfer not yet
started and does not return whatever the fuel. -/
theorem writeCtrlEP_invariant_counterexample :
    (writeCtrlEP envNullHang 4 (multiPartState flashNullHang tableNullHang)).map
        (fun r => (r.1, r.2.epStatusControllerIn 0)) =
      some (false, nullHangState.epStatusControllerIn 0) ∧
    (nullHangState.epStatusControllerIn 0).isMultiPart = true ∧
    (nullHangState.epStatusControllerIn 0).partNumber <
      (nullHangState.epStatusControllerIn 0).partsData.count ∧
    (nullHangState.epStatusControllerIn 0).transferCount ≤
      (bytesFrom flashNullHang nullHangState.mem tableNullHang 1 0).length ∧
    ∀ fuel, writeCtrlEP envNullHang fuel nullHangState = none := by
  refine ⟨by decide, by decide, by decide, by decide, ?_⟩
  intro fuel
  have hstuck : ∀ w : WriteLoop,
      (w.sendAmount = 1 ∧ w.s.epStatusControllerIn 0 = nullHangStatus 0 1 0x2110) ∨
        (w.sendAmount = 17 ∧ w.s.epStatusControllerIn 0 = nullHangStatus 0 2 0x2300) ∨
        (w.sendAmount = 16 ∧ w.s.epStatusControllerIn 0 = nullHangStatus 0 2 0x2301) →
      w.sendAmount ≠ 0 ∧
        (((writeCtrlEP.body envNullHang w).sendAmount = 1 ∧
            (writeCtrlEP.body envNullHang w).s.epStatusControllerIn 0 =
              nullHangStatus 0 1 0x2110) ∨
          ((writeCtrlEP.body envNullHang w).sendAmount = 17 ∧
            (writeCtrlEP.body envNullHang w).s.epStatusControllerIn 0 =
              nullHangStatus 0 2 0x2300) ∨
          ((writeCtrlEP.body envNullHang w).sendAmount = 16 ∧
            (writeCtrlEP.body envNullHang w).s.epStatusControllerIn 0 =
              nullHangStatus 0 2 0x2301)) := by
    intro w hw
    rcases hw with ⟨ha, hs⟩ | ⟨ha, hs⟩ | ⟨ha, hs⟩
    · obtain ⟨h1, h2⟩ := body_congr envNullHang w (nullHangLoop 1 0x2110 1) hs ha
      exact ⟨by omega, Or.inr (Or.inl ⟨h1.trans (by decide), h2.trans (by decide)⟩)⟩
    · obtain ⟨h1, h2⟩ := body_congr envNullHang w (nullHangLoop 2 0x2300 17) hs ha
      exact ⟨by omega, Or.inr (Or.inr ⟨h1.trans (by decide), h2.trans (by decide)⟩)⟩
    · obtain ⟨h1, h2⟩ := body_congr envNullHang w (nullHangLoop 2 0x2301 16) hs ha
      exact ⟨by omega, Or.inr (Or.inr ⟨h1.trans (by decide), h2.trans (by decide)⟩)⟩
  apply writeCtrlEP_none envNullHang nullHangState fuel rfl
  intro s2 hs2
  apply loop_stuck envNullHang _ hstuck
  left
  exact ⟨rfl, hs2.trans (by decide)⟩

/-- C24, amended: in a table in which a fragment after the first has a null data pointer
only if it and all fragments after it are empty, starting from a status with the
multi-part flag set, the part index below the count of the table, the cursor inside the
fragment of that index (or still null before the first call) and the remaining count at
most the bytes left in the table, a call of `writeCtrlEP` returns and leaves the part
index below the count, so that `part` is never asked for the end sentinel, the cursor
inside the fragment of the part index, and the multi-part flag set exactly when the
remaining count is not 0; and while bytes remain the status is again one of that kind,
so the same holds for every later call. -/
theorem writeCtrlEP_multiPart_invariant (env : Env) (T : usbMultiPartTable_t) (s : State)
    (j o fuel : Nat)
    (hP : env.epBufferSize ≤ 255) (hinv : MultiPartAt env T s j o)
    (hnull : nullOnlyAtEnd env.flash T) (hfuel : env.epBufferSize + T.count ≤ fuel) :
    ∃ b s' j' o', writeCtrlEP env fuel s = some (b, s') ∧
      (s'.epStatusControllerIn 0).partsData = T ∧
      (s'.epStatusControllerIn 0).partNumber = j' ∧ j' < T.count ∧
      T.part j' = T._begin + j' ∧ T.part j' < T._end ∧
      (s'.epStatusControllerIn 0).memBuffer = (env.flash (T.part j')).descriptor + o' ∧
      o' ≤ (env.flash (T.part j')).length.val ∧
      ((s'.epStatusControllerIn 0).isMultiPart = true ↔
        (s'.epStatusControllerIn 0).transferCount ≠ 0) ∧
      ((s'.epStatusControllerIn 0).transferCount ≠ 0 →
        ∃ j2 o2, MultiPartAt env T s' j2 o2) := by
  obtain ⟨b, s', j', o', hw, hst, hj', ho'⟩ :=
    writeCtrlEP_multiPart_status env T s j o hP hinv fuel hfuel
  obtain ⟨s'', hw', _, _, hcount, hnext⟩ :=
    writeCtrlEP_multiPart env T s j o hP hinv hnull fuel hfuel
  rw [hw] at hw'
  simp only [Option.some.injEq, Prod.mk.injEq] at hw'
  obtain ⟨_, hs⟩ := hw'
  subst hs
  have hT := hinv.2.1
  have hpart := part_of_lt T j' hj'
  refine ⟨b, s', j', o', hw, ?_, ?_, hj', hpart, ?_, ?_, ho', ?_, ?_⟩
  · rw [hst]; exact hT
  · rw [hst]
  · rw [hpart]
    unfold usbMultiPartTable_t.count at hj'
    omega
  · rw [hst]
  · rw [hst]
    simp
  · intro hne
    rw [hcount] at hne
    obtain ⟨j2, o2, h, _⟩ := hnext hne
    exact ⟨j2, o2, h⟩

theorem writeCtrlEP_multiPart_invariant_witness :
    ∃ b s' j' o', writeCtrlEP keyboard8 14
        (multiPartState keyboard.flash (usbConfigDescriptors keyboard 0)) = some (b, s') ∧
      (s'.epStatusControllerIn 0).partNumber = j' ∧ j' < 6 ∧
      (s'.epStatusControllerIn 0).memBuffer =
        (keyboard8.flash ((usbConfigDescriptors keyboard 0).part j')).descriptor + o' ∧
      (s'.epStatusControllerIn 0).isMultiPart = true := by
  obtain ⟨b, s', j', o', h1, _, h3, h4, _, _, h7, _, h9, _⟩ :=
    writeCtrlEP_multiPart_invariant keyboard8 (usbConfigDescriptors keyboard 0)
      (multiPartState keyboard.flash (usbConfigDescriptors keyboard 0)) 0 0 14 (by decide)
      ⟨rfl, rfl, rfl, by decide, by decide, Or.inr ⟨rfl, rfl, rfl⟩, by decide⟩
      (by decide) (by decide)
  refine ⟨b, s', j', o', h1, h3, h4, h7, ?_⟩
  rw [h9, (writeCtrlEP_remaining keyboard8 _ s' b 14 (by decide) h1).2.1]
  decide

/-- C25: the code misses the claim, `handleSetupPacket` resets the arming flag, the stall
flag and the remaining count of the IN0 Transfer Status but not its multi-part flag, part
index and table. On the sample keyboard, with the Transfer Status left by an unfinished
multi-part transfer of the configuration descriptor: GET_DESCRIPTOR(ENDPOINT) of 7
bytes, answered from the 7 byte buffer at 0x212E holding 46 to 52, places the bytes 53
to 59 of the next fragment of the stale table in the packet, where a fresh Transfer Status
gives 46 to 52; with 8 byte packets GET_DESCRIPTOR(INTERFACE) of 9 bytes leaves the
multi-part flag set; and for GET_CONFIGURATION, answered from the one byte variable
`activeConfig`, `handleSetupPacket` does not return whatever the fuel. -/
theorem handleSetupPacket_stale_flag :
    ((handleStandardRequest keyboard (handleSetupPacket.reset (handleSetupPacket.read keyboard
        (staleAt 1 [0x80, 6, 0, 5, 0, 0, 7, 0])).2)).1 = ⟨.data, 0x212E, 7, .flash⟩ ∧
      memBytes (handleSetupPacket.read keyboard (staleAt 1 [0x80, 6, 0, 5, 0, 0, 7, 0])).2.mem
        0x212E 7 = [46, 47, 48, 49, 50, 51, 52] ∧
      (handleSetupPacket keyboard 8 (staleAt 1 [0x80, 6, 0, 5, 0, 0, 7, 0])).map State.inPacket =
        some [53, 54, 55, 56, 57, 58, 59] ∧
      (handleSetupPacket keyboard 8 (setupState [0x80, 6, 0, 5, 0, 0, 7, 0])).map State.inPacket =
        some [46, 47, 48, 49, 50, 51, 52]) ∧
    ((handleStandardRequest keyboard8 (handleSetupPacket.reset (handleSetupPacket.read keyboard8
        (staleAt 1 [0x80, 6, 0, 4, 0, 0, 9, 0])).2)).1 = ⟨.data, 0x2125, 9, .flash⟩ ∧
      (handleSetupPacket keyboard8 9 (staleAt 1 [0x80, 6, 0, 4, 0, 0, 9, 0])).map
        (fun s1 => (s1.epStatusControllerIn 0).isMultiPart) = some true) ∧
    ((handleStandardRequest keyboard (handleSetupPacket.reset (handleSetupPacket.read keyboard
        (staleAt 4 [0x80, 8, 0, 0, 0, 0, 1, 0])).2)).1 = ⟨.data, 0x2008, 1, .sram⟩ ∧
      ∀ fuel, handleSetupPacket keyboard fuel (staleAt 4 [0x80, 8, 0, 0, 0, 0, 1, 0]) = none) := by
  refine ⟨⟨by decide, by decide, by decide, by decide⟩, ⟨by decide, by decide⟩, by decide, ?_⟩
  intro fuel
  have hflag : (handleSetupPacket.read keyboard (staleAt 4 [0x80, 8, 0, 0, 0, 0, 1, 0])).1 = true := by
    decide
  have harm : ((handleSetupPacket.arm keyboard (handleSetupPacket.read keyboard
      (staleAt 4 [0x80, 8, 0, 0, 0, 0, 1, 0])).2).epStatusControllerIn 0).needsArming = true := by
    decide
  have hIn : (completeSetupPacket.enter keyboard (handleSetupPacket.arm keyboard
      (handleSetupPacket.read keyboard (staleAt 4 [0x80, 8, 0, 0, 0, 0, 1, 0])).2)).epStatusControllerIn 0 =
      { stuckStatus 4 0x2008 with transferCount := 1, memoryType := .sram } := by
    decide
  have hstuck : ∀ w : WriteLoop,
      (w.sendAmount = 1 ∧
          w.s.epStatusControllerIn 0 = { stuckStatus 4 0x2008 with memoryType := .sram }) ∨
        (w.sendAmount = 212 ∧
          w.s.epStatusControllerIn 0 = { stuckStatus 5 0 with memoryType := .sram }) →
      w.sendAmount ≠ 0 ∧
        (((writeCtrlEP.body keyboard w).sendAmount = 1 ∧
            (writeCtrlEP.body keyboard w).s.epStatusControllerIn 0 =
              { stuckStatus 4 0x2008 with memoryType := .sram }) ∨
          ((writeCtrlEP.body keyboard w).sendAmount = 212 ∧
            (writeCtrlEP.body keyboard w).s.epStatusControllerIn 0 =
              { stuckStatus 5 0 with memoryType := .sram })) := by
    intro w hw
    rcases hw with ⟨ha, hs⟩ | ⟨ha, hs⟩
    · obtain ⟨h1, h2⟩ := body_congr keyboard w
        { s := { sampleState with epStatusControllerIn :=
            fun _ => { stuckStatus 4 0x2008 with memoryType := .sram } }
          sendAmount := 1, sendOffset := 0 } hs ha
      refine ⟨by omega, Or.inr ⟨h1.trans (by decide), h2.trans (by decide)⟩⟩
    · obtain ⟨h1, h2⟩ := body_congr keyboard w
        { s := { sampleState with epStatusControllerIn :=
            fun _ => { stuckStatus 5 0 with memoryType := .sram } }
          sendAmount := 212, sendOffset := 0 } hs ha
      refine ⟨by omega, Or.inr ⟨h1.trans (by decide), h2.trans (by decide)⟩⟩
  unfold handleSetupPacket
  simp only [hflag, Bool.not_true, Bool.false_eq_true, if_false]
  rw [completeSetupPacket_armed keyboard fuel _ harm]
  generalize completeSetupPacket.enter keyboard _ = se at hIn
  rw [writeCtrlEP_none keyboard se fuel (by rw [hIn]; rfl)]
  · rfl
  · intro s2 hs2
    apply loop_stuck keyboard _ hstuck
    left
    rw [hIn] at hs2
    exact ⟨by rw [hIn]; rfl, hs2.trans (by decide)⟩

/-- C26 fails as stated. With the configuration table one byte at 0x21FF, an empty
fragment with a null data pointer and one byte at 0x2300 (and three more), max packet
size 1 and the host asking for 2 bytes, the packet of `handleSetupPacket` and the packet
of the following IN0 completion both hold the byte at 0x21FF, while the first two bytes
of the concatenation of the fragments are the bytes at 0x21FF and 0x2300. -/
theorem truncated_multiPart_counterexample :
    (handleSetupPacket envNullMiddle 8 (setupState [0x80, 6, 0, 2, 0, 0, 2, 0])).bind
        (fun s1 => (handleControllerInPacket envNullMiddle 8 s1).map
          (fun s2 => (s1.inPacket, s1.usbCtrlState, s2.inPacket, s2.usbCtrlState))) =
      some ([255], .dataTX, [255], .idle) ∧
    (usbConfigDescriptors envNullMiddle 0).totalLength envNullMiddle.flash = 5 ∧
    (tableBytes envNullMiddle.flash sampleState.mem (usbConfigDescriptors envNullMiddle 0)).take 2 =
      [255, 0] := by
  refine ⟨by decide!, by decide, by decide⟩

/-- C26, amended: for every table in which a fragment after the first has a null data
pointer only if it and all fragments after it are empty, every max packet size from 1 to
255 and every host-requested length `n`, the data stage of a device-to-host
GET_DESCRIPTOR for a configuration or string the responder accepts, the packet of
`handleSetupPacket` followed by the packets of the repeated calls of `writeCtrlEP`, is
exactly the first min(n, totalLength()) bytes of the concatenation of the fragments of
the table; when the first packet holds them all the Control State is `statusRX`, else
`dataTX`. -/
theorem truncated_multiPart_prefix (env : Env) (s : State) (T : usbMultiPartTable_t)
    (fuel calls : Nat)
    (hP1 : 1 ≤ env.epBufferSize) (hP : env.epBufferSize ≤ 255)
    (hcnt : 8 ≤ (s.endpoints 0).controllerOut.CNT)
    (hreq : ((handleSetupPacket.read env s).2.packet env).request = request_t.getDescriptor)
    (hdir : ((handleSetupPacket.read env s).2.packet env).dir = .controllerIn)
    (hT : (((handleSetupPacket.read env s).2.packet env).descriptorType =
          usbDescriptor_t.configuration.toNat ∧
        ((handleSetupPacket.read env s).2.packet env).descriptorIndex < configDescriptorCount ∧
        T = usbConfigDescriptors env
          ((handleSetupPacket.read env s).2.packet env).descriptorIndex) ∨
      (((handleSetupPacket.read env s).2.packet env).descriptorType =
          usbDescriptor_t.string.toNat ∧
        ((handleSetupPacket.read env s).2.packet env).descriptorIndex < stringCount ∧
        T = usbStrings env ((handleSetupPacket.read env s).2.packet env).descriptorIndex))
    (hnull : nullOnlyAtEnd env.flash T)
    (hfuel : env.epBufferSize + T.count ≤ fuel)
    (hcalls : min ((handleSetupPacket.read env s).2.packet env).length
      (T.totalLength env.flash) < calls) :
    ∃ s1, handleSetupPacket env fuel s = some s1 ∧
      (min ((handleSetupPacket.read env s).2.packet env).length (T.totalLength env.flash) ≤
          env.epBufferSize →
        s1.usbCtrlState = .statusRX ∧
        s1.inPacket = (tableBytes env.flash (handleSetupPacket.read env s).2.mem T).take
          (min ((handleSetupPacket.read env s).2.packet env).length (T.totalLength env.flash))) ∧
      (env.epBufferSize <
          min ((handleSetupPacket.read env s).2.packet env).length (T.totalLength env.flash) →
        s1.usbCtrlState = .dataTX ∧
        ∃ packets s2, writeAll env fuel calls s1 = some (packets, s2) ∧
          s1.inPacket ++ packets.flatten =
            (tableBytes env.flash (handleSetupPacket.read env s).2.mem T).take
              (min ((handleSetupPacket.read env s).2.packet env).length
                (T.totalLength env.flash))) := by
  have harmed := fun s3 b => handleSetupPacket_armed env fuel s s3 b hcnt
  generalize (handleSetupPacket.read env s).2 = s0 at *
  -- the responder
  obtain ⟨hg, hc0⟩ := handleGetDescriptor_table env (handleSetupPacket.reset s0) T
    (by rw [reset_packet]; exact hdir) (by simp only [reset_packet]; exact hT)
  have hsr : handleStandardRequest env (handleSetupPacket.reset s0) =
      (⟨.data, 0, T.totalLength env.flash, .flash⟩,
        (handleSetupPacket.reset s0).setIn0
          (fun st => { st with isMultiPart := true, partNumber := 0, partsData := T })) := by
    rw [← hg]
    unfold handleStandardRequest
    simp [reset_packet, hreq, request_t.getDescriptor, request_t.setAddress]
  -- the armed status
  have ha_mem : (handleSetupPacket.arm env s0).mem = s0.mem := by
    rw [arm_frame env State.mem (fun _ _ => rfl), hsr]; rfl
  have ha_arm : ((handleSetupPacket.arm env s0).epStatusControllerIn 0).needsArming = true := by
    rw [arm_needsArming, hsr]; simp
  have ha_mp : ((handleSetupPacket.arm env s0).epStatusControllerIn 0).isMultiPart = true := by
    rw [arm_isMultiPart, hsr]; simp only [setIn0_In0]
  have ha_pd := arm_partsData env s0
  rw [hsr] at ha_pd
  simp only [setIn0_In0] at ha_pd
  have ha_mb : ((handleSetupPacket.arm env s0).epStatusControllerIn 0).memBuffer = 0 := by
    rw [arm_memBuffer, hsr]
  have ha_tc : ((handleSetupPacket.arm env s0).epStatusControllerIn 0).transferCount =
      min (s0.packet env).length (T.totalLength env.flash) := by
    rw [arm_transferCount, hsr]
    have hp : (State.setIn0 (handleSetupPacket.reset s0)
        (fun st => { st with isMultiPart := true, partNumber := 0, partsData := T })).packet env =
        s0.packet env := packet_of_mem env _ _ rfl
    simp only [hp]
    exact Nat.min_comm _ _
  have ha_dir : ((handleSetupPacket.arm env s0).packet env).dir = .controllerIn := by
    rw [packet_of_mem env (handleSetupPacket.arm env s0) s0 ha_mem]; exact hdir
  generalize handleSetupPacket.arm env s0 = sa at *
  have he_In : (completeSetupPacket.enter env sa).epStatusControllerIn = sa.epStatusControllerIn :=
    enter_frame env State.epStatusControllerIn (fun _ _ _ => rfl) sa
  have he_mem : (completeSetupPacket.enter env sa).mem = sa.mem :=
    enter_frame env State.mem (fun _ _ _ => rfl) sa
  generalize completeSetupPacket.enter env sa = se at *
  generalize harmedDef : min (s0.packet env).length (T.totalLength env.flash) = armed at *
  have hXlen : armed ≤ (tableBytes env.flash s0.mem T).length := by
    have := totalLength_le_length env.flash s0.mem T
    omega
  have hinv : MultiPartAt env T se 0 0 := by
    unfold MultiPartAt
    rw [he_In, he_mem, ha_mp, ha_pd.1, ha_pd.2, ha_mb, ha_tc, ha_mem,
      ← tableBytes_eq_bytesFrom env.flash s0.mem T hc0]
    exact ⟨rfl, rfl, rfl, hc0, Nat.zero_le _, Or.inr ⟨rfl, rfl, rfl⟩, hXlen⟩
  obtain ⟨s3, hw, hpk, hmem3, hcount, hnext⟩ :=
    writeCtrlEP_multiPart env T se 0 0 hP hinv hnull fuel hfuel
  rw [he_In, ha_tc] at hw hpk hcount hnext
  rw [he_mem, ha_mem, ← tableBytes_eq_bytesFrom env.flash s0.mem T hc0] at hpk hnext
  rw [he_mem, ha_mem] at hmem3
  have hs1 := harmed s3 _ ha_arm hw
  refine ⟨_, hs1, ?_, ?_⟩
  · intro hle
    have hn : min armed env.epBufferSize = armed := by omega
    have hb : (armed - min armed env.epBufferSize == 0) = true := by simp [hn]
    refine ⟨?_, ?_⟩
    · show (if _ then (if _ then _ else _) else (if _ then _ else _)) = _
      rw [ha_dir, hb]
      rfl
    · show s3.inPacket = _
      rw [hpk, hn]
  · intro hgt
    have hn : min armed env.epBufferSize = env.epBufferSize := by omega
    have hne : armed - min armed env.epBufferSize ≠ 0 := by omega
    have hb : (armed - min armed env.epBufferSize == 0) = false := by simp [hne]
    refine ⟨?_, ?_⟩
    · show (if _ then (if _ then _ else _) else (if _ then _ else _)) = _
      rw [ha_dir, hb]
      rfl
    · obtain ⟨j', o', hinv', hbf⟩ := hnext hne
      generalize hs1def : handleSetupPacket.clearFlag env _ = s1 at hs1
      have h1_In : s1.epStatusControllerIn = s3.epStatusControllerIn := by rw [← hs1def]; rfl
      have h1_mem : s1.mem = s3.mem := by rw [← hs1def]; rfl
      have h1_pk : s1.inPacket = s3.inPacket := by rw [← hs1def]; rfl
      have hinv1 := MultiPartAt_congr env T s3 s1 j' o' h1_In h1_mem hinv'
      obtain ⟨packets, s2, hwa, hfl⟩ := writeAll_multiPart env T hP1 hP hnull fuel hfuel calls
        s1 j' o' hinv1 (by rw [h1_In, hcount]; omega)
      refine ⟨packets, s2, hwa, ?_⟩
      rw [hfl, h1_pk, hpk, h1_mem, hbf, h1_In, hcount, hn]
      have hsplit : armed = env.epBufferSize + (armed - env.epBufferSize) := by omega
      conv_rhs => rw [hsplit, List.take_add]

theorem truncated_multiPart_prefix_witness :
    ∃ s1 packets s2,
      handleSetupPacket keyboard8 14 (setupState [0x80, 6, 0, 2, 0, 0, 20, 0]) = some s1 ∧
      s1.usbCtrlState = .dataTX ∧
      writeAll keyboard8 14 21 s1 = some (packets, s2) ∧
      s1.inPacket ++ packets.flatten =
        (tableBytes keyboard8.flash
          (handleSetupPacket.read keyboard8 (setupState [0x80, 6, 0, 2, 0, 0, 20, 0])).2.mem
          (usbConfigDescriptors keyboard8 0)).take 20 := by
  obtain ⟨s1, h1, _, h3⟩ :=
    truncated_multiPart_prefix keyboard8 (setupState [0x80, 6, 0, 2, 0, 0, 20, 0])
      (usbConfigDescriptors keyboard8 0) 14 21 (by decide) (by decide) (by decide) (by decide)
      (by decide) (Or.inl ⟨by decide, by decide, rfl⟩) (by decide) (by decide) (by decide)
  have hmin : min ((handleSetupPacket.read keyboard8
      (setupState [0x80, 6, 0, 2, 0, 0, 20, 0])).2.packet keyboard8).length
      ((usbConfigDescriptors keyboard8 0).totalLength keyboard8.flash) = 20 := by decide
  rw [hmin] at h3
  obtain ⟨h4, packets, s2, h5, h6⟩ := h3 (by decide)
  exact ⟨s1, packets, s2, h1, h4, h5, h6⟩

/-- C27: termination of the fragment loop. For every table, zero-length fragments
included, and every state of the loop with the cursor at offset `o` of fragment `j`:
when the quota `sendAmount` does not exceed the bytes of the table from the cursor on,
the loop ends within `sendAmount + count()` iterations with the quota used up, and an
iteration with quota left copies at least one byte or advances the part index and leaves
a state of the same kind; with the cursor at the end of the last fragment and quota left
an iteration changes neither the quota nor the Transfer Status and the loop does not end
whatever the fuel. -/
theorem fragment_loop_terminates (env : Env) (T : usbMultiPartTable_t) (w : WriteLoop)
    (j o : Nat)
    (hT : (w.s.epStatusControllerIn 0).partsData = T)
    (hj : (w.s.epStatusControllerIn 0).partNumber = j)
    (hjk : j < T.count)
    (hc : (w.s.epStatusControllerIn 0).memBuffer = (env.flash (T.part j)).descriptor + o)
    (ho : o ≤ (env.flash (T.part j)).length.val)
    (hoff : w.sendOffset + w.sendAmount ≤ 255) :
    (w.sendAmount ≤ (bytesFrom env.flash w.s.mem T j o).length →
      (∃ w', writeCtrlEP.loop env (w.sendAmount + T.count) w = some w' ∧ w'.sendAmount = 0) ∧
      (w.sendAmount ≠ 0 →
        ((writeCtrlEP.body env w).sendAmount < w.sendAmount ∨
          ((writeCtrlEP.body env w).s.epStatusControllerIn 0).partNumber > j) ∧
        ∃ j2 o2,
          ((writeCtrlEP.body env w).s.epStatusControllerIn 0).partsData = T ∧
          ((writeCtrlEP.body env w).s.epStatusControllerIn 0).partNumber = j2 ∧
          j2 < T.count ∧
          ((writeCtrlEP.body env w).s.epStatusControllerIn 0).memBuffer =
            (env.flash (T.part j2)).descriptor + o2 ∧
          o2 ≤ (env.flash (T.part j2)).length.val ∧
          (writeCtrlEP.body env w).sendOffset + (writeCtrlEP.body env w).sendAmount ≤ 255 ∧
          (writeCtrlEP.body env w).sendAmount ≤
            (bytesFrom env.flash (writeCtrlEP.body env w).s.mem T j2 o2).length)) ∧
    (j + 1 = T.count → o = (env.flash (T.part j)).length.val → w.sendAmount ≠ 0 →
      (writeCtrlEP.body env w).sendAmount = w.sendAmount ∧
      (writeCtrlEP.body env w).s.epStatusControllerIn 0 = w.s.epStatusControllerIn 0 ∧
      ∀ fuel, writeCtrlEP.loop env fuel w = none) := by
  refine ⟨?_, ?_⟩
  · intro ha
    refine ⟨?_, ?_⟩
    · obtain ⟨w', _, _, hl, _⟩ := loop_spec env T w.s.mem (w.sendAmount + T.count) w j o
        hT hj hjk hc ho rfl ha hoff (by omega)
      exact ⟨w', hl, loop_sendAmount env _ w w' hl⟩
    · intro ha0
      obtain ⟨p, j2, o2, h1, h2, h3, h4, h5, h6, h7, h8, h9, _⟩ :=
        body_position env T w.s.mem w j o hT hj hjk hc ho ha hoff ha0
      have hmem := body_mem env w
      refine ⟨?_, j2, o2, ?_, ?_, h6, ?_, h7, ?_, ?_⟩
      · rw [h3, h5]
        show w.sendAmount - p < w.sendAmount ∨ j2 > j
        omega
      · rw [h5]; exact hT
      · rw [h5]
      · rw [h5]
      · rw [h3, h4]; omega
      · rw [h3, hmem, h8, List.length_drop]; omega
  · intro hlast hend ha0
    subst hend
    obtain ⟨e1, _, e3⟩ := body_at_end env w T j hT hj hc hlast hoff
    exact ⟨e1, e3, loop_at_end env w T j hT hj hc hlast hoff ha0⟩

theorem fragment_loop_terminates_witness :
    (∃ w', writeCtrlEP.loop keyboard (4 + (usbConfigDescriptors keyboard 0).count)
        (stuckLoop 0 0x211C 4) = some w' ∧ w'.sendAmount = 0) ∧
    ∀ fuel, writeCtrlEP.loop keyboard fuel (stuckLoop 5 0 221) = none :=
  ⟨((fragment_loop_terminates keyboard (usbConfigDescriptors keyboard 0) (stuckLoop 0 0x211C 4)
      0 0 rfl rfl (by decide) (by decide) (by decide) (by decide)).1 (by decide)).1,
    ((fragment_loop_terminates keyboard (usbConfigDescriptors keyboard 0) (stuckLoop 5 0 221)
      5 0 rfl rfl (by decide) (by decide) (by decide) (by decide)).2
        (by decide) (by decide) (by decide)).2.2⟩

/-- C28: the configuration round trip. After a SET_CONFIGURATION with configuration value
`c`, a GET_CONFIGURATION in a later state in which `activeConfig` has not been written
since has the outcome `data` of length 1 from RAM, the byte at `&activeConfig`: that byte
is `c` when `c` is at most `configDescriptorCount`, and it is the active configuration
from before the SET_CONFIGURATION when `c` is greater and the request was rejected. -/
theorem configuration_round_trip (env : Env) (s s2 : State)
    (hset : (s.packet env).request = request_t.setConfiguration)
    (hkeep : s2.mem env.addrActiveConfig =
      (handleStandardRequest env s).2.mem env.addrActiveConfig)
    (hget : (s2.packet env).request = request_t.getConfiguration) :
    (handleStandardRequest env s2).1 = ⟨.data, env.addrActiveConfig, 1, .sram⟩ ∧
    ((s.packet env).asConfiguration ≤ configDescriptorCount →
      (handleStandardRequest env s).1.response = .zeroLength ∧
      s2.mem (handleStandardRequest env s2).1.data = (s.packet env).asConfiguration) ∧
    ((s.packet env).asConfiguration > configDescriptorCount →
      (handleStandardRequest env s).1.response = .stall ∧
      s2.mem (handleStandardRequest env s2).1.data = s.activeConfig env) := by
  obtain ⟨hresp, hmem⟩ := handleStandardRequest_setConfiguration env s hset
  rw [hmem] at hkeep
  rw [handleStandardRequest_getConfiguration env s2 hget, hresp]
  refine ⟨rfl, ?_, ?_⟩
  · intro hc
    have hc' : ¬ (s.packet env).asConfiguration > configDescriptorCount := by omega
    rw [if_neg hc'] at hkeep ⊢
    refine ⟨rfl, ?_⟩
    show s2.mem env.addrActiveConfig = _
    rw [hkeep, Function.update_same]
  · intro hc
    rw [if_pos hc] at hkeep ⊢
    exact ⟨rfl, hkeep⟩

theorem configuration_round_trip_witness :
    (handleStandardRequest keyboard (handleSetupPacket.read keyboard
      { (handleStandardRequest keyboard (packetState [0, 9, 1, 0, 0, 0, 0, 0])).2 with
        endpoints := fun _ => ⟨⟨0x10, 0, 8⟩, ⟨0, 0, 0⟩⟩
        epBuffer := fun _ i => [0x80, 8, 0, 0, 0, 0, 1, 0].getD i 0 }).2).1 =
      ⟨.data, keyboard.addrActiveConfig, 1, .sram⟩ ∧
    (handleSetupPacket.read keyboard
      { (handleStandardRequest keyboard (packetState [0, 9, 1, 0, 0, 0, 0, 0])).2 with
        endpoints := fun _ => ⟨⟨0x10, 0, 8⟩, ⟨0, 0, 0⟩⟩
        epBuffer := fun _ i => [0x80, 8, 0, 0, 0, 0, 1, 0].getD i 0 }).2.mem
      keyboard.addrActiveConfig = 1 := by
  have h := configuration_round_trip keyboard (packetState [0, 9, 1, 0, 0, 0, 0, 0])
    (handleSetupPacket.read keyboard
      { (handleStandardRequest keyboard (packetState [0, 9, 1, 0, 0, 0, 0, 0])).2 with
        endpoints := fun _ => ⟨⟨0x10, 0, 8⟩, ⟨0, 0, 0⟩⟩
        epBuffer := fun _ i => [0x80, 8, 0, 0, 0, 0, 1, 0].getD i 0 }).2
    (by decide) (by decide) (by decide)
  exact ⟨h.1, ((h.2.1 (by decide)).2.symm.trans (by rw [h.1])).symm.trans (by decide)⟩

/-- C29: the code at the failing input. The device descriptor names the strings 1 and 2
and the configuration descriptor the string 4; `stringCount` is 4 and the responder
accepts a string index only below it: the device-to-host GET_DESCRIPTOR(STRING, 4) has
the outcome `unhandled` with no table set up, and `handleSetupPacket` answers it with a
stall, while the indices 1 and 2 have the outcome `data` with the tables `usbStrings[1]`
and `usbStrings[2]`. -/
theorem getDescriptor_string_4_unhandled :
    (usbDeviceDesc keyboard).strMfrIndex = 1 ∧
    (usbDeviceDesc keyboard).strProductIndex = 2 ∧
    (usbConfigDesc keyboard).map usbConfigDescriptor_t.strConfigurationIndex = [4] ∧
    stringCount = 4 ∧
    ((packetState [0x80, 6, 4, 3, 0, 0, 255, 0]).packet keyboard).dir = .controllerIn ∧
    (handleGetDescriptor keyboard (packetState [0x80, 6, 4, 3, 0, 0, 255, 0])).1 =
      answer_t.unhandled ∧
    ((handleGetDescriptor keyboard (packetState [0x80, 6, 4, 3, 0, 0, 255, 0])).2.epStatusControllerIn
      0).isMultiPart = false ∧
    (handleSetupPacket keyboard 0 (setupState [0x80, 6, 4, 3, 0, 0, 255, 0])).map
        (fun s => ((s.endpoints 0).controllerIn.CTRL, s.inPacket, s.usbCtrlState)) =
      some (4, [], .idle) ∧
    (handleGetDescriptor keyboard (packetState [0x80, 6, 1, 3, 0, 0, 255, 0])).1.response =
      .data ∧
    ((handleGetDescriptor keyboard (packetState [0x80, 6, 1, 3, 0, 0, 255, 0])).2.epStatusControllerIn
      0).partsData = usbStrings keyboard 1 ∧
    (handleGetDescriptor keyboard (packetState [0x80, 6, 2, 3, 0, 0, 255, 0])).1.response =
      .data ∧
    ((handleGetDescriptor keyboard (packetState [0x80, 6, 2, 3, 0, 0, 255, 0])).2.epStatusControllerIn
      0).partsData = usbStrings keyboard 2 := by
  decide

end Claims

end usb
